import Mathlib

/-!
Secure multi-signature wallet API: a verification development.

A shallow embedding of the wallet back end (`src/utils/cryptoHelper.js`,
`src/models/WalletModel.js`, `src/controllers/walletController.js`,
`src/middleware/validate.js`).

* JavaScript values are the inductive `JsValue`; a call that can throw returns
  `Except`.
* Money is counted in hundredths (`Int`): the values a two-decimal `DECIMAL`
  column holds (`balance: '1000.00'` is `100000`).  A JavaScript number is
  either such a finite value or one of `NaN`, `Infinity`, `-Infinity`: finer
  fractions have no value here, the rounding of binary floating point is
  modelled only where `parseInt` makes a number of the digits of a query value,
  and a finite value is written the way `Number::toString` writes an amount
  below `1e21`.
* The libraries `crypto` (SHA-256) and `elliptic` (secp256k1 ECDSA) are not
  part of the repository; they are the fields of the structure `Crypto`.
* The MySQL database is the record `Db` of its four tables (the schema is not
  among the sources: column types follow the queries and the tests, and
  `WHERE public_key = ?` compares strings exactly).  One pooled connection runs
  a function body on a working copy, which `commit` keeps and `rollback` throws
  away; `Faults` says which database calls reject.  The same bodies are also
  written statement by statement on a `Connection` (the committed database and
  the view of the open transaction), with `beginTransaction`, `commit` and the
  `rollback` of the `catch` as steps of their own, and proved to agree.
* Calls run one at a time: a sequence of calls is a `List Call`, and what holds
  after every sequence is proved through the relation `Step` of the five ways
  a call commits.  Row locks and interleaved connections are not modelled.
-/

namespace MultiSigWallet

/-! ## JavaScript values -/

/-- A JavaScript number: a finite amount, counted in whole hundredths, or one of the
three non-finite values that `parseFloat` can also return.  A finite number with a finer
fraction has no value here. -/
inductive JsNumber where
  | finite (hundredths : Int)
  | nan
  | posInf
  | negInf
  deriving DecidableEq, Repr

/-- The JavaScript comparison `a < b` on numbers (false whenever `NaN` is involved). -/
def JsNumber.lt : JsNumber → JsNumber → Bool
  | .finite a, .finite b => decide (a < b)
  | .finite _, .posInf => true
  | .negInf, .finite _ => true
  | .negInf, .posInf => true
  | _, _ => false

/-- Whether a number is finite (`Number.isFinite`). -/
def JsNumber.isFinite : JsNumber → Bool
  | .finite _ => true
  | _ => false

/-- The values a `data` argument can take.  An object is the list of its own
enumerable properties in the order `Object.keys` reports them. -/
inductive JsValue where
  | undefined
  | null
  | bool (b : Bool)
  | num (n : JsNumber)
  | str (s : String)
  | arr (items : List JsValue)
  | obj (props : List (String × JsValue))

/-- What a JavaScript call throws. -/
inductive JsError where
  | typeError
  | libraryError
  deriving DecidableEq, Repr

deriving instance DecidableEq for Except

/-! ## `JSON.stringify(data, Object.keys(data).sort())` -/

/-- The lowercase hexadecimal digit of a number below 16. -/
def hexDigit (n : Nat) : Char := Nat.digitChar (n % 16)

/-- `QuoteJSONString` on one character: the two-character escapes, `\u00xx` for the
other control characters, the character itself otherwise.  (A Lean `Char` is never a
lone surrogate, the only other characters JavaScript escapes.) -/
def quoteChar (c : Char) : List Char :=
  if c = '\x08' then ['\\', 'b']
  else if c = '\t' then ['\\', 't']
  else if c = '\n' then ['\\', 'n']
  else if c = '\x0c' then ['\\', 'f']
  else if c = '\r' then ['\\', 'r']
  else if c = '"' then ['\\', '"']
  else if c = '\\' then ['\\', '\\']
  else if c.toNat < 32 then ['\\', 'u', '0', '0', hexDigit (c.toNat / 16), hexDigit c.toNat]
  else [c]

/-- `QuoteJSONString`: the escaped characters between two double quotes. -/
def quoteJSONString (s : String) : List Char :=
  '"' :: (s.toList.flatMap quoteChar ++ ['"'])

/-- The digits after the decimal point of an amount with `r` hundredths, `r < 100`:
none for a whole number, and no trailing zero. -/
def fractionDigits (r : Nat) : List Char :=
  if r = 0 then []
  else if r % 10 = 0 then ['.', Nat.digitChar (r / 10)]
  else ['.', Nat.digitChar (r / 10), Nat.digitChar (r % 10)]

/-- `Number::toString` of a finite amount given in hundredths: `1234` is `12.34`,
`1230` is `12.3`, `1200` is `12`, `-5` is `-0.05`.  This is how JavaScript writes an
amount below `1e21`; from there on it writes an exponent, which is not modelled. -/
def numberToString (h : Int) : List Char :=
  (if h < 0 then ['-'] else []) ++
    (Nat.toDigits 10 (h.natAbs / 100) ++ fractionDigits (h.natAbs % 100))

/-- How `JSON.stringify` writes a number: non-finite numbers become `null`. -/
def serializeNumber : JsNumber → List Char
  | .finite h => numberToString h
  | _ => "null".toList

/-- The UTF-16 code units of a character: itself inside the Basic Multilingual Plane, a
surrogate pair above it. -/
def utf16Units (c : Char) : List Nat :=
  if c.toNat < 0x10000 then [c.toNat]
  else [0xD800 + (c.toNat - 0x10000) / 0x400, 0xDC00 + (c.toNat - 0x10000) % 0x400]

/-- The UTF-16 code units of a string, which is what a JavaScript string is made of. -/
def codes (s : String) : List Nat := s.toList.flatMap utf16Units

/-- The comparison `Array.prototype.sort()` uses without a comparator: two strings are
compared code unit by code unit, a proper prefix first. -/
def codesLe : List Nat → List Nat → Bool
  | [], _ => true
  | _ :: _, [] => false
  | a :: as, b :: bs => decide (a < b) || (decide (a = b) && codesLe as bs)

/-- The relation `sort()` orders property names by. -/
def keyLe (a b : String) : Prop := codesLe (codes a) (codes b) = true

instance : DecidableRel keyLe := fun a b =>
  inferInstanceAs (Decidable (codesLe (codes a) (codes b) = true))

/-- The call `keys.sort()`. -/
def sortKeys (keys : List String) : List String := keys.insertionSort keyLe

/-- The property list `JSON.stringify` builds from a replacer array: its strings in
order, each one kept once. -/
def propertyList (replacer : List String) : List String :=
  replacer.foldl (fun acc k => if k ∈ acc then acc else acc ++ [k]) []

/-- The members of an object, as `SerializeJSONObject` lists them: for every name of
the property list `K`, in that order, whose value (the first property of that name)
serialises to something, the quoted name, a colon and the serialised value. -/
def members (K : List String) (serialised : List (String × Option (List Char))) :
    List (List Char) :=
  K.filterMap fun k =>
    match serialised.lookup k with
    | some (some text) => some (quoteJSONString k ++ ':' :: text)
    | _ => none

/-- The texts joined by commas. -/
def joinComma : List (List Char) → List Char
  | [] => []
  | [x] => x
  | x :: y :: rest => x ++ ',' :: joinComma (y :: rest)

mutual
/-- `SerializeJSONProperty` with the property list `K` and no indentation:
`none` is the result `undefined`. -/
def serializeJSONProperty (K : List String) : JsValue → Option (List Char)
  | .undefined => none
  | .null => some "null".toList
  | .bool true => some "true".toList
  | .bool false => some "false".toList
  | .num n => some (serializeNumber n)
  | .str s => some (quoteJSONString s)
  | .arr items => some ('[' :: (joinComma (serializeItems K items) ++ [']']))
  | .obj props => some ('{' :: (joinComma (members K (serializeProps K props)) ++ ['}']))
/-- The elements of an array, `undefined` written as `null`. -/
def serializeItems (K : List String) : List JsValue → List (List Char)
  | [] => []
  | v :: vs => (serializeJSONProperty K v).getD "null".toList :: serializeItems K vs
/-- The own properties of an object, each value serialised. -/
def serializeProps (K : List String) :
    List (String × JsValue) → List (String × Option (List Char))
  | [] => []
  | (k, v) :: ps => (k, serializeJSONProperty K v) :: serializeProps K ps
end

/-- The call `JSON.stringify(value, replacer)` with an array of strings as replacer. -/
def jsonStringify (value : JsValue) (replacer : List String) : Option (List Char) :=
  serializeJSONProperty (propertyList replacer) value

/-- The call `Object.keys(data)`: it throws on `null` and `undefined`, finds no key in
a number or a boolean and finds the indices of a string or an array. -/
def objectKeys : JsValue → Except JsError (List String)
  | .undefined => .error .typeError
  | .null => .error .typeError
  | .bool _ => .ok []
  | .num _ => .ok []
  | .str s => .ok ((List.range (codes s).length).map fun i => String.mk (Nat.toDigits 10 i))
  | .arr items => .ok ((List.range items.length).map fun i => String.mk (Nat.toDigits 10 i))
  | .obj props => .ok (props.map Prod.fst)

/-- The string `hashData` hashes: `JSON.stringify(data, Object.keys(data).sort())`. -/
def canonicalString (data : JsValue) : Except JsError (Option (List Char)) :=
  match objectKeys data with
  | .error e => .error e
  | .ok keys => .ok (jsonStringify data (sortKeys keys))

/-! ## The libraries `crypto` and `elliptic` -/

/-- The two libraries the helper calls, over the type `Key` of a decoded public key.
A library call that can throw returns `Except`. -/
structure Crypto (Key : Type) where
  /-- The digest `crypto.createHash('sha256').update(text).digest()` read as a number. -/
  sha256 : String → Nat
  /-- The call `ec.keyFromPublic(publicKeyHex, 'hex')`. -/
  keyFromPublic : String → Except JsError Key
  /-- The call `key.verify(hash, signatureHex)`. -/
  verify : Key → String → String → Except JsError Bool
  /-- The call `ec.keyFromPrivate(privateKeyHex, 'hex').sign(hash).toDER('hex')`. -/
  sign : String → String → String
  /-- The call `ec.keyFromPrivate(privateKeyHex, 'hex').getPublic('hex')`. -/
  getPublic : String → String
  /-- Whether a string is a private key `ec.genKeyPair()` can return. -/
  isPrivateKey : String → Bool

/-- The call `digest('hex')`: the 256 bits of a digest as 64 hexadecimal digits. -/
def toHex64 (digest : Nat) : String :=
  String.mk ((List.range 64).map fun i => hexDigit (digest / 16 ^ (63 - i)))

/-- What is expected of the ECDSA library: a signature made with a private key verifies
under the public key that belongs to it, for every digest. -/
def Crypto.SignaturesVerify {Key : Type} (E : Crypto Key) : Prop :=
  ∀ privateKeyHex, E.isPrivateKey privateKeyHex = true → ∀ digest : Nat,
    ∃ key, E.keyFromPublic (E.getPublic privateKeyHex) = .ok key ∧
      E.verify key (toHex64 digest) (E.sign privateKeyHex (toHex64 digest)) = .ok true

/-! ## `src/utils/cryptoHelper.js` -/

section CryptoHelper

variable {Key : Type}

/-- `CryptoHelper.hashData`.  `update(sorted)` throws when `JSON.stringify` returned
`undefined`. -/
def hashData (E : Crypto Key) (data : JsValue) : Except JsError String :=
  match canonicalString data with
  | .error e => .error e
  | .ok none => .error .typeError
  | .ok (some sorted) => .ok (toHex64 (E.sha256 (String.mk sorted)))

/-- `CryptoHelper.signData`. -/
def signData (E : Crypto Key) (privateKeyHex : String) (data : JsValue) :
    Except JsError String :=
  match hashData E data with
  | .error e => .error e
  | .ok hash => .ok (E.sign privateKeyHex hash)

/-- The `try` block of `CryptoHelper.verifySignature`. -/
def verifySignatureTry (E : Crypto Key) (publicKeyHex : String) (data : JsValue)
    (signatureHex : String) : Except JsError Bool :=
  match E.keyFromPublic publicKeyHex with
  | .error e => .error e
  | .ok key =>
    match hashData E data with
    | .error e => .error e
    | .ok hash => E.verify key hash signatureHex

/-- `CryptoHelper.verifySignature`: the `try` block, and `false` from the `catch`. -/
def verifySignature (E : Crypto Key) (publicKeyHex : String) (data : JsValue)
    (signatureHex : String) : Except JsError Bool :=
  match verifySignatureTry E publicKeyHex data signatureHex with
  | .ok result => .ok result
  | .error _ => .ok false

end CryptoHelper

/-! ## The database -/

/-- The column `transactions.status`. -/
inductive TxStatus where
  | pending
  | completed
  | rejected
  deriving DecidableEq, Repr

/-- A row of `users`. -/
structure User where
  id : Nat
  username : String
  deriving DecidableEq, Repr

/-- A row of `wallets`; `balance` in hundredths. -/
structure Wallet where
  id : Nat
  user_id : Nat
  public_key : String
  balance : Int
  is_multisig : Bool
  required_signatures : Nat
  deriving DecidableEq, Repr

/-- A row of `transactions`; `amount` in hundredths. -/
structure Transaction where
  id : Nat
  from_wallet : String
  to_wallet : String
  amount : Int
  signature : String
  status : TxStatus
  created_at : Nat
  deriving DecidableEq, Repr

/-- A row of `transaction_signatures`. -/
structure SignatureRow where
  transaction_id : Nat
  signer_public_key : String
  signature : String
  deriving DecidableEq, Repr

/-- The database: its four tables in insertion order, the next `AUTO_INCREMENT` ids and
the server clock that stamps `created_at`. -/
structure Db where
  users : List User
  wallets : List Wallet
  transactions : List Transaction
  transaction_signatures : List SignatureRow
  nextUserId : Nat
  nextWalletId : Nat
  nextTransactionId : Nat
  now : Nat
  deriving DecidableEq, Repr

/-- What the model's functions throw. -/
inductive WalletError where
  | senderNotFound
  | receiverNotFound
  | insufficientBalance
  | transactionNotFound
  | notPending
  | invalidSignature
  | duplicateSigner
  | walletNotFound
  | database (code : String)
  | js (e : JsError)
  deriving DecidableEq, Repr

/-- The `message` of each error. -/
def WalletError.message : WalletError → String
  | .senderNotFound => "Gönderen cüzdan bulunamadı."
  | .receiverNotFound => "Alıcı cüzdan bulunamadı."
  | .insufficientBalance => "Yetersiz bakiye!"
  | .transactionNotFound => "İşlem bulunamadı."
  | .notPending => "Bu işlem zaten tamamlanmış veya iptal edilmiş."
  | .invalidSignature => "GEÇERSİZ İMZA! İmzalayan adres bu işlemi onaylamamış."
  | .duplicateSigner => "Bu işlemi zaten imzaladınız!"
  | .walletNotFound => "Cüzdan bulunamadı."
  | .database code => code
  | .js .typeError => "TypeError"
  | .js .libraryError => "Error"

/-- Which of a function's database calls fail: `fault k` says that call `k` of the
function's `try` block rejects, where the `connection.execute` statements are numbered
from 0 in source order and `connection.commit()` has the number after the last of them. -/
abbrev Faults := Nat → Bool

/-- A database that fails no statement. -/
def noFault : Faults := fun _ => false

/-- One awaited database call: its effect, or the rejection. -/
def execute {α : Type} (fault : Faults) (k : Nat) (effect : Except WalletError α) :
    Except WalletError α :=
  if fault k then .error (.database "ER_STATEMENT_FAILED") else effect

/-- The rows `SELECT ... FROM wallets WHERE public_key = ?` returns. -/
def selectWallets (db : Db) (publicKey : String) : List Wallet :=
  db.wallets.filter fun w => w.public_key == publicKey

/-- The statement `UPDATE wallets SET balance = balance + ? WHERE public_key = ?`
(with a negative `delta` for `balance - ?`). -/
def updateBalance (db : Db) (publicKey : String) (delta : Int) : Db :=
  { db with wallets := db.wallets.map fun w =>
      if w.public_key == publicKey then { w with balance := w.balance + delta } else w }

/-- The rows `SELECT * FROM transactions WHERE id = ?` returns. -/
def selectTransactions (db : Db) (transactionId : Nat) : List Transaction :=
  db.transactions.filter fun t => t.id == transactionId

/-- The rows `SELECT ... FROM transaction_signatures WHERE transaction_id = ?` returns. -/
def selectSignatures (db : Db) (transactionId : Nat) : List SignatureRow :=
  db.transaction_signatures.filter fun r => r.transaction_id == transactionId

/-- The statement `INSERT INTO transaction_signatures (...) VALUES (?, ?, ?)`. -/
def insertSignature (db : Db) (transactionId : Nat) (signer signature : String) : Db :=
  { db with transaction_signatures :=
      db.transaction_signatures ++ [⟨transactionId, signer, signature⟩] }

/-- The statement `INSERT INTO transactions (from_wallet, to_wallet, amount, signature,
status) VALUES (?, ?, ?, ?, ?)`: the new row gets the next `AUTO_INCREMENT` id, which is
the `insertId` of the result. -/
def insertTransaction (db : Db) (fromAddress toAddress : String) (amount : Int)
    (signature : String) (status : TxStatus) : Nat × Db :=
  (db.nextTransactionId,
    { db with
      transactions := db.transactions ++
        [⟨db.nextTransactionId, fromAddress, toAddress, amount, signature, status, db.now⟩]
      nextTransactionId := db.nextTransactionId + 1 })

/-- Modelled from the spec: the declaration of the table `users` is not among the
sources.  The statement `INSERT INTO users (username) VALUES (?)`: an owner name is
registered once, so a name that is already there is refused with `ER_DUP_ENTRY` (the code
that `exports.createWallet` answers with 409); otherwise the new row gets the next
`AUTO_INCREMENT` id, which is the `insertId` of the result. -/
def insertUser (db : Db) (username : String) : Except WalletError (Nat × Db) :=
  if db.users.any (fun u => u.username == username) then .error (.database "ER_DUP_ENTRY")
  else .ok (db.nextUserId,
    { db with
      users := db.users ++ [⟨db.nextUserId, username⟩]
      nextUserId := db.nextUserId + 1 })

/-- Modelled from the spec: the declaration of the table `wallets` is not among the
sources.  The statement `INSERT INTO wallets (user_id, public_key, balance) VALUES (?, ?,
?)`: a public key is unique, so a key that is already there is refused with
`ER_DUP_ENTRY`; the columns the statement does not name take their defaults, a wallet
that is not multi-signature and requires one signature. -/
def insertWallet (db : Db) (userId : Nat) (publicKey : String) (balance : Int) :
    Except WalletError Db :=
  if db.wallets.any (fun w => w.public_key == publicKey) then .error (.database "ER_DUP_ENTRY")
  else .ok
    { db with
      wallets := db.wallets ++ [⟨db.nextWalletId, userId, publicKey, balance, false, 1⟩]
      nextWalletId := db.nextWalletId + 1 }

/-- The expression `(wallet.is_multisig && wallet.required_signatures > 1) ? 'pending' :
'completed'` of `transferFunds`. -/
def initialStatus (wallet : Wallet) : TxStatus :=
  if wallet.is_multisig && decide (wallet.required_signatures > 1) then .pending else .completed

/-- The amount a `DECIMAL` parameter carries: a statement given `NaN` or an infinity
is rejected. -/
def decimalParam : JsNumber → Except WalletError Int
  | .finite a => .ok a
  | _ => .error (.database "ER_TRUNCATED_WRONG_VALUE")

/-! ## `src/models/WalletModel.js` -/

/-- What `createWallet` returns; `balance` in hundredths. -/
structure CreateResult where
  userId : Nat
  publicKey : String
  balance : Int
  deriving DecidableEq, Repr

/-- The `try` block of `WalletModel.createWallet`, on the connection's working copy of
the database. -/
def createWalletTry (fault : Faults) (username publicKey : String) (db : Db) :
    Except WalletError (CreateResult × Db) := do
  let userResult ← execute fault 0 (insertUser db username)
  let userId := userResult.1
  let db ← execute fault 1 (insertWallet userResult.2 userId publicKey 100000)
  let db ← execute fault 2 (pure db)
  return (⟨userId, publicKey, 100000⟩, db)

/-- `WalletModel.createWallet`: the `try` block committed, or rolled back (the database
as it was) with the error rethrown. -/
def createWallet (fault : Faults) (username publicKey : String) (db : Db) :
    Except WalletError CreateResult × Db :=
  match createWalletTry fault username publicKey db with
  | .ok (result, committed) => (.ok result, committed)
  | .error e => (.error e, db)

/-- `WalletModel.findByPublicKey`: `rows[0] || null`. -/
def findByPublicKey (db : Db) (publicKey : String) : Option Wallet :=
  (selectWallets db publicKey).head?

/-- What `transferFunds` returns. -/
structure TransferResult where
  transactionId : Nat
  status : TxStatus
  deriving DecidableEq, Repr

/-- The `try` block of `WalletModel.transferFunds`, on the connection's working copy
of the database. -/
def transferFundsTry (fault : Faults) (fromAddress toAddress : String) (amount : JsNumber)
    (signature signerAddress : String) (db : Db) : Except WalletError (TransferResult × Db) := do
  -- Lock sender row to prevent double-spend
  let walletRows ← execute fault 0 (pure (selectWallets db fromAddress))
  match walletRows with
  | [] => throw .senderNotFound
  | wallet :: _ =>
    -- Verify receiver exists
    let receiverRows ← execute fault 1 (pure (selectWallets db toAddress))
    if receiverRows.length = 0 then throw .receiverNotFound
    else if JsNumber.lt (.finite wallet.balance) amount then throw .insufficientBalance
    else
      -- Multi-sig wallets start in 'pending'; single-sig complete immediately
      let status := initialStatus wallet
      let inserted ← execute fault 2 (do
        let stored ← decimalParam amount
        pure (insertTransaction db fromAddress toAddress stored signature status))
      let transactionId := inserted.1
      -- Record first signature
      let db ← execute fault 3
        (pure (insertSignature inserted.2 transactionId signerAddress signature))
      let db ← if status = .completed then (do
          let db ← execute fault 4 (do
            let delta ← decimalParam amount
            pure (updateBalance db fromAddress (-delta)))
          execute fault 5 (do
            let delta ← decimalParam amount
            pure (updateBalance db toAddress delta)))
        else pure db
      let db ← execute fault 6 (pure db)
      return (⟨transactionId, status⟩, db)

/-- `WalletModel.transferFunds`: the `try` block committed, or rolled back (the
database as it was) with the error rethrown. -/
def transferFunds (fault : Faults) (fromAddress toAddress : String) (amount : JsNumber)
    (signature signerAddress : String) (db : Db) : Except WalletError TransferResult × Db :=
  match transferFundsTry fault fromAddress toAddress amount signature signerAddress db with
  | .ok (result, committed) => (.ok result, committed)
  | .error e => (.error e, db)

/-- What `approveTransaction` returns. -/
structure ApproveResult where
  status : TxStatus
  message : String
  deriving DecidableEq, Repr

/-- The object `txData` that `approveTransaction` rebuilds from the stored row. -/
def storedTxData (transaction : Transaction) : JsValue :=
  .obj [("from", .str transaction.from_wallet), ("to", .str transaction.to_wallet),
    ("amount", .num (.finite transaction.amount))]

/-- The statement `UPDATE transactions SET status = "completed" WHERE id = ?`. -/
def completeTransaction (db : Db) (transactionId : Nat) : Db :=
  { db with transactions := db.transactions.map fun t =>
      if t.id == transactionId then { t with status := .completed } else t }

/-- The `try` block of `WalletModel.approveTransaction`, on the connection's working
copy of the database. -/
def approveTransactionTry {Key : Type} (E : Crypto Key) (fault : Faults) (transactionId : Nat)
    (signerAddress signature : String) (db : Db) : Except WalletError (ApproveResult × Db) := do
  -- A. Fetch & lock the transaction row
  let txRows ← execute fault 0 (pure (selectTransactions db transactionId))
  match txRows with
  | [] => throw .transactionNotFound
  | transaction :: _ =>
    if transaction.status ≠ .pending then throw .notPending
    else
      -- B. Re-verify the signature against the original tx data
      let txData := storedTxData transaction
      let isValid ← (verifySignature E signerAddress txData signature).mapError WalletError.js
      if !isValid then throw .invalidSignature
      else
        -- C. Fetch sender wallet (for required_signatures)
        let walletRows ← execute fault 1 (pure (selectWallets db transaction.from_wallet))
        let wallet := walletRows.head?
        -- D. Duplicate signature check
        let existing ← execute fault 2 (pure ((selectSignatures db transactionId).filter
          fun r => r.signer_public_key == signerAddress))
        if existing.length > 0 then throw .duplicateSigner
        else
          -- E. Record new signature
          let db ← execute fault 3
            (pure (insertSignature db transactionId signerAddress signature))
          -- F. Check if quorum is reached
          let currentSignatures ← execute fault 4 (pure (selectSignatures db transactionId).length)
          match wallet with
          | none => throw (.js .typeError)
          | some wallet =>
            if currentSignatures ≥ wallet.required_signatures then
              -- G. Execute the transfer
              let db ← execute fault 5
                (pure (updateBalance db transaction.from_wallet (-transaction.amount)))
              let db ← execute fault 6
                (pure (updateBalance db transaction.to_wallet transaction.amount))
              let db ← execute fault 7 (pure (completeTransaction db transactionId))
              let db ← execute fault 8 (pure db)
              return (⟨.completed, "Yeterli imzaya ulaşıldı. Transfer gerçekleşti."⟩, db)
            else
              let db ← execute fault 8 (pure db)
              return (⟨.pending, "İmza kaydedildi. Gereken: " ++
                String.mk (Nat.toDigits 10 wallet.required_signatures) ++ ", Şu anki: " ++
                String.mk (Nat.toDigits 10 currentSignatures)⟩, db)

/-- `WalletModel.approveTransaction`: the `try` block committed, or rolled back (the
database as it was) with the error rethrown. -/
def approveTransaction {Key : Type} (E : Crypto Key) (fault : Faults) (transactionId : Nat)
    (signerAddress signature : String) (db : Db) : Except WalletError ApproveResult × Db :=
  match approveTransactionTry E fault transactionId signerAddress signature db with
  | .ok (result, committed) => (.ok result, committed)
  | .error e => (.error e, db)

/-- A row of the history: the columns of `transactions` that the query selects (the
column `updated_at` is not modelled) and the count of the transaction's signature
records. -/
structure HistoryRow where
  id : Nat
  from_wallet : String
  to_wallet : String
  amount : Int
  status : TxStatus
  created_at : Nat
  signature_count : Nat
  deriving DecidableEq, Repr

/-- What `getTransactionHistory` returns: the page, the total, and the `limit` and the
`offset` it was given. -/
structure HistoryResult where
  transactions : List HistoryRow
  total : Nat
  limit : JsNumber
  offset : JsNumber
  deriving DecidableEq, Repr

/-- The condition `from_wallet = ? OR to_wallet = ?` of the two history queries. -/
def involves (publicKey : String) (t : Transaction) : Bool :=
  t.from_wallet == publicKey || t.to_wallet == publicKey

/-- The order `ORDER BY t.created_at DESC`. -/
def newerFirst (a b : Transaction) : Prop := b.created_at ≤ a.created_at

instance : DecidableRel newerFirst := fun a b =>
  inferInstanceAs (Decidable (b.created_at ≤ a.created_at))

/-- The selected columns of a transaction with the subquery `(SELECT COUNT(*) FROM
transaction_signatures ts WHERE ts.transaction_id = t.id) AS signature_count`. -/
def historyRow (db : Db) (t : Transaction) : HistoryRow :=
  ⟨t.id, t.from_wallet, t.to_wallet, t.amount, t.status, t.created_at,
    (selectSignatures db t.id).length⟩

/-- The transactions that involve a wallet, newest first.  Rows with the same
`created_at` come in table order (the server leaves their order open). -/
def selectInvolving (db : Db) (publicKey : String) : List Transaction :=
  (db.transactions.filter (involves publicKey)).insertionSort newerFirst

/-- The nearest double of a natural number, ties to the even mantissa; `none` when that
is `Infinity`. -/
def roundToDouble (n : Nat) : Option Nat :=
  if n < 2 ^ 53 then some n
  else
    let e := (Nat.toDigits 2 n).length - 53
    let q := n / 2 ^ e
    let r := n % 2 ^ e
    let rounded := if 2 ^ (e - 1) < r ∨ (r = 2 ^ (e - 1) ∧ q % 2 = 1) then q + 1 else q
    if rounded * 2 ^ e < 2 ^ 1024 then some (rounded * 2 ^ e) else none

/-- The digit before the point when `Number::toString` writes a whole double of at least
`1e21` in its exponent form: the first digit of the shortest decimal that rounds to the
double, which is the first digit of the number itself unless the next round decimal
already rounds to it. -/
def exponentLeadingDigit (m : Nat) : Nat :=
  let p := (Nat.toDigits 10 m).length - 1
  let d := m / 10 ^ p
  if roundToDouble ((d + 1) * 10 ^ p) = some m then (if d = 9 then 1 else d + 1) else d

/-- The call `parseInt(number)` of `getTransactionHistory`: the number is written as a
string first, so below `1e21` the result is the whole part, from `1e21` on the one digit
before the point of the exponent form, and `NaN` for `NaN` and the infinities. -/
def parseIntNumber : JsNumber → JsNumber
  | .finite h =>
    if h.natAbs < 10 ^ 23 then .finite (Int.tdiv h 100 * 100)
    else .finite (Int.sign h * (exponentLeadingDigit (h.natAbs / 100) : Nat) * 100)
  | _ => .nan

/-- The value a `LIMIT ?` or `OFFSET ?` parameter carries: the server refuses a negative
number and `NaN`. -/
def limitParam : JsNumber → Except WalletError Nat
  | .finite h => if h < 0 then .error (.database "ER_WRONG_ARGUMENTS") else .ok (h / 100).toNat
  | _ => .error (.database "ER_WRONG_ARGUMENTS")

/-- `WalletModel.getTransactionHistory`; the database calls are numbered like those of a
`try` block, and the second component is the database after the call. -/
def getTransactionHistory (fault : Faults) (publicKey : String) (limit offset : JsNumber)
    (db : Db) : Except WalletError HistoryResult × Db :=
  (do
    -- Validate wallet existence first
    let wallet ← execute fault 0 (pure (findByPublicKey db publicKey))
    match wallet with
    | none => throw .walletNotFound
    | some _ =>
      let rows ← execute fault 1 (do
        let count ← limitParam (parseIntNumber limit)
        let skip ← limitParam (parseIntNumber offset)
        pure ((((selectInvolving db publicKey).drop skip).take count).map (historyRow db)))
      let total ← execute fault 2 (pure (db.transactions.filter (involves publicKey)).length)
      return ⟨rows, total, limit, offset⟩, db)

/-- What `getPendingTransaction` returns for a pending transaction: the row, with the
signer addresses of its signature records under `signatures` (the column `signed_at` is
not modelled). -/
structure PendingDetail where
  transaction : Transaction
  signatures : List String
  deriving DecidableEq, Repr

/-- `WalletModel.getPendingTransaction`: `none` is the `null` it returns; the second
component is the database after the call. -/
def getPendingTransaction (fault : Faults) (transactionId : Nat) (db : Db) :
    Except WalletError (Option PendingDetail) × Db :=
  (do
    let txRows ← execute fault 0 (pure (db.transactions.filter fun t =>
      t.id == transactionId && t.status == .pending))
    match txRows with
    | [] => return none
    | transaction :: _ =>
      let sigRows ← execute fault 1 (pure ((selectSignatures db transactionId).map
        fun r => r.signer_public_key))
      return some ⟨transaction, sigRows⟩, db)

/-- The text of a status, as the column and the results spell it. -/
def TxStatus.text : TxStatus → String
  | .pending => "pending"
  | .completed => "completed"
  | .rejected => "rejected"

/-- The object literal `{ status, message }` that `approveTransaction` returns. -/
def ApproveResult.toJsValue (result : ApproveResult) : JsValue :=
  .obj [("status", .str result.status.text), ("message", .str result.message)]

/-! ## The functions on a pooled connection -/

/-- A connection of the pool, as the server keeps it: the committed database, and the
view of the transaction that is open on the connection, if one is. -/
structure Connection where
  committed : Db
  working : Option Db
  deriving DecidableEq, Repr

/-- What a statement on the connection reads: the view of its open transaction, or the
committed database. -/
def Connection.view (c : Connection) : Db := c.working.getD c.committed

/-- What a statement on the connection writes: the view of the open transaction, or, with
none open (autocommit), the committed database. -/
def Connection.write (c : Connection) (db : Db) : Connection :=
  match c.working with
  | some _ => { c with working := some db }
  | none => { c with committed := db }

/-- A piece of an `async` function that talks to a connection: its value or the error it
throws, and the connection after it. -/
def OnConnection (α : Type) : Type := Connection → Except WalletError α × Connection

/-- One statement after the other; an error thrown ends the piece, with the connection as
it is at that point. -/
instance : Monad OnConnection where
  pure a := fun c => (.ok a, c)
  bind m f := fun c =>
    match m c with
    | (.ok a, c') => f a c'
    | (.error e, c') => (.error e, c')

/-- The statements `throw` and `try ... catch (error) ...`. -/
instance : MonadExceptOf WalletError OnConnection where
  throw e := fun c => (.error e, c)
  tryCatch m handler := fun c =>
    match m c with
    | (.ok a, c') => (.ok a, c')
    | (.error e, c') => handler e c'

/-- The call `await connection.beginTransaction()`: the server commits a transaction that
is still open on the connection and opens a new one on what is committed then. -/
def beginTransaction (fails : Bool) : OnConnection Unit := fun c =>
  if fails then (.error (.database "ER_STATEMENT_FAILED"), c)
  else (.ok (), ⟨c.view, some c.view⟩)

/-- The call `await connection.execute(...)` that is call `k` of the `try` block: the
statement reads what the connection sees and writes there. -/
def onConnection {α : Type} (fault : Faults) (k : Nat)
    (effect : Db → Except WalletError (α × Db)) : OnConnection α := fun c =>
  if fault k then (.error (.database "ER_STATEMENT_FAILED"), c)
  else
    match effect c.view with
    | .ok (a, db) => (.ok a, c.write db)
    | .error e => (.error e, c)

/-- A `SELECT` on the connection. -/
def selectOn {α : Type} (fault : Faults) (k : Nat) (rows : Db → α) : OnConnection α :=
  onConnection fault k fun db => .ok (rows db, db)

/-- An `UPDATE` or an `INSERT` on the connection whose result is not used. -/
def updateOn (fault : Faults) (k : Nat) (statement : Db → Except WalletError Db) :
    OnConnection Unit :=
  onConnection fault k fun db => (statement db).map fun db => ((), db)

/-- The call `await connection.commit()`, which is call `k` of the `try` block. -/
def commit (fault : Faults) (k : Nat) : OnConnection Unit := fun c =>
  if fault k then (.error (.database "ER_STATEMENT_FAILED"), c)
  else (.ok (), ⟨c.view, none⟩)

/-- The call `await connection.rollback()`: the open transaction is thrown away.  The
call itself is taken to succeed. -/
def rollback : OnConnection Unit := fun c => (.ok (), ⟨c.committed, none⟩)

/-- The `try` block of `WalletModel.createWallet` on a connection, from
`beginTransaction` to `commit`. -/
def createWalletTryOn (beginFails : Bool) (fault : Faults) (username publicKey : String) :
    OnConnection CreateResult := do
  beginTransaction beginFails
  let userId ← onConnection fault 0 fun db => insertUser db username
  updateOn fault 1 fun db => insertWallet db userId publicKey 100000
  commit fault 2
  return ⟨userId, publicKey, 100000⟩

/-- `WalletModel.createWallet` on a connection: the `try` block, and the `catch` that
rolls back and rethrows. -/
def createWalletOn (beginFails : Bool) (fault : Faults) (username publicKey : String) :
    OnConnection CreateResult :=
  tryCatch (createWalletTryOn beginFails fault username publicKey) fun error => do
    rollback
    throw error

/-- The `try` block of `WalletModel.transferFunds` on a connection, from
`beginTransaction` to `commit`. -/
def transferFundsTryOn (beginFails : Bool) (fault : Faults) (fromAddress toAddress : String)
    (amount : JsNumber) (signature signerAddress : String) : OnConnection TransferResult := do
  beginTransaction beginFails
  -- Lock sender row to prevent double-spend
  let walletRows ← selectOn fault 0 fun db => selectWallets db fromAddress
  match walletRows with
  | [] => throw WalletError.senderNotFound
  | wallet :: _ =>
    -- Verify receiver exists
    let receiverRows ← selectOn fault 1 fun db => selectWallets db toAddress
    if receiverRows.length = 0 then throw WalletError.receiverNotFound
    else if JsNumber.lt (.finite wallet.balance) amount then
      throw WalletError.insufficientBalance
    else
      -- Multi-sig wallets start in 'pending'; single-sig complete immediately
      let status := initialStatus wallet
      let transactionId ← onConnection fault 2 fun db =>
        (decimalParam amount).map fun stored =>
          insertTransaction db fromAddress toAddress stored signature status
      -- Record first signature
      updateOn fault 3 fun db =>
        .ok (insertSignature db transactionId signerAddress signature)
      (if status = .completed then do
          updateOn fault 4 fun db =>
            (decimalParam amount).map fun delta => updateBalance db fromAddress (-delta)
          updateOn fault 5 fun db =>
            (decimalParam amount).map fun delta => updateBalance db toAddress delta
        else pure ())
      commit fault 6
      return ⟨transactionId, status⟩

/-- `WalletModel.transferFunds` on a connection: the `try` block, and the `catch` that
rolls back and rethrows. -/
def transferFundsOn (beginFails : Bool) (fault : Faults) (fromAddress toAddress : String)
    (amount : JsNumber) (signature signerAddress : String) : OnConnection TransferResult :=
  tryCatch (transferFundsTryOn beginFails fault fromAddress toAddress amount signature
      signerAddress) fun error => do
    rollback
    throw error

/-- The `try` block of `WalletModel.approveTransaction` on a connection, from
`beginTransaction` to `commit`. -/
def approveTransactionTryOn {Key : Type} (E : Crypto Key) (beginFails : Bool) (fault : Faults)
    (transactionId : Nat) (signerAddress signature : String) : OnConnection ApproveResult := do
  beginTransaction beginFails
  -- A. Fetch & lock the transaction row
  let txRows ← selectOn fault 0 fun db => selectTransactions db transactionId
  match txRows with
  | [] => throw WalletError.transactionNotFound
  | transaction :: _ =>
    if transaction.status ≠ .pending then throw WalletError.notPending
    else
      -- B. Re-verify the signature against the original tx data
      let txData := storedTxData transaction
      match verifySignature E signerAddress txData signature with
      | .error e => throw (WalletError.js e)
      | .ok false => throw WalletError.invalidSignature
      | .ok true =>
        -- C. Fetch sender wallet (for required_signatures)
        let walletRows ← selectOn fault 1 fun db =>
          selectWallets db transaction.from_wallet
        let wallet := walletRows.head?
        -- D. Duplicate signature check
        let existing ← selectOn fault 2 fun db =>
          (selectSignatures db transactionId).filter
            fun r => r.signer_public_key == signerAddress
        if existing.length > 0 then throw WalletError.duplicateSigner
        else
          -- E. Record new signature
          updateOn fault 3 fun db =>
            .ok (insertSignature db transactionId signerAddress signature)
          -- F. Check if quorum is reached
          let currentSignatures ← selectOn fault 4 fun db =>
            (selectSignatures db transactionId).length
          match wallet with
          | none => throw (WalletError.js .typeError)
          | some wallet =>
            if currentSignatures ≥ wallet.required_signatures then
              -- G. Execute the transfer
              updateOn fault 5 fun db =>
                .ok (updateBalance db transaction.from_wallet (-transaction.amount))
              updateOn fault 6 fun db =>
                .ok (updateBalance db transaction.to_wallet transaction.amount)
              updateOn fault 7 fun db => .ok (completeTransaction db transactionId)
              commit fault 8
              return ⟨.completed, "Yeterli imzaya ulaşıldı. Transfer gerçekleşti."⟩
            else
              commit fault 8
              return ⟨.pending, "İmza kaydedildi. Gereken: " ++
                String.mk (Nat.toDigits 10 wallet.required_signatures) ++ ", Şu anki: " ++
                String.mk (Nat.toDigits 10 currentSignatures)⟩

/-- `WalletModel.approveTransaction` on a connection: the `try` block, and the `catch`
that rolls back and rethrows. -/
def approveTransactionOn {Key : Type} (E : Crypto Key) (beginFails : Bool) (fault : Faults)
    (transactionId : Nat) (signerAddress signature : String) : OnConnection ApproveResult :=
  tryCatch (approveTransactionTryOn E beginFails fault transactionId signerAddress
      signature) fun error => do
    rollback
    throw error

/-! ## Sequences of calls -/

/-- One call of a writing function of `WalletModel`, with the database calls that fail
during it. -/
inductive Call where
  | createWallet (fault : Faults) (username publicKey : String)
  | transferFunds (fault : Faults) (fromAddress toAddress : String) (amount : JsNumber)
      (signature signerAddress : String)
  | approveTransaction (fault : Faults) (transactionId : Nat) (signerAddress signature : String)

/-- The database a call leaves. -/
def Call.run {Key : Type} (E : Crypto Key) : Call → Db → Db
  | .createWallet fault username publicKey, db =>
    (MultiSigWallet.createWallet fault username publicKey db).2
  | .transferFunds fault fromAddress toAddress amount signature signerAddress, db =>
    (MultiSigWallet.transferFunds fault fromAddress toAddress amount signature signerAddress db).2
  | .approveTransaction fault transactionId signerAddress signature, db =>
    (MultiSigWallet.approveTransaction E fault transactionId signerAddress signature db).2

/-- The database a sequence of calls leaves, one call after the other. -/
def runCalls {Key : Type} (E : Crypto Key) (calls : List Call) (db : Db) : Db :=
  calls.foldl (fun db call => call.run E db) db

/-- The distinct signer addresses among the signature records of a transaction. -/
def signers (db : Db) (transactionId : Nat) : List String :=
  ((selectSignatures db transactionId).map fun r => r.signer_public_key).dedup

/-! ## `src/controllers/walletController.js` -/

/-- The body of a transfer request after `express.json()`: `amount` is the number
`parseFloat(amount)` returns, `signerAddress` is `none` when the body has none. -/
structure TransferRequest where
  fromAddress : String
  toAddress : String
  amount : JsNumber
  signature : String
  signerAddress : Option String
  deriving DecidableEq, Repr

/-- An answer `res.status(status).json(body)`: the result, or `error: message`. -/
structure Response (α : Type) where
  status : Nat
  body : Except String α
  deriving DecidableEq

/-- The expression `signerAddress || fromAddress`: an absent or empty `signerAddress`
is falsy. -/
def actualSigner (req : TransferRequest) : String :=
  match req.signerAddress with
  | some signer => if signer = "" then req.fromAddress else signer
  | none => req.fromAddress

/-- The object `txData` the transfer controller verifies the signature over. -/
def requestTxData (req : TransferRequest) : JsValue :=
  .obj [("from", .str req.fromAddress), ("to", .str req.toAddress), ("amount", .num req.amount)]

/-- The controller `exports.transfer`. -/
def transfer {Key : Type} (E : Crypto Key) (fault : Faults) (req : TransferRequest) (db : Db) :
    Response TransferResult × Db :=
  match verifySignature E (actualSigner req) (requestTxData req) req.signature with
  | .error e => (⟨400, .error (WalletError.js e).message⟩, db)
  | .ok false => (⟨401, .error "GEÇERSİZ İMZA! İşlem reddedildi."⟩, db)
  | .ok true =>
    match transferFunds fault req.fromAddress req.toAddress req.amount req.signature
        (actualSigner req) db with
    | (.ok result, db) => (⟨200, .ok result⟩, db)
    | (.error e, db) => (⟨400, .error e.message⟩, db)

/-- The characters `parseInt` skips at the front: white space and line terminators. -/
def isStrWhiteSpace (c : Char) : Bool :=
  c.toNat ∈ [0x09, 0x0A, 0x0B, 0x0C, 0x0D, 0x20, 0xA0, 0x1680, 0x2028, 0x2029, 0x202F, 0x205F,
    0x3000, 0xFEFF] || (0x2000 ≤ c.toNat && c.toNat ≤ 0x200A)

/-- The value of a character as a digit of the radix, if it is one. -/
def digitValue (radix : Nat) (c : Char) : Option Nat :=
  let v :=
    if c.isDigit then c.toNat - 48
    else if 'a' ≤ c ∧ c ≤ 'z' then c.toNat - 87
    else if 'A' ≤ c ∧ c ≤ 'Z' then c.toNat - 55
    else radix
  if v < radix then some v else none

/-- The digits at the front of a text, most significant first. -/
def leadingDigits (radix : Nat) : List Char → List Nat
  | [] => []
  | c :: rest =>
    match digitValue radix c with
    | some v => v :: leadingDigits radix rest
    | none => []

/-- The call `parseInt(string)` without a radix: the digits are read exactly and the integer
is rounded to the nearest double; `-0` is `0`. -/
def parseInt (string : String) : JsNumber :=
  let trimmed := string.toList.dropWhile isStrWhiteSpace
  let signed : Int × List Char :=
    match trimmed with
    | '-' :: rest => (-1, rest)
    | '+' :: rest => (1, rest)
    | rest => (1, rest)
  let based : Nat × List Char :=
    match signed.2 with
    | '0' :: 'x' :: rest => (16, rest)
    | '0' :: 'X' :: rest => (16, rest)
    | rest => (10, rest)
  match leadingDigits based.1 based.2 with
  | [] => .nan
  | digits =>
    match roundToDouble (digits.foldl (fun n d => n * based.1 + d) 0) with
    | some m => .finite (signed.1 * (m : Nat) * 100)
    | none => if signed.1 < 0 then .negInf else .posInf

/-- A value of `req.query`: `none` when the name is absent, else the text `parseInt`
reads (`express` gives strings, and `parseInt` first turns an array or an object into a
string). -/
abbrev QueryValue := Option String

/-- The expression `parseInt(value)` after `const { name = fallback } = req.query`, for a
whole `fallback` (in hundredths). -/
def queryInt (value : QueryValue) (fallback : Int) : JsNumber :=
  match value with
  | none => .finite fallback
  | some text => parseInt text

/-- The expression `number || fallback`: `NaN` and `0` are falsy. -/
def JsNumber.orElse (number fallback : JsNumber) : JsNumber :=
  match number with
  | .nan => fallback
  | .finite h => if h = 0 then fallback else number
  | _ => number

/-- The call `Math.min(a, b)`. -/
def JsNumber.min (a b : JsNumber) : JsNumber :=
  match a, b with
  | .nan, _ => .nan
  | _, .nan => .nan
  | a, b => if a.lt b then a else b

/-- The call `Math.max(a, b)`. -/
def JsNumber.max (a b : JsNumber) : JsNumber :=
  match a, b with
  | .nan, _ => .nan
  | _, .nan => .nan
  | a, b => if a.lt b then b else a

/-- The `limit` that `exports.getHistory` passes: `Math.min(parseInt(limit) || 20, 100)`. -/
def historyLimit (limit : QueryValue) : JsNumber :=
  JsNumber.min ((queryInt limit 2000).orElse (.finite 2000)) (.finite 10000)

/-- The `offset` that `exports.getHistory` passes: `Math.max(parseInt(offset) || 0, 0)`. -/
def historyOffset (offset : QueryValue) : JsNumber :=
  JsNumber.max ((queryInt offset 0).orElse (.finite 0)) (.finite 0)

/-- Whether a text starts with another. -/
def startsWith : List Char → List Char → Bool
  | _, [] => true
  | [], _ :: _ => false
  | c :: text, d :: part => c == d && startsWith text part

/-- The call `text.includes(part)`. -/
def includes (text part : String) : Bool :=
  text.toList.tails.any fun rest => startsWith rest part.toList

/-- The controller `exports.getHistory`, for the function it calls as
`WalletModel.getTransactionHistory`: the answer is the page with status 200, or the
message of the error with status 404 when it includes `bulunamadı` and 500 otherwise. -/
def getHistoryWith
    (model : String → JsNumber → JsNumber → Db → Except WalletError HistoryResult × Db)
    (publicKey : String) (limit offset : QueryValue) (db : Db) : Response HistoryResult × Db :=
  match model publicKey (historyLimit limit) (historyOffset offset) db with
  | (.ok history, db) => (⟨200, .ok history⟩, db)
  | (.error e, db) =>
    (⟨if includes e.message "bulunamadı" then 404 else 500, .error e.message⟩, db)

/-- The controller `exports.getHistory` on `WalletModel.getTransactionHistory`. -/
def getHistory (fault : Faults) (publicKey : String) (limit offset : QueryValue) (db : Db) :
    Response HistoryResult × Db :=
  getHistoryWith (getTransactionHistory fault) publicKey limit offset db

/-! ## `src/middleware/validate.js` -/

/-- The character class `[0-9a-fA-F]`. -/
def isHexChar (c : Char) : Bool :=
  c.isDigit || (decide ('a' ≤ c) && decide (c ≤ 'f')) || (decide ('A' ≤ c) && decide (c ≤ 'F'))

/-- The pattern `/^[0-9a-fA-F]{66,130}$/` for public keys. -/
def HEX_KEY_REGEX (text : String) : Bool :=
  decide (66 ≤ text.length) && decide (text.length ≤ 130) && text.toList.all isHexChar

/-- The pattern `/^[0-9a-fA-F]{8,300}$/` for signatures. -/
def HEX_SIG_REGEX (text : String) : Bool :=
  decide (8 ≤ text.length) && decide (text.length ≤ 300) && text.toList.all isHexChar

/-- The checks of `transferRules` on a request whose texts are already trimmed: both
addresses are hex keys and differ, the amount is a number above zero (`isFloat` reads the
text as a float, so a text such as `1e400`, which `parseFloat` turns into `Infinity`,
passes, and nothing passes that becomes `NaN` or is not above zero), the signature is
hex, and a `signerAddress`, when the body has one, is a hex key. -/
def transferRules (req : TransferRequest) : Bool :=
  HEX_KEY_REGEX req.fromAddress && HEX_KEY_REGEX req.toAddress &&
    decide (req.toAddress ≠ req.fromAddress) &&
    (match req.amount with
      | .finite a => decide (0 < a)
      | .posInf => true
      | _ => false) &&
    HEX_SIG_REGEX req.signature &&
    (match req.signerAddress with
      | some signer => HEX_KEY_REGEX signer
      | none => true)

/-- The checks of `approveRules` on a request whose texts are already trimmed. -/
def approveRules (transactionId : Nat) (signerAddress signature : String) : Bool :=
  decide (0 < transactionId) && HEX_KEY_REGEX signerAddress && HEX_SIG_REGEX signature

/-! ## A runnable instance of the library interface -/

/-- A small executable implementation of the `Crypto` interface, used to run the model
on concrete inputs.  It is not secp256k1: the public key is `04` followed by the private
key, a signature is `30`, the private key and the digest, and the digest is a polynomial
checksum of the text. -/
def demoCrypto : Crypto (List Char) where
  sha256 := fun text => text.toList.foldl (fun h c => (h * 31 + c.toNat) % 2 ^ 256) 7
  keyFromPublic := fun publicKeyHex =>
    match publicKeyHex.toList with
    | '0' :: '4' :: c :: rest => .ok (c :: rest)
    | _ => .error .libraryError
  verify := fun key hash signatureHex =>
    match signatureHex.toList with
    | '3' :: '0' :: rest => .ok (decide (rest = key ++ hash.toList))
    | _ => .error .libraryError
  sign := fun privateKeyHex hash => String.mk ('3' :: '0' :: (privateKeyHex.toList ++ hash.toList))
  getPublic := fun privateKeyHex => String.mk ('0' :: '4' :: privateKeyHex.toList)
  isPrivateKey := fun privateKeyHex => decide (privateKeyHex ≠ "")

/-- A second executable implementation of the `Crypto` interface, which reads public
keys the way the encodings of secp256k1 are built: `04` with the two coordinates (128
hex digits) or `02`/`03` with the first coordinate alone (64 hex digits), in either
letter case.  In this toy instance the private key is the first coordinate, and
signatures and digests are those of `demoCrypto`. -/
def encodingCrypto : Crypto (List Char) where
  sha256 := demoCrypto.sha256
  keyFromPublic := fun publicKeyHex =>
    match publicKeyHex.toList with
    | '0' :: '4' :: rest =>
      if rest.length = 128 ∧ rest.all isHexChar = true then .ok ((rest.take 64).map Char.toLower)
      else .error .libraryError
    | '0' :: '2' :: rest =>
      if rest.length = 64 ∧ rest.all isHexChar = true then .ok (rest.map Char.toLower)
      else .error .libraryError
    | '0' :: '3' :: rest =>
      if rest.length = 64 ∧ rest.all isHexChar = true then .ok (rest.map Char.toLower)
      else .error .libraryError
    | _ => .error .libraryError
  verify := demoCrypto.verify
  sign := fun privateKeyHex hash =>
    String.mk ('3' :: '0' :: (privateKeyHex.toList.map Char.toLower ++ hash.toList))
  getPublic := fun privateKeyHex =>
    String.mk ('0' :: '4' :: (privateKeyHex.toList ++ privateKeyHex.toList))
  isPrivateKey := fun privateKeyHex =>
    decide (privateKeyHex.length = 64) && privateKeyHex.toList.all isHexChar

/-! ## Worked example: three wallets -/

/-- The signature the runnable instance gives for `data` under a private key (empty when
`signData` throws). -/
def demoSignature (privateKeyHex : String) (data : JsValue) : String :=
  match signData demoCrypto privateKeyHex data with
  | .ok signatureHex => signatureHex
  | .error _ => ""

/-- The fields of a transfer of `amount` hundredths. -/
def transferFields (fromAddress toAddress : String) (amount : JsNumber) : JsValue :=
  .obj [("from", .str fromAddress), ("to", .str toAddress), ("amount", .num amount)]

/-- Wallet A: single-signature, balance 1000.00. -/
def walletA : Wallet := ⟨1, 1, "04aa", 100000, false, 1⟩

/-- Wallet B: single-signature, balance 50.00. -/
def walletB : Wallet := ⟨2, 2, "04bb", 5000, false, 1⟩

/-- Wallet C: multi-signature, two signatures required, balance 1000.00. -/
def walletC : Wallet := ⟨3, 3, "04cc", 100000, true, 2⟩

/-- Wallet E: two signatures required, yet not flagged multi-signature (the flag and the
count are two columns). -/
def walletE : Wallet := ⟨5, 5, "04ee", 100000, false, 2⟩

/-- Three wallets and no transaction. -/
def demoDb : Db :=
  { users := [⟨1, "Ahmet"⟩, ⟨2, "Bob"⟩, ⟨3, "Company"⟩]
    wallets := [walletA, walletB, walletC]
    transactions := []
    transaction_signatures := []
    nextUserId := 4
    nextWalletId := 4
    nextTransactionId := 1
    now := 0 }

/-- The wallets of `demoDb` and wallet E. -/
def unflaggedDb : Db := { demoDb with wallets := [walletA, walletB, walletC, walletE] }

/-- The signature of wallet C's key over a transfer of 100.00 from C to B. -/
def signatureC : String := demoSignature "cc" (transferFields "04cc" "04bb" (.finite 10000))

/-- The signature of a co-signer's key `dd` over the same transfer. -/
def signatureD : String := demoSignature "dd" (transferFields "04cc" "04bb" (.finite 10000))

/-- The database after C has initiated the transfer of 100.00 to B: transaction 1 is
pending with one signature. -/
def pendingDb : Db :=
  { demoDb with
    transactions := [⟨1, "04cc", "04bb", 10000, signatureC, .pending, 0⟩]
    transaction_signatures := [⟨1, "04cc", signatureC⟩]
    nextTransactionId := 2 }

/-- Wallet F: multi-signature, three signatures required, balance 1000.00. -/
def walletF : Wallet := ⟨4, 4, "04ff", 100000, true, 3⟩

/-- The wallets of `demoDb` and wallet F. -/
def boardDb : Db :=
  { demoDb with
    users := [⟨1, "Ahmet"⟩, ⟨2, "Bob"⟩, ⟨3, "Company"⟩, ⟨4, "Board"⟩]
    wallets := [walletA, walletB, walletC, walletF]
    nextUserId := 5
    nextWalletId := 5 }

/-- The signature of wallet F's key over a transfer of 100.00 from F to B. -/
def signatureF : String := demoSignature "ff" (transferFields "04ff" "04bb" (.finite 10000))

/-- The signature of the co-signer's key `dd` over the transfer from F to B. -/
def signatureDF : String := demoSignature "dd" (transferFields "04ff" "04bb" (.finite 10000))

/-- The database after F has initiated the transfer of 100.00 to B. -/
def boardPendingDb : Db :=
  (transferFunds noFault "04ff" "04bb" (.finite 10000) signatureF "04ff" boardDb).2

/-- The signature of wallet C's key over a transfer of 800.00 from C to B. -/
def signatureC800 : String := demoSignature "cc" (transferFields "04cc" "04bb" (.finite 80000))

/-- The signature of the co-signer's key `dd` over a transfer of 800.00 from C to B. -/
def signatureD800 : String := demoSignature "dd" (transferFields "04cc" "04bb" (.finite 80000))

/-- Two transfers of 800.00 out of wallet C (balance 1000.00, two signatures required),
both initiated before either is approved, then both approved by the co-signer `04dd`. -/
def overdraftCalls : List Call :=
  [.transferFunds noFault "04cc" "04bb" (.finite 80000) signatureC800 "04cc",
    .transferFunds noFault "04cc" "04bb" (.finite 80000) signatureC800 "04cc",
    .approveTransaction noFault 1 "04dd" signatureD800,
    .approveTransaction noFault 2 "04dd" signatureD800]

/-- The signature of wallet A's key over a transfer of 25.00 from A to B. -/
def signatureA : String := demoSignature "aa" (transferFields "04aa" "04bb" (.finite 2500))

/-- The signature of wallet A's key over the transfer of 100.00 from C to B. -/
def signatureAC : String := demoSignature "aa" (transferFields "04cc" "04bb" (.finite 10000))

/-- A session on `demoDb`: a new wallet; a single-signature transfer (transaction 1,
completed at once); a transfer out of the multi-signature wallet C (transaction 2,
pending); an approval whose credit statement fails (rolled back); the same approval
again (completes transaction 2); a third signature for the completed transaction
(refused). -/
def demoCalls : List Call :=
  [.createWallet noFault "Dana" "04dd",
    .transferFunds noFault "04aa" "04bb" (.finite 2500) signatureA "04aa",
    .transferFunds noFault "04cc" "04bb" (.finite 10000) signatureC "04cc",
    .approveTransaction (fun k => k == 6) 2 "04dd" signatureD,
    .approveTransaction noFault 2 "04dd" signatureD,
    .approveTransaction noFault 2 "04aa" signatureAC]

/-- The worked example's transaction 1, rejected instead of pending. -/
def rejectedDb : Db :=
  { pendingDb with
    transactions := [⟨1, "04cc", "04bb", 10000, signatureC, .rejected, 0⟩] }

/-- The private key of 64 times one hex digit, for `encodingCrypto`. -/
def longPrivate (c : Char) : String := String.mk (List.replicate 64 c)

/-- The uncompressed spelling (130 hex digits) of the public key of `longPrivate c`. -/
def longPublic (c : Char) : String := String.mk ('0' :: '4' :: List.replicate 128 c)

/-- The compressed spelling (66 hex digits) of the public key of `longPrivate c`. -/
def compressedPublic (c : Char) : String := String.mk ('0' :: '2' :: List.replicate 64 c)

/-- The wallets of `demoDb` under keys of full length: A and B single-signature, C
multi-signature with two signatures required. -/
def longDb : Db :=
  { demoDb with
    wallets := [⟨1, 1, longPublic 'a', 100000, false, 1⟩, ⟨2, 2, longPublic 'b', 5000, false, 1⟩,
      ⟨3, 3, longPublic 'c', 100000, true, 2⟩] }

/-- The signature `signData` gives with `encodingCrypto` (empty when it throws). -/
def longSignature (privateKeyHex : String) (data : JsValue) : String :=
  match signData encodingCrypto privateKeyHex data with
  | .ok signatureHex => signatureHex
  | .error _ => ""

/-- A request to move 25.00 out of the single-signature wallet A to wallet B, signed by
the key `d`, which is named as `signerAddress` and is no key of any wallet. -/
def strangerRequest : TransferRequest :=
  { fromAddress := longPublic 'a'
    toAddress := longPublic 'b'
    amount := .finite 2500
    signature := longSignature (longPrivate 'd')
      (transferFields (longPublic 'a') (longPublic 'b') (.finite 2500))
    signerAddress := some (longPublic 'd') }

/-- The signature of wallet C's key over a transfer of 100.00 from C to B, under the keys
of full length. -/
def longSignatureC : String :=
  longSignature (longPrivate 'c')
    (transferFields (longPublic 'c') (longPublic 'b') (.finite 10000))

/-- The database after C has initiated that transfer with its own signature. -/
def longPendingDb : Db :=
  (transferFunds noFault (longPublic 'c') (longPublic 'b') (.finite 10000) longSignatureC
    (longPublic 'c') longDb).2

/-- Three transactions of wallet A with different times of creation, and two signature
records. -/
def historyDb : Db :=
  { demoDb with
    transactions := [⟨1, "04aa", "04bb", 2500, "s1", .completed, 10⟩,
      ⟨2, "04cc", "04bb", 10000, "s2", .pending, 20⟩,
      ⟨3, "04cc", "04aa", 700, "s3", .pending, 30⟩,
      ⟨4, "04bb", "04aa", 100, "s4", .completed, 40⟩]
    transaction_signatures := [⟨1, "04aa", "s1"⟩, ⟨2, "04cc", "s2"⟩, ⟨3, "04cc", "s3"⟩,
      ⟨3, "04dd", "s5"⟩, ⟨4, "04bb", "s4"⟩]
    nextTransactionId := 5
    now := 50 }

/-! ## Decoders used to show that the serialisation loses nothing -/

/-- The number a list of decimal digits writes. -/
def decodeDigits (cs : List Char) : Nat :=
  Nat.ofDigits 10 (cs.reverse.map fun c => c.toNat - 48)

/-- The hundredths that the text after the integer part writes. -/
def decodeFraction : List Char → Nat
  | [_, a] => (a.toNat - 48) * 10
  | [_, a, b] => (a.toNat - 48) * 10 + (b.toNat - 48)
  | _ => 0

/-- Reads the code points back from UTF-16 code units. -/
def decodeUnits : List Nat → List Nat
  | [] => []
  | [u] => [u]
  | u :: v :: rest =>
    if 0xD800 ≤ u ∧ u < 0xDC00 then
      (0x10000 + (u - 0xD800) * 0x400 + (v - 0xDC00)) :: decodeUnits rest
    else u :: decodeUnits (v :: rest)

/-- The value of a lowercase hexadecimal digit. -/
def hexValue (c : Char) : Nat := if c.isDigit then c.toNat - 48 else c.toNat - 87

/-- Reads one character back from the front of an escaped text: the inverse of
`quoteChar`. -/
def unquoteChar : List Char → Option (Char × List Char)
  | [] => none
  | c :: x =>
    if c = '\\' then
      match x with
      | [] => none
      | e :: y =>
        if e = 'b' then some ('\x08', y)
        else if e = 't' then some ('\t', y)
        else if e = 'n' then some ('\n', y)
        else if e = 'f' then some ('\x0c', y)
        else if e = 'r' then some ('\r', y)
        else if e = 'u' then
          match y with
          | _ :: _ :: a :: b :: z => some (Char.ofNat (hexValue a * 16 + hexValue b), z)
          | _ => none
        else some (e, y)
    else some (c, x)

/-! ## Keys and invariants of the tables -/

/-- Modelled from the spec: the declaration of the table `transactions` is not among the
sources.  Its primary key: the ids are distinct and below the `AUTO_INCREMENT` counter. -/
def Db.TransactionKeys (db : Db) : Prop :=
  (db.transactions.map fun t => t.id).Nodup ∧
    ∀ t ∈ db.transactions, t.id < db.nextTransactionId

instance (db : Db) : Decidable db.TransactionKeys := by
  unfold Db.TransactionKeys
  infer_instance

/-- Every signature record belongs to an id that has been given out. -/
def Db.SignatureIds (db : Db) : Prop :=
  ∀ r ∈ db.transaction_signatures, r.transaction_id < db.nextTransactionId

instance (db : Db) : Decidable db.SignatureIds := by
  unfold Db.SignatureIds
  infer_instance

/-- The uniqueness invariant of signature records: at most one record for each pair of a
transaction id and a signer address. -/
def Db.SignaturesUnique (db : Db) : Prop :=
  (db.transaction_signatures.map fun r => (r.transaction_id, r.signer_public_key)).Nodup

instance (db : Db) : Decidable db.SignaturesUnique := by
  unfold Db.SignaturesUnique
  infer_instance

/-- The wallet invariant: a wallet that is not multi-signature requires one signature. -/
def Db.WalletInvariant (db : Db) : Prop :=
  ∀ w ∈ db.wallets, w.is_multisig = false → w.required_signatures = 1

instance (db : Db) : Decidable db.WalletInvariant := by
  unfold Db.WalletInvariant
  infer_instance

/-- Every completed transaction has signature records of at least as many distinct
signers as its sender wallet requires. -/
def Db.QuorumReached (db : Db) : Prop :=
  ∀ t ∈ db.transactions, t.status = .completed →
    ∃ w, findByPublicKey db t.from_wallet = some w ∧
      w.required_signatures ≤ (signers db t.id).length

/-- Modelled from the spec: the declaration of the table `wallets` is not among the
sources.  Its unique key: no two wallets have the same public key. -/
def Db.WalletKeys (db : Db) : Prop :=
  (db.wallets.map fun w => w.public_key).Nodup

instance (db : Db) : Decidable db.WalletKeys := by
  unfold Db.WalletKeys
  infer_instance

/-- Every transaction names a receiver that has a wallet. -/
def Db.ReceiversExist (db : Db) : Prop :=
  ∀ t ∈ db.transactions, ∃ w ∈ db.wallets, w.public_key = t.to_wallet

instance (db : Db) : Decidable db.ReceiversExist := by
  unfold Db.ReceiversExist
  infer_instance

/-- The sum of all wallet balances. -/
def totalBalance (db : Db) : Int :=
  (db.wallets.map fun w => w.balance).sum

/-- A call of `transferFunds` or `approveTransaction`. -/
def Call.movesFunds : Call → Bool
  | .createWallet _ _ _ => false
  | _ => true

/-- What a call that commits makes of the database: the row `createWallet` adds, the two
outcomes of `transferFunds` and the two outcomes of `approveTransaction`, each with what
the function has checked on the way. -/
inductive Step (db : Db) : Db → Prop
  | created (username publicKey : String)
      (huser : db.users.any (fun u => u.username == username) = false)
      (hkey : db.wallets.any (fun w => w.public_key == publicKey) = false) :
    Step db
      { db with
        users := db.users ++ [⟨db.nextUserId, username⟩]
        wallets := db.wallets ++
          [⟨db.nextWalletId, db.nextUserId, publicKey, 100000, false, 1⟩]
        nextUserId := db.nextUserId + 1
        nextWalletId := db.nextWalletId + 1 }
  | initiated (fromAddress toAddress : String) (a : Int) (signature signerAddress : String)
      (wallet : Wallet) (rest : List Wallet)
      (hrow : selectWallets db fromAddress = wallet :: rest)
      (hstatus : initialStatus wallet = .pending)
      (hreceiver : selectWallets db toAddress ≠ []) :
    Step db (insertSignature
      (insertTransaction db fromAddress toAddress a signature .pending).2
      db.nextTransactionId signerAddress signature)
  | transferred (fromAddress toAddress : String) (a : Int) (signature signerAddress : String)
      (wallet : Wallet) (rest : List Wallet)
      (hrow : selectWallets db fromAddress = wallet :: rest)
      (hstatus : initialStatus wallet = .completed) (hbalance : a ≤ wallet.balance)
      (hreceiver : selectWallets db toAddress ≠ []) :
    Step db (updateBalance (updateBalance (insertSignature
      (insertTransaction db fromAddress toAddress a signature .completed).2
      db.nextTransactionId signerAddress signature) fromAddress (-a)) toAddress a)
  | signed (transactionId : Nat) (signerAddress signature : String)
      (transaction : Transaction) (rest : List Transaction)
      (hrow : selectTransactions db transactionId = transaction :: rest)
      (hpending : transaction.status = .pending)
      (hnew : ∀ r ∈ selectSignatures db transactionId, r.signer_public_key ≠ signerAddress) :
    Step db (insertSignature db transactionId signerAddress signature)
  | settled (transactionId : Nat) (signerAddress signature : String)
      (transaction : Transaction) (rest : List Transaction) (wallet : Wallet)
      (hrow : selectTransactions db transactionId = transaction :: rest)
      (hpending : transaction.status = .pending)
      (hnew : ∀ r ∈ selectSignatures db transactionId, r.signer_public_key ≠ signerAddress)
      (hwallet : findByPublicKey db transaction.from_wallet = some wallet)
      (hquorum : wallet.required_signatures ≤ (selectSignatures db transactionId).length + 1) :
    Step db (completeTransaction (updateBalance (updateBalance
      (insertSignature db transactionId signerAddress signature)
      transaction.from_wallet (-transaction.amount))
      transaction.to_wallet transaction.amount) transactionId)

/-! # Properties -/

/-! ## Calls that can throw -/

/-- A database call succeeds exactly when it is not failed and its effect succeeds. -/
theorem execute_eq_ok {α : Type} (fault : Faults) (k : Nat) (effect : Except WalletError α)
    (x : α) : execute fault k effect = .ok x ↔ fault k = false ∧ effect = .ok x := by
  unfold execute
  cases fault k <;> simp

/-- A sequence succeeds exactly when its first step and the rest do. -/
theorem bind_eq_ok {ε α β : Type} (x : Except ε α) (f : α → Except ε β) (b : β) :
    (x >>= f) = .ok b ↔ ∃ a, x = .ok a ∧ f a = .ok b := by
  cases x <;> simp [bind, Except.bind]

/-- A database call throws either the rejection or what its effect throws. -/
theorem execute_eq_error {α : Type} (fault : Faults) (k : Nat) (effect : Except WalletError α)
    (e : WalletError) : execute fault k effect = .error e ↔
      (fault k = true ∧ e = .database "ER_STATEMENT_FAILED") ∨ (fault k = false ∧ effect = .error e) := by
  unfold execute
  cases fault k <;> simp [eq_comm]

/-- A sequence throws what its first step throws, or what the rest throws. -/
theorem bind_eq_error {ε α β : Type} (x : Except ε α) (f : α → Except ε β) (e : ε) :
    (x >>= f) = .error e ↔ x = .error e ∨ ∃ a, x = .ok a ∧ f a = .error e := by
  cases x <;> simp [bind, Except.bind]

/-! ## Signature verification never throws -/

/-- The `catch` of `verifySignature` turns every exception into `false`. -/
theorem verifySignature_ok {Key : Type} (E : Crypto Key) (publicKeyHex : String)
    (data : JsValue) (signatureHex : String) :
    ∃ b : Bool, verifySignature E publicKeyHex data signatureHex = .ok b := by
  unfold verifySignature
  cases verifySignatureTry E publicKeyHex data signatureHex with
  | error e => exact ⟨false, rfl⟩
  | ok b => exact ⟨b, rfl⟩

/-- A verification that is not `true` is `false`. -/
theorem verifySignature_eq_false {Key : Type} (E : Crypto Key) (publicKeyHex : String)
    (data : JsValue) (signatureHex : String)
    (h : verifySignature E publicKeyHex data signatureHex ≠ .ok true) :
    verifySignature E publicKeyHex data signatureHex = .ok false := by
  obtain ⟨b, hb⟩ := verifySignature_ok E publicKeyHex data signatureHex
  cases b with
  | false => exact hb
  | true => exact absurd hb h

/-- C4: for every public-key string, data value and signature string,
`CryptoHelper.verifySignature` returns a boolean and does not throw; the boolean is
`false` when `keyFromPublic` throws on the public-key string, when the signature string
makes `key.verify` throw whatever the key and the digest, and when hashing the data
throws. -/
theorem verifySignature_never_throws {Key : Type} (E : Crypto Key) (publicKeyHex : String)
    (data : JsValue) (signatureHex : String) :
    (∃ b : Bool, verifySignature E publicKeyHex data signatureHex = .ok b) ∧
    ((∃ e, E.keyFromPublic publicKeyHex = .error e) →
      verifySignature E publicKeyHex data signatureHex = .ok false) ∧
    ((∀ key hash, ∃ e, E.verify key hash signatureHex = .error e) →
      verifySignature E publicKeyHex data signatureHex = .ok false) ∧
    ((∃ e, hashData E data = .error e) →
      verifySignature E publicKeyHex data signatureHex = .ok false) := by
  refine ⟨verifySignature_ok E publicKeyHex data signatureHex, ?_, ?_, ?_⟩
  · rintro ⟨e, he⟩
    simp [verifySignature, verifySignatureTry, he]
  · intro hsig
    unfold verifySignature verifySignatureTry
    cases hk : E.keyFromPublic publicKeyHex with
    | error e => rfl
    | ok key =>
      cases hh : hashData E data with
      | error e => rfl
      | ok hash =>
        obtain ⟨e, he⟩ := hsig key hash
        simp [he]
  · rintro ⟨e, he⟩
    unfold verifySignature verifySignatureTry
    cases hk : E.keyFromPublic publicKeyHex with
    | error e => rfl
    | ok key => simp [he]

/-- The malformed inputs of the tests, on the runnable instance: a signature that is no
DER string and a public key that is no point both give `false`. -/
theorem verifySignature_malformed_examples :
    verifySignature demoCrypto "04aa"
        (.obj [("from", .str "0xAAA"), ("to", .str "0xBBB"), ("amount", .num (.finite 50000))])
        "not_a_real_sig" = .ok false ∧
      verifySignature demoCrypto "bad_public_key"
        (.obj [("from", .str "0xAAA"), ("to", .str "0xBBB"), ("amount", .num (.finite 50000))])
        "30aa" = .ok false ∧
      verifySignature demoCrypto "04aa" .null "30aa" = .ok false := by
  decide

/-! ## Approval with a signature that does not verify -/

/-- Once the signature has verified over the stored fields, nothing in the rest of the
`try` block throws the invalid-signature error, whichever database calls fail. -/
theorem approveTransactionTry_ne_invalidSignature {Key : Type} (E : Crypto Key) (fault : Faults)
    (db : Db) (transactionId : Nat) (signerAddress signature : String)
    (transaction : Transaction) (rest : List Transaction)
    (hrow : selectTransactions db transactionId = transaction :: rest)
    (hsig : verifySignature E signerAddress (storedTxData transaction) signature = .ok true) :
    approveTransactionTry E fault transactionId signerAddress signature db ≠
      .error .invalidSignature := by
  intro h
  unfold approveTransactionTry at h
  simp only [bind_eq_error, execute_eq_error, bind_eq_ok, execute_eq_ok, pure, Except.pure,
    reduceCtorEq, and_false, false_or, or_false, Except.ok.injEq, false_and] at h
  obtain ⟨rows, ⟨_, rfl⟩, h⟩ := h
  rw [hrow] at h
  simp only [hsig, Except.mapError, bind_eq_error, execute_eq_error, bind_eq_ok, execute_eq_ok, pure,
    Except.pure, throw, throwThe, MonadExceptOf.throw,
    reduceCtorEq, and_false, false_or, or_false, Except.ok.injEq, false_and, Bool.not_true,
    Bool.false_eq_true, if_false, exists_false, exists_const, Except.error.injEq] at h
  by_cases hp : transaction.status ≠ .pending
  · simp [hp] at h
  rw [if_neg hp] at h
  simp only [bind_eq_error, execute_eq_error, bind_eq_ok, execute_eq_ok, pure, Except.pure,
    reduceCtorEq, and_false, false_or, or_false, Except.ok.injEq, false_and, Bool.not_true,
    Bool.false_eq_true, if_false, exists_false, exists_const, Except.error.injEq,
    exists_eq_left'] at h
  obtain ⟨walletRows, _, existing, _, h⟩ := h
  by_cases hd : existing.length > 0
  · simp [hd] at h
  rw [if_neg hd] at h
  simp only [bind_eq_error, execute_eq_error, bind_eq_ok, execute_eq_ok, pure, Except.pure,
    reduceCtorEq, and_false, false_or, or_false, Except.ok.injEq, false_and,
    exists_false, exists_const, Except.error.injEq] at h
  obtain ⟨db1, _, count, _, h⟩ := h
  cases hw : walletRows.head? with
  | none => simp [hw] at h
  | some wallet =>
    rw [hw] at h
    by_cases hq : count ≥ wallet.required_signatures
    · simp [hq, bind_eq_error, execute_eq_error, bind_eq_ok, execute_eq_ok, pure,
        Except.pure] at h
    · simp [hq, bind_eq_error, execute_eq_error, bind_eq_ok, execute_eq_ok, pure,
        Except.pure] at h

/-- C1: when the transaction row found for `transactionId` is pending and the signature
does not verify under `signerAddress` over the fields `from`, `to`, `amount` of that
stored row, `approveTransaction` fails with the invalid-signature error and the database
is exactly as before (no signature row, no balance change, no status change), whatever
the later statements would have done.  The verified fields are the stored ones: a
signature that does verify over them is never answered with the invalid-signature
error, whichever database calls fail. -/
theorem approveTransaction_invalid_signature {Key : Type} (E : Crypto Key)
    (db : Db) (transactionId : Nat) (signerAddress signature : String)
    (transaction : Transaction) (rest : List Transaction)
    (hrow : selectTransactions db transactionId = transaction :: rest)
    (hpending : transaction.status = .pending) :
    (∀ fault : Faults, fault 0 = false →
      verifySignature E signerAddress
        (.obj [("from", .str transaction.from_wallet), ("to", .str transaction.to_wallet),
          ("amount", .num (.finite transaction.amount))]) signature ≠ .ok true →
      approveTransaction E fault transactionId signerAddress signature db =
        (.error .invalidSignature, db)) ∧
    (∀ fault : Faults,
      verifySignature E signerAddress
        (.obj [("from", .str transaction.from_wallet), ("to", .str transaction.to_wallet),
          ("amount", .num (.finite transaction.amount))]) signature = .ok true →
      (approveTransaction E fault transactionId signerAddress signature db).1 ≠
        .error .invalidSignature) := by
  constructor
  · intro fault hfault hsig
    have hfalse := verifySignature_eq_false E signerAddress _ signature hsig
    simp [approveTransaction, approveTransactionTry, execute, hfault, hrow, hpending,
      storedTxData, hfalse, Except.mapError, bind, Except.bind, pure, Except.pure, throw,
      throwThe, MonadExceptOf.throw]
  · intro fault hsig
    have hne := approveTransactionTry_ne_invalidSignature E fault db transactionId signerAddress
      signature transaction rest hrow hsig
    unfold approveTransaction
    cases hres : approveTransactionTry E fault transactionId signerAddress signature db with
    | error e =>
      intro h
      simp only [Except.error.injEq] at h
      exact hne (by rw [hres, h])
    | ok out => simp

/-- C1 at a concrete input: in `pendingDb`, an approval of transaction 1 by the key `04dd`
with the string `invalid_sig` is refused and nothing is stored. -/
theorem approveTransaction_invalid_signature_witness :
    approveTransaction demoCrypto noFault 1 "04dd" "invalid_sig" pendingDb =
        (.error .invalidSignature, pendingDb) ∧
      (approveTransaction demoCrypto noFault 1 "04dd" signatureD pendingDb).1 ≠
        .error .invalidSignature :=
  have h := approveTransaction_invalid_signature demoCrypto pendingDb 1 "04dd" "invalid_sig"
    ⟨1, "04cc", "04bb", 10000, signatureC, .pending, 0⟩ [] (by decide) (by decide)
  have h' := approveTransaction_invalid_signature demoCrypto pendingDb 1 "04dd" signatureD
    ⟨1, "04cc", "04bb", 10000, signatureC, .pending, 0⟩ [] (by decide) (by decide)
  ⟨h.1 noFault rfl (by decide), h'.2 noFault (by decide)⟩

/-- The worked example's pending state is what `transferFunds` makes of `demoDb`. -/
theorem transferFunds_demo_pending :
    transferFunds noFault "04cc" "04bb" (.finite 10000) signatureC "04cc" demoDb =
      (.ok ⟨1, .pending⟩, pendingDb) := by
  decide

/-! ## The transfer controller refuses an invalid signature -/

/-- C2: the transfer controller verifies the signature over the fields `from:
fromAddress`, `to: toAddress`, `amount` under `signerAddress` when the request has a
(non-empty) one and under `fromAddress` otherwise.  When that verification fails it
answers 401 and the database is untouched whatever `transferFunds` would have done
(it is not called); when it succeeds the answer is not 401. -/
theorem transfer_invalid_signature {Key : Type} (E : Crypto Key) (fault : Faults)
    (req : TransferRequest) (db : Db) :
    (∀ signer, req.signerAddress = some signer → signer ≠ "" →
      verifySignature E signer
        (.obj [("from", .str req.fromAddress), ("to", .str req.toAddress),
          ("amount", .num req.amount)]) req.signature ≠ .ok true →
      transfer E fault req db = (⟨401, .error "GEÇERSİZ İMZA! İşlem reddedildi."⟩, db)) ∧
    (req.signerAddress = none ∨ req.signerAddress = some "" →
      verifySignature E req.fromAddress
        (.obj [("from", .str req.fromAddress), ("to", .str req.toAddress),
          ("amount", .num req.amount)]) req.signature ≠ .ok true →
      transfer E fault req db = (⟨401, .error "GEÇERSİZ İMZA! İşlem reddedildi."⟩, db)) ∧
    (verifySignature E (actualSigner req) (requestTxData req) req.signature = .ok true →
      (transfer E fault req db).1.status ≠ 401 ∧
      (transfer E fault req db).2 =
        (transferFunds fault req.fromAddress req.toAddress req.amount req.signature
          (actualSigner req) db).2) := by
  refine ⟨?_, ?_, ?_⟩
  · intro signer hsome hne hsig
    have hactual : actualSigner req = signer := by simp [actualSigner, hsome, hne]
    have hfalse := verifySignature_eq_false E signer _ req.signature hsig
    simp [transfer, hactual, requestTxData, hfalse]
  · intro habsent hsig
    have hactual : actualSigner req = req.fromAddress := by
      rcases habsent with h | h <;> simp [actualSigner, h]
    have hfalse := verifySignature_eq_false E req.fromAddress _ req.signature hsig
    simp [transfer, hactual, requestTxData, hfalse]
  · intro hsig
    unfold transfer
    rw [hsig]
    cases hres : transferFunds fault req.fromAddress req.toAddress req.amount req.signature
        (actualSigner req) db with
    | mk result db' =>
      cases result with
      | ok r => simp
      | error e => simp

/-- C2 at concrete requests: a transfer from A to B whose signature is `deadbeef01020304`
gets 401 and leaves `demoDb` as it was, with and without a `signerAddress`; the same
transfer with A's own signature is answered 200. -/
theorem transfer_invalid_signature_witness :
    transfer demoCrypto noFault ⟨"04aa", "04bb", .finite 10000, "deadbeef01020304", some "04dd"⟩
        demoDb = (⟨401, .error "GEÇERSİZ İMZA! İşlem reddedildi."⟩, demoDb) ∧
      transfer demoCrypto noFault ⟨"04aa", "04bb", .finite 10000, "deadbeef01020304", none⟩
        demoDb = (⟨401, .error "GEÇERSİZ İMZA! İşlem reddedildi."⟩, demoDb) ∧
      (transfer demoCrypto noFault ⟨"04aa", "04bb", .finite 10000,
        demoSignature "aa" (transferFields "04aa" "04bb" (.finite 10000)), none⟩
        demoDb).1.status = 200 :=
  ⟨(transfer_invalid_signature demoCrypto noFault
      ⟨"04aa", "04bb", .finite 10000, "deadbeef01020304", some "04dd"⟩ demoDb).1
      "04dd" rfl (by decide) (by decide),
    (transfer_invalid_signature demoCrypto noFault
      ⟨"04aa", "04bb", .finite 10000, "deadbeef01020304", none⟩ demoDb).2.1
      (Or.inl rfl) (by decide),
    by decide⟩

/-! ## The serialisation of numbers and strings loses nothing -/

theorem digitChar_toNat : ∀ d, d < 10 → (Nat.digitChar d).toNat = 48 + d := by decide

theorem digitChar_isDigit : ∀ d, d < 10 → (Nat.digitChar d).isDigit = true := by decide

/-- The printing loop with enough fuel, in terms of `Nat.digits`. -/
theorem toDigitsCore_eq (fuel : Nat) : ∀ (n : Nat) (acc : List Char), n < fuel → 0 < n →
    Nat.toDigitsCore 10 fuel n acc = ((Nat.digits 10 n).map Nat.digitChar).reverse ++ acc := by
  induction fuel with
  | zero => intro n acc h; omega
  | succ fuel ih =>
    intro n acc hlt hpos
    rw [Nat.toDigitsCore]
    have hd : Nat.digits 10 n = (n % 10) :: Nat.digits 10 (n / 10) :=
      Nat.digits_def' (by norm_num) hpos
    by_cases hq : n / 10 = 0
    · simp [hq, hd]
    · simp only [hq, if_false]
      rw [ih (n / 10) _ (by omega) (by omega), hd]
      simp

/-- The decimal digits core prints are the digits of `Nat.digits`, most significant first. -/
theorem toDigits_eq (n : Nat) : Nat.toDigits 10 n =
    if n = 0 then ['0'] else ((Nat.digits 10 n).map Nat.digitChar).reverse := by
  by_cases h : n = 0
  · subst h; rfl
  · simp only [h, if_false]
    rw [Nat.toDigits, toDigitsCore_eq (n + 1) n [] (by omega) (by omega)]
    simp

/-- Reading the printed digits gives the number back. -/
theorem decodeDigits_toDigits (n : Nat) : decodeDigits (Nat.toDigits 10 n) = n := by
  rw [toDigits_eq]
  by_cases h : n = 0
  · subst h; simp [decodeDigits]
  · simp only [h, if_false, decodeDigits, List.reverse_reverse, List.map_map]
    have : List.map ((fun c => c.toNat - 48) ∘ Nat.digitChar) (Nat.digits 10 n) = Nat.digits 10 n := by
      conv_rhs => rw [← List.map_id (Nat.digits 10 n)]
      apply List.map_congr_left
      intro d hd
      have := Nat.digits_lt_base (by norm_num : 1 < 10) hd
      simp [digitChar_toNat d this]
    rw [this, Nat.ofDigits_digits]

theorem toDigits_injective {n m : Nat} (h : Nat.toDigits 10 n = Nat.toDigits 10 m) : n = m := by
  have := congrArg decodeDigits h
  simpa [decodeDigits_toDigits] using this

theorem toDigits_isDigit (n : Nat) : ∀ c ∈ Nat.toDigits 10 n, c.isDigit = true := by
  intro c hc
  rw [toDigits_eq] at hc
  by_cases h : n = 0
  · simp [h] at hc; subst hc; decide
  · simp only [h, if_false, List.mem_reverse, List.mem_map] at hc
    obtain ⟨d, hd, rfl⟩ := hc
    have hlt := Nat.digits_lt_base (by norm_num : 1 < 10) hd
    exact digitChar_isDigit d hlt

theorem toDigits_ne_nil (n : Nat) : Nat.toDigits 10 n ≠ [] := by
  rw [toDigits_eq]
  by_cases h : n = 0
  · simp [h]
  · simp [h, Nat.digits_ne_nil_iff_ne_zero]

/-- Two texts that each consist of a run of characters with a property, followed by a rest
that does not start with such a character, are equal only if runs and rests are. -/
theorem append_split {α : Type} (P : α → Prop) : ∀ {l1 l2 s1 s2 : List α},
    (∀ x ∈ l1, P x) → (∀ x ∈ l2, P x) → (∀ x ∈ s1.head?, ¬ P x) → (∀ x ∈ s2.head?, ¬ P x) →
    l1 ++ s1 = l2 ++ s2 → l1 = l2 ∧ s1 = s2
  | [], [], _, _, _, _, _, _, h => ⟨rfl, by simpa using h⟩
  | [], b :: l2, s1, s2, _, h2, hs1, _, h => by
    exfalso
    cases s1 with
    | nil => simp at h
    | cons a s1 =>
      simp at h
      exact hs1 a (by simp) (h.1 ▸ h2 b (by simp))
  | a :: l1, [], s1, s2, h1, _, _, hs2, h => by
    exfalso
    cases s2 with
    | nil => simp at h
    | cons b s2 =>
      simp at h
      exact hs2 b (by simp) (h.1 ▸ h1 a (by simp))
  | a :: l1, b :: l2, s1, s2, h1, h2, hs1, hs2, h => by
    simp only [List.cons_append, List.cons.injEq] at h
    obtain ⟨hl, hs⟩ := append_split P (fun x hx => h1 x (by simp [hx]))
      (fun x hx => h2 x (by simp [hx])) hs1 hs2 h.2
    exact ⟨by rw [h.1, hl], hs⟩



theorem decodeFraction_fractionDigits : ∀ r, r < 100 → decodeFraction (fractionDigits r) = r := by
  decide

theorem fractionDigits_injective {r r' : Nat} (hr : r < 100) (hr' : r' < 100)
    (h : fractionDigits r = fractionDigits r') : r = r' := by
  have := congrArg decodeFraction h
  rwa [decodeFraction_fractionDigits r hr, decodeFraction_fractionDigits r' hr'] at this

theorem fractionDigits_head : ∀ r, r < 100 → ∀ c ∈ (fractionDigits r).head?, c = '.' := by
  decide

theorem fractionDigits_chars : ∀ r, r < 100 → ∀ c ∈ fractionDigits r, c = '.' ∨ c.isDigit = true := by
  decide

theorem unsigned_injective {q q' r r' : Nat} (hr : r < 100) (hr' : r' < 100)
    (h : Nat.toDigits 10 q ++ fractionDigits r = Nat.toDigits 10 q' ++ fractionDigits r') :
    q = q' ∧ r = r' := by
  obtain ⟨h1, h2⟩ := append_split (fun c => c.isDigit = true) (toDigits_isDigit q)
    (toDigits_isDigit q')
    (fun c hc => by rw [fractionDigits_head r hr c hc]; decide)
    (fun c hc => by rw [fractionDigits_head r' hr' c hc]; decide) h
  exact ⟨toDigits_injective h1, fractionDigits_injective hr hr' h2⟩

theorem unsigned_head (q r : Nat) : ∃ c rest, Nat.toDigits 10 q ++ fractionDigits r = c :: rest ∧
    c.isDigit = true := by
  cases h : Nat.toDigits 10 q with
  | nil => exact absurd h (toDigits_ne_nil q)
  | cons c rest =>
    exact ⟨c, rest ++ fractionDigits r, rfl, toDigits_isDigit q c (by simp [h])⟩

/-- Different finite amounts are written differently. -/
theorem numberToString_injective {a b : Int} (h : numberToString a = numberToString b) : a = b := by
  unfold numberToString at h
  obtain ⟨ca, ra, hea, hda⟩ := unsigned_head (a.natAbs / 100) (a.natAbs % 100)
  obtain ⟨cb, rb, heb, hdb⟩ := unsigned_head (b.natAbs / 100) (b.natAbs % 100)
  have key : ∀ {x y : Int}, x.natAbs / 100 = y.natAbs / 100 → x.natAbs % 100 = y.natAbs % 100 →
      x.natAbs = y.natAbs := by
    intro x y h1 h2
    rw [← Nat.div_add_mod x.natAbs 100, ← Nat.div_add_mod y.natAbs 100, h1, h2]
  by_cases ha : a < 0 <;> by_cases hb : b < 0
  · simp only [ha, hb, if_true, List.cons_append, List.nil_append, List.cons.injEq, true_and] at h
    obtain ⟨h1, h2⟩ := unsigned_injective (Nat.mod_lt _ (by norm_num)) (Nat.mod_lt _ (by norm_num)) h
    have := key h1 h2
    omega
  · simp only [ha, hb, if_true, if_false, List.cons_append, List.nil_append] at h
    rw [heb] at h
    simp only [List.cons.injEq] at h
    rw [← h.1] at hdb
    exact absurd hdb (by decide)
  · simp only [ha, hb, if_true, if_false, List.cons_append, List.nil_append] at h
    rw [hea] at h
    simp only [List.cons.injEq] at h
    rw [h.1] at hda
    exact absurd hda (by decide)
  · simp only [ha, hb, if_false, List.nil_append] at h
    obtain ⟨h1, h2⟩ := unsigned_injective (Nat.mod_lt _ (by norm_num)) (Nat.mod_lt _ (by norm_num)) h
    have := key h1 h2
    omega

/-- A finite amount is written with a sign, a point and digits only. -/
theorem numberToString_chars (a : Int) : ∀ c ∈ numberToString a,
    c = '-' ∨ c = '.' ∨ c.isDigit = true := by
  intro c hc
  unfold numberToString at hc
  simp only [List.mem_append] at hc
  rcases hc with hc | hc | hc
  · split_ifs at hc <;> simp_all
  · exact Or.inr (Or.inr (toDigits_isDigit _ c hc))
  · rcases fractionDigits_chars _ (Nat.mod_lt _ (by norm_num)) c hc with h | h
    · exact Or.inr (Or.inl h)
    · exact Or.inr (Or.inr h)

theorem hexValue_hexDigit : ∀ n, n < 32 →
    hexValue (hexDigit (n / 16)) * 16 + hexValue (hexDigit n) = n := by
  decide

/-- Reading an escaped character gives it back, with the text that followed. -/
theorem unquoteChar_quoteChar (c : Char) (x : List Char) :
    unquoteChar (quoteChar c ++ x) = some (c, x) := by
  unfold quoteChar
  split_ifs with h1 h2 h3 h4 h5 h6 h7 h8
  · subst h1; rfl
  · subst h2; rfl
  · subst h3; rfl
  · subst h4; rfl
  · subst h5; rfl
  · subst h6; rfl
  · subst h7; rfl
  · simp only [List.cons_append, List.nil_append, unquoteChar]
    simp [hexValue_hexDigit c.toNat h8]
  · simp [unquoteChar, h7]

/-- No escape is the start of another. -/
theorem quoteChar_prefix_free {c c' : Char} {x x' : List Char}
    (h : quoteChar c ++ x = quoteChar c' ++ x') : c = c' ∧ x = x' := by
  have := congrArg unquoteChar h
  simpa [unquoteChar_quoteChar] using this

/-- An escape never starts with a double quote. -/
theorem quoteChar_head (c : Char) : ∃ d rest, quoteChar c = d :: rest ∧ d ≠ '"' := by
  unfold quoteChar
  split_ifs with h1 h2 h3 h4 h5 h6 h7 h8
  all_goals first
    | exact ⟨'\\', _, rfl, by decide⟩
    | exact ⟨c, [], rfl, h6⟩

/-- An escaped string followed by its closing quote determines the string and what follows. -/
theorem quoted_body_injective : ∀ (s s' : List Char) (r r' : List Char),
    s.flatMap quoteChar ++ '"' :: r = s'.flatMap quoteChar ++ '"' :: r' → s = s' ∧ r = r'
  | [], [], r, r', h => ⟨rfl, by simpa using h⟩
  | [], c' :: t', r, r', h => by
    obtain ⟨d, rest, hd, hne⟩ := quoteChar_head c'
    simp [List.flatMap_cons, hd] at h
    exact absurd h.1.symm hne
  | c :: t, [], r, r', h => by
    obtain ⟨d, rest, hd, hne⟩ := quoteChar_head c
    simp [List.flatMap_cons, hd] at h
    exact absurd h.1 hne
  | c :: t, c' :: t', r, r', h => by
    simp only [List.flatMap_cons, List.append_assoc] at h
    obtain ⟨hc, hx⟩ := quoteChar_prefix_free h
    obtain ⟨ht, hr⟩ := quoted_body_injective t t' r r' hx
    exact ⟨by rw [hc, ht], hr⟩

/-- The canonical string of the three fields, written out. -/
theorem canonicalString_transferFields (f t : String) (n : JsNumber) :
    canonicalString (transferFields f t n) = .ok (some (
      ['{', '"', 'a', 'm', 'o', 'u', 'n', 't', '"', ':'] ++ (serializeNumber n ++
        ',' :: (['"', 'f', 'r', 'o', 'm', '"', ':', '"'] ++ (f.toList.flatMap quoteChar ++
          '"' :: (',' :: (['"', 't', 'o', '"', ':', '"'] ++ (t.toList.flatMap quoteChar ++
            ['"', '}'])))))))) := by
  have hs : sortKeys ["from", "to", "amount"] = ["amount", "from", "to"] := by decide
  have hp : propertyList ["amount", "from", "to"] = ["amount", "from", "to"] := by decide
  have ha : quoteChar 'a' = ['a'] := by decide
  have hm : quoteChar 'm' = ['m'] := by decide
  have ho : quoteChar 'o' = ['o'] := by decide
  have hu : quoteChar 'u' = ['u'] := by decide
  have hn : quoteChar 'n' = ['n'] := by decide
  have ht : quoteChar 't' = ['t'] := by decide
  have hf : quoteChar 'f' = ['f'] := by decide
  have hr : quoteChar 'r' = ['r'] := by decide
  simp [canonicalString, transferFields, objectKeys, jsonStringify, hs, hp, serializeJSONProperty,
    serializeProps, members, List.lookup, joinComma, quoteJSONString, ha, hm, ho, hu, hn, ht, hf,
    hr]

/-- No comma in a serialised number. -/
theorem serializeNumber_chars (n : JsNumber) : ∀ c ∈ serializeNumber n, c ≠ ',' := by
  intro c hc
  cases n with
  | finite a =>
    rcases numberToString_chars a c hc with h | h | h
    · rw [h]; decide
    · rw [h]; decide
    · intro hcomma; rw [hcomma] at h; exact absurd h (by decide)
  | nan => revert c; decide
  | posInf => revert c; decide
  | negInf => revert c; decide

/-- Two numbers are serialised alike exactly when they are equal or both non-finite. -/
theorem serializeNumber_eq_iff (n n' : JsNumber) :
    serializeNumber n = serializeNumber n' ↔
      n = n' ∨ (n.isFinite = false ∧ n'.isFinite = false) := by
  have hnull : ∀ a : Int, numberToString a ≠ ['n', 'u', 'l', 'l'] := by
    intro a h
    have := numberToString_chars a 'n' (by rw [h]; decide)
    revert this; decide
  cases n with
  | finite a =>
    cases n' with
    | finite b =>
      simp only [serializeNumber, JsNumber.isFinite, JsNumber.finite.injEq]
      exact ⟨fun h => Or.inl (numberToString_injective h), fun h => by
        rcases h with h | h
        · rw [h]
        · exact absurd h.1 (by decide)⟩
    | nan => simp [serializeNumber, JsNumber.isFinite, hnull]
    | posInf => simp [serializeNumber, JsNumber.isFinite, hnull]
    | negInf => simp [serializeNumber, JsNumber.isFinite, hnull]
  | nan => cases n' <;> simp [serializeNumber, JsNumber.isFinite, Ne.symm (hnull _)]
  | posInf => cases n' <;> simp [serializeNumber, JsNumber.isFinite, Ne.symm (hnull _)]
  | negInf => cases n' <;> simp [serializeNumber, JsNumber.isFinite, Ne.symm (hnull _)]

/-- Two field sets have the same canonical string exactly when the addresses agree and the
amounts are equal or both non-finite. -/
theorem canonicalString_transferFields_eq_iff (f t f' t' : String) (n n' : JsNumber) :
    canonicalString (transferFields f t n) = canonicalString (transferFields f' t' n') ↔
      f = f' ∧ t = t' ∧ (n = n' ∨ (n.isFinite = false ∧ n'.isFinite = false)) := by
  rw [← serializeNumber_eq_iff]
  constructor
  · intro h
    rw [canonicalString_transferFields, canonicalString_transferFields] at h
    simp only [Except.ok.injEq, Option.some.injEq, List.cons_append, List.nil_append,
      List.cons.injEq, true_and] at h
    obtain ⟨hn, hrest⟩ := append_split (fun c => c ≠ ',') (serializeNumber_chars n)
      (serializeNumber_chars n') (by simp) (by simp) h
    simp only [List.cons.injEq, true_and] at hrest
    obtain ⟨hf, hrest⟩ := quoted_body_injective _ _ _ _ hrest
    simp only [List.cons.injEq, true_and] at hrest
    obtain ⟨ht, _⟩ := quoted_body_injective _ _ _ _ hrest
    exact ⟨String.ext hf, String.ext ht, hn⟩
  · rintro ⟨rfl, rfl, h⟩
    rw [canonicalString_transferFields, canonicalString_transferFields, h]

/-! ## Different fields, different canonical strings -/

/-- C5 at a failing input: `NaN` and `Infinity` are different amounts that `parseFloat`
can return (of `abc` and of `1e400`), and the fields with the one and with the other have
the same canonical string, the one with `"amount":null`; so `hashData` gives both the same
digest, with every hash function. -/
theorem canonicalString_nan_infinity_collide :
    JsNumber.nan ≠ JsNumber.posInf ∧
      canonicalString (transferFields "A" "B" .nan) =
        canonicalString (transferFields "A" "B" .posInf) ∧
      canonicalString (transferFields "A" "B" .nan) = .ok (some
        ['\x7b', '"', 'a', 'm', 'o', 'u', 'n', 't', '"', ':', 'n', 'u', 'l', 'l', ',',
          '"', 'f', 'r', 'o', 'm', '"', ':', '"', 'A', '"', ',',
          '"', 't', 'o', '"', ':', '"', 'B', '"', '\x7d']) ∧
      ∀ (Key : Type) (E : Crypto Key),
        hashData E (transferFields "A" "B" .nan) =
          hashData E (transferFields "A" "B" .posInf) := by
  refine ⟨by decide, by decide, by decide, ?_⟩
  intro Key E
  have hc : canonicalString (transferFields "A" "B" .nan) =
      canonicalString (transferFields "A" "B" .posInf) := by decide
  simp only [hashData, hc]

/-- Apart from that collision the canonical string tells the fields apart: for all
address strings and all amounts of the model of which at least one is finite, if the
senders differ, or the receivers, or the amounts, then the canonical strings that
`hashData` serialises for the two field sets differ. -/
theorem canonicalString_differs (f t f' t' : String) (n n' : JsNumber)
    (hfinite : n.isFinite = true ∨ n'.isFinite = true)
    (hdiff : f ≠ f' ∨ t ≠ t' ∨ n ≠ n') :
    canonicalString (.obj [("from", .str f), ("to", .str t), ("amount", .num n)]) ≠
      canonicalString (.obj [("from", .str f'), ("to", .str t'), ("amount", .num n')]) := by
  intro h
  obtain ⟨hf, ht, hn⟩ := (canonicalString_transferFields_eq_iff f t f' t' n n').mp h
  rcases hn with hn | ⟨h1, h2⟩
  · rcases hdiff with hd | hd | hd
    · exact hd hf
    · exact hd ht
    · exact hd hn
  · rcases hfinite with hfin | hfin
    · rw [h1] at hfin; exact absurd hfin (by decide)
    · rw [h2] at hfin; exact absurd hfin (by decide)

/-- Different canonical strings at concrete inputs: the amounts 100.00 and 200.00 (the
test's pair), the amounts 12.30 and 12.03, and two receivers that differ in one escaped
character. -/
theorem canonicalString_differs_witness :
    canonicalString (.obj [("from", .str "A"), ("to", .str "B"), ("amount", .num (.finite 10000))]) ≠
        canonicalString
          (.obj [("from", .str "A"), ("to", .str "B"), ("amount", .num (.finite 20000))]) ∧
      canonicalString (.obj [("from", .str "A"), ("to", .str "B"), ("amount", .num (.finite 1230))]) ≠
        canonicalString
          (.obj [("from", .str "A"), ("to", .str "B"), ("amount", .num (.finite 1203))]) ∧
      canonicalString (.obj [("from", .str "A"), ("to", .str "B\""), ("amount", .num .nan)]) ≠
        canonicalString
          (.obj [("from", .str "A"), ("to", .str "B\\"), ("amount", .num (.finite 0))]) :=
  ⟨canonicalString_differs "A" "B" "A" "B" (.finite 10000) (.finite 20000) (Or.inl rfl)
      (Or.inr (Or.inr (by decide))),
    canonicalString_differs "A" "B" "A" "B" (.finite 1230) (.finite 1203) (Or.inl rfl)
      (Or.inr (Or.inr (by decide))),
    canonicalString_differs "A" "B\"" "A" "B\\" .nan (.finite 0) (Or.inr rfl)
      (Or.inr (Or.inl (by decide)))⟩


/-! ## The key order does not matter -/

/-- The order of `sort()` is total. -/
theorem codesLe_total : ∀ a b : List Nat, codesLe a b = true ∨ codesLe b a = true
  | [], _ => Or.inl rfl
  | _ :: _, [] => Or.inr rfl
  | x :: a, y :: b => by
    rcases Nat.lt_trichotomy x y with h | h | h
    · left; simp [codesLe, h]
    · subst h
      rcases codesLe_total a b with h' | h'
      · left; simp [codesLe, h']
      · right; simp [codesLe, h']
    · right; simp [codesLe, h]

/-- The order of `sort()` is transitive. -/
theorem codesLe_trans : ∀ a b c : List Nat, codesLe a b = true → codesLe b c = true →
    codesLe a c = true
  | [], _, _, _, _ => rfl
  | _ :: _, [], _, h, _ => by simp [codesLe] at h
  | _ :: _, _ :: _, [], _, h => by simp [codesLe] at h
  | x :: a, y :: b, z :: c, h1, h2 => by
    simp only [codesLe, Bool.or_eq_true, Bool.and_eq_true, decide_eq_true_eq] at h1 h2 ⊢
    rcases h1 with h1 | ⟨h1, h1'⟩ <;> rcases h2 with h2 | ⟨h2, h2'⟩
    · left; omega
    · left; omega
    · left; omega
    · right; exact ⟨by omega, codesLe_trans a b c h1' h2'⟩

/-- The order of `sort()` tells different code unit sequences apart. -/
theorem codesLe_antisymm : ∀ a b : List Nat, codesLe a b = true → codesLe b a = true → a = b
  | [], [], _, _ => rfl
  | [], _ :: _, _, h => by simp [codesLe] at h
  | _ :: _, [], h, _ => by simp [codesLe] at h
  | x :: a, y :: b, h1, h2 => by
    simp only [codesLe, Bool.or_eq_true, Bool.and_eq_true, decide_eq_true_eq] at h1 h2
    rcases h1 with h1 | ⟨h1, h1'⟩ <;> rcases h2 with h2 | ⟨h2, h2'⟩
    · omega
    · omega
    · omega
    · rw [h1, codesLe_antisymm a b h1' h2']

theorem char_toNat_injective {c c' : Char} (h : c.toNat = c'.toNat) : c = c' := by
  rw [← Char.ofNat_toNat c, ← Char.ofNat_toNat c', h]

/-- A character is a Unicode scalar value, never a surrogate. -/
theorem char_toNat_valid (c : Char) : c.toNat < 0xD800 ∨ (0xDFFF < c.toNat ∧ c.toNat < 0x110000) := by
  have := c.valid
  simpa [Char.toNat, UInt32.isValidChar, Nat.isValidChar] using this

/-- Reading the code units of a character gives its code point back. -/
theorem decodeUnits_utf16Units (c : Char) (rest : List Nat) :
    decodeUnits (utf16Units c ++ rest) = c.toNat :: decodeUnits rest := by
  have hv := char_toNat_valid c
  unfold utf16Units
  by_cases h : c.toNat < 0x10000
  · simp only [h, if_true, List.singleton_append]
    cases rest with
    | nil => rfl
    | cons v rest =>
      have hns : ¬ (0xD800 ≤ c.toNat ∧ c.toNat < 0xDC00) := by omega
      simp only [decodeUnits, hns, if_false]
  · simp only [h, if_false, List.cons_append, List.nil_append]
    have h1 : 0xD800 ≤ 0xD800 + (c.toNat - 0x10000) / 0x400 ∧
        0xD800 + (c.toNat - 0x10000) / 0x400 < 0xDC00 := by omega
    have h2 := Nat.div_add_mod (c.toNat - 0x10000) 0x400
    simp only [decodeUnits, h1, and_self, if_true, List.cons.injEq, and_true]
    omega

theorem decodeUnits_flatMap : ∀ cs : List Char,
    decodeUnits (cs.flatMap utf16Units) = cs.map Char.toNat
  | [] => rfl
  | c :: cs => by
    rw [List.flatMap_cons, decodeUnits_utf16Units, decodeUnits_flatMap cs, List.map_cons]

/-- Different strings have different code units. -/
theorem codes_injective {s s' : String} (h : codes s = codes s') : s = s' := by
  apply String.ext
  have := congrArg decodeUnits h
  simp only [codes, String.toList, decodeUnits_flatMap] at this
  exact List.map_injective_iff.mpr (fun _ _ h => char_toNat_injective h) this

theorem keyLe_isTotal : IsTotal String keyLe :=
  ⟨fun a b => codesLe_total (codes a) (codes b)⟩

theorem keyLe_isTrans : IsTrans String keyLe :=
  ⟨fun a b c => codesLe_trans (codes a) (codes b) (codes c)⟩

theorem keyLe_isAntisymm : IsAntisymm String keyLe :=
  ⟨fun a b h1 h2 => codes_injective (codesLe_antisymm (codes a) (codes b) h1 h2)⟩

theorem sortKeys_sorted (keys : List String) : (sortKeys keys).Sorted keyLe :=
  haveI := keyLe_isTotal
  haveI := keyLe_isTrans
  List.sorted_insertionSort keyLe keys

theorem sortKeys_perm (keys : List String) : (sortKeys keys).Perm keys :=
  List.perm_insertionSort keyLe keys

/-- Sorting does not depend on the order the keys come in. -/
theorem sortKeys_eq_of_perm {keys keys' : List String} (h : keys.Perm keys') :
    sortKeys keys = sortKeys keys' :=
  haveI := keyLe_isAntisymm
  List.eq_of_perm_of_sorted (r := keyLe)
    ((sortKeys_perm keys).trans (h.trans (sortKeys_perm keys').symm))
    (sortKeys_sorted keys) (sortKeys_sorted keys')

theorem propertyList_foldl : ∀ (l acc : List String), (acc ++ l).Nodup →
    l.foldl (fun acc k => if k ∈ acc then acc else acc ++ [k]) acc = acc ++ l
  | [], acc, _ => by simp
  | k :: l, acc, h => by
    have hk : k ∉ acc := by
      intro hmem
      have := List.nodup_append.mp h
      exact this.2.2 hmem (List.mem_cons_self k l)
    simp only [List.foldl_cons, hk, if_false]
    rw [propertyList_foldl l (acc ++ [k]) (by simpa using h)]
    simp

/-- A replacer array without repetition is its own property list. -/
theorem propertyList_of_nodup {keys : List String} (h : keys.Nodup) : propertyList keys = keys := by
  unfold propertyList
  simpa using propertyList_foldl keys [] (by simpa using h)

/-- Looking a key up after serialising the values is serialising the value looked up. -/
theorem lookup_serializeProps (K : List String) (k : String) :
    ∀ props : List (String × JsValue),
      (serializeProps K props).lookup k = (props.lookup k).map (serializeJSONProperty K)
  | [] => by simp [serializeProps]
  | (k', v) :: ps => by
    simp only [serializeProps, List.lookup_cons]
    cases h : k == k' with
    | true => simp
    | false => simpa using lookup_serializeProps K k ps

/-- With every key once, reordering the properties changes no lookup. -/
theorem lookup_eq_of_perm {α : Type} (k : String) {ps ps' : List (String × α)} (h : ps.Perm ps') :
    (ps.map Prod.fst).Nodup → ps.lookup k = ps'.lookup k := by
  induction h with
  | nil => intro _; rfl
  | cons x _ ih =>
    intro hn
    obtain ⟨k', v⟩ := x
    simp only [List.map_cons, List.nodup_cons] at hn
    simp only [List.lookup_cons]
    rw [ih hn.2]
  | swap x y l =>
    intro hn
    obtain ⟨k1, v1⟩ := x
    obtain ⟨k2, v2⟩ := y
    simp only [List.map_cons, List.nodup_cons, List.mem_cons, not_or] at hn
    simp only [List.lookup_cons]
    cases h1 : k == k1 <;> cases h2 : k == k2 <;> simp
    have e1 : k = k1 := by simpa using h1
    have e2 : k = k2 := by simpa using h2
    exact absurd (e2.symm.trans e1) hn.1.1
  | trans h1 _ ih1 ih2 =>
    intro hn
    rw [ih1 hn, ih2 ((h1.map Prod.fst).nodup_iff.mp hn)]

/-- The members of an object in terms of its own properties. -/
theorem members_eq (K : List String) (props : List (String × JsValue)) :
    members K (serializeProps K props) =
      K.filterMap fun k => (props.lookup k).bind fun v =>
        (serializeJSONProperty K v).map fun text => quoteJSONString k ++ ':' :: text := by
  unfold members
  apply List.filterMap_congr
  intro k _
  rw [lookup_serializeProps]
  cases props.lookup k with
  | none => rfl
  | some v => cases h : serializeJSONProperty K v <;> simp [h]

/-- The canonical string of an object, written out. -/
theorem canonicalString_obj (props : List (String × JsValue))
    (hnodup : (props.map Prod.fst).Nodup) :
    canonicalString (.obj props) = .ok (some ('{' ::
      (joinComma ((sortKeys (props.map Prod.fst)).filterMap fun k =>
        (props.lookup k).bind fun v =>
          (serializeJSONProperty (sortKeys (props.map Prod.fst)) v).map fun text =>
            quoteJSONString k ++ ':' :: text) ++ ['}']))) := by
  have hK : propertyList (sortKeys (props.map Prod.fst)) = sortKeys (props.map Prod.fst) :=
    propertyList_of_nodup ((sortKeys_perm _).nodup_iff.mpr hnodup)
  simp only [canonicalString, objectKeys, jsonStringify, hK, serializeJSONProperty, members_eq]

/-- Reordering the properties of an object leaves its canonical string as it is. -/
theorem canonicalString_perm {props props' : List (String × JsValue)} (hperm : props.Perm props')
    (hnodup : (props.map Prod.fst).Nodup) :
    canonicalString (.obj props) = canonicalString (.obj props') := by
  have hnodup' : (props'.map Prod.fst).Nodup := (hperm.map Prod.fst).nodup_iff.mp hnodup
  rw [canonicalString_obj props hnodup, canonicalString_obj props' hnodup',
    sortKeys_eq_of_perm (hperm.map Prod.fst)]
  have : ∀ k, props.lookup k = props'.lookup k := fun k => lookup_eq_of_perm k hperm hnodup
  simp only [this]

theorem hexDigit_mem : ∀ m, m < 16 → Nat.digitChar m ∈ "0123456789abcdef".toList := by
  decide

/-- The hexadecimal form of a digest: 64 characters, each a lowercase hexadecimal digit. -/
theorem toHex64_format (digest : Nat) :
    (toHex64 digest).length = 64 ∧ ∀ c ∈ (toHex64 digest).toList, c ∈ "0123456789abcdef".toList := by
  constructor
  · simp [toHex64, String.length]
  · intro c hc
    simp only [toHex64, String.toList, List.mem_map] at hc
    obtain ⟨i, _, rfl⟩ := hc
    exact hexDigit_mem _ (Nat.mod_lt _ (by norm_num))

/-- C6: for every data object (each key once) and every reordering of its properties,
`hashData` returns the same digest; the digest is 64 characters long, each a lowercase
hexadecimal digit; and the string that is hashed lists, between braces and separated by
commas, the members `"key":value` in the order of the sorted keys (a key whose value
serialises to nothing is left out), whatever the order of the input. -/
theorem hashData_key_order {Key : Type} (E : Crypto Key) (props props' : List (String × JsValue))
    (hperm : props.Perm props') (hnodup : (props.map Prod.fst).Nodup) :
    hashData E (.obj props) = hashData E (.obj props') ∧
    (∃ digest, hashData E (.obj props) = .ok digest ∧ digest.length = 64 ∧
      ∀ c ∈ digest.toList, c ∈ "0123456789abcdef".toList) ∧
    (∃ K : List String, K.Sorted keyLe ∧ K.Perm (props.map Prod.fst) ∧
      K = sortKeys (props'.map Prod.fst) ∧
      canonicalString (.obj props') = .ok (some ('{' ::
        (joinComma (K.filterMap fun k => (props.lookup k).bind fun v =>
          (serializeJSONProperty K v).map fun text => quoteJSONString k ++ ':' :: text) ++
            ['}'])))) := by
  have hcanon := canonicalString_perm hperm hnodup
  refine ⟨?_, ?_, ?_⟩
  · simp only [hashData, hcanon]
  · rw [hashData, canonicalString_obj props hnodup]
    exact ⟨_, rfl, toHex64_format _⟩
  · refine ⟨sortKeys (props.map Prod.fst), sortKeys_sorted _, sortKeys_perm _,
      sortKeys_eq_of_perm (hperm.map Prod.fst), ?_⟩
    rw [← hcanon, canonicalString_obj props hnodup]

/-- C6 on the test's two objects: `from`, `to`, `amount` and `amount`, `to`, `from` hash
alike under the runnable instance. -/
theorem hashData_key_order_witness :
    hashData demoCrypto (.obj [("from", .str "A"), ("to", .str "B"), ("amount", .num (.finite 10000))]) =
      hashData demoCrypto
        (.obj [("amount", .num (.finite 10000)), ("to", .str "B"), ("from", .str "A")]) :=
  (hashData_key_order demoCrypto
    [("from", .str "A"), ("to", .str "B"), ("amount", .num (.finite 10000))]
    [("amount", .num (.finite 10000)), ("to", .str "B"), ("from", .str "A")]
    (List.reverse_perm _).symm (by decide)).1

/-! ## Signing and verifying -/

theorem demoCrypto_signaturesVerify : demoCrypto.SignaturesVerify := by
  intro priv hpriv digest
  have hne : priv ≠ "" := by simpa [demoCrypto] using hpriv
  obtain ⟨cs⟩ := priv
  cases cs with
  | nil => exact absurd rfl hne
  | cons c rest => exact ⟨c :: rest, rfl, by simp [demoCrypto]⟩

/-- Every object has a canonical string. -/
theorem canonicalString_obj_ok (props : List (String × JsValue)) :
    ∃ text, canonicalString (.obj props) = .ok (some text) := by
  simp [canonicalString, objectKeys, jsonStringify, serializeJSONProperty]

/-- The digest depends on the data through the canonical string only. -/
theorem hashData_congr {Key : Type} (E : Crypto Key) {data data' : JsValue}
    (h : canonicalString data' = canonicalString data) : hashData E data' = hashData E data := by
  simp only [hashData, h]

/-- When `verifySignature` answers `true`. -/
theorem verifySignature_eq_true_iff {Key : Type} (E : Crypto Key) (publicKeyHex : String)
    (data : JsValue) (signatureHex : String) :
    verifySignature E publicKeyHex data signatureHex = .ok true ↔
      ∃ key hash, E.keyFromPublic publicKeyHex = .ok key ∧ hashData E data = .ok hash ∧
        E.verify key hash signatureHex = .ok true := by
  unfold verifySignature verifySignatureTry
  cases hk : E.keyFromPublic publicKeyHex with
  | error e => simp
  | ok key =>
    cases hh : hashData E data with
    | error e => simp
    | ok hash =>
      cases hv : E.verify key hash signatureHex with
      | error e => simp [hv]
      | ok b => cases b <;> simp [hv]

/-- C3 at a failing input: the fields with amount `NaN` and with amount `Infinity`
differ, yet the signature that `signData` makes over the first is answered `true` by
`verifySignature` over the second, under the runnable instance and under every library
that verifies what it signs. -/
theorem verifySignature_accepts_changed_amount :
    transferFields "A" "B" .nan ≠ transferFields "A" "B" .posInf ∧
      verifySignature demoCrypto (demoCrypto.getPublic "aa") (transferFields "A" "B" .posInf)
        (demoSignature "aa" (transferFields "A" "B" .nan)) = .ok true ∧
      signData demoCrypto "aa" (transferFields "A" "B" .nan) =
        .ok (demoSignature "aa" (transferFields "A" "B" .nan)) ∧
      ∀ (Key : Type) (E : Crypto Key), E.SignaturesVerify →
        ∀ privateKeyHex, E.isPrivateKey privateKeyHex = true →
          ∃ signatureHex, signData E privateKeyHex (transferFields "A" "B" .nan) = .ok signatureHex ∧
            verifySignature E (E.getPublic privateKeyHex) (transferFields "A" "B" .posInf)
              signatureHex = .ok true := by
  refine ⟨by simp [transferFields], by decide, by decide, ?_⟩
  intro Key E hE priv hpriv
  have hc : canonicalString (transferFields "A" "B" .posInf) =
      canonicalString (transferFields "A" "B" .nan) := by decide
  obtain ⟨text, htext⟩ := canonicalString_obj_ok
    [("from", .str "A"), ("to", .str "B"), ("amount", .num .nan)]
  have hhash : hashData E (transferFields "A" "B" .nan) =
      .ok (toHex64 (E.sha256 (String.mk text))) := by
    simp only [hashData, transferFields, htext]
  obtain ⟨key, hkey, hverify⟩ := hE priv hpriv (E.sha256 (String.mk text))
  refine ⟨E.sign priv (toHex64 (E.sha256 (String.mk text))), by simp [signData, hhash], ?_⟩
  rw [verifySignature_eq_true_iff]
  exact ⟨key, _, hkey, (hashData_congr E hc).trans hhash, hverify⟩

/-- Signing and verifying: with a library that verifies what it signs, for every key pair
and every fields object `signData` returns a signature that `verifySignature` accepts under
the pair's public key over the same fields, and over any data with the same canonical string.
Under any public key and over any data, `verifySignature` answers `true` exactly when
the key decodes, the data hashes and the library's `verify` accepts the signature for
that key and digest. -/
theorem verifySignature_signData {Key : Type} (E : Crypto Key) (hE : E.SignaturesVerify)
    (privateKeyHex : String) (hprivate : E.isPrivateKey privateKeyHex = true)
    (props : List (String × JsValue)) :
    ∃ signatureHex, signData E privateKeyHex (.obj props) = .ok signatureHex ∧
      verifySignature E (E.getPublic privateKeyHex) (.obj props) signatureHex = .ok true ∧
      (∀ data, canonicalString data = canonicalString (.obj props) →
        verifySignature E (E.getPublic privateKeyHex) data signatureHex = .ok true) ∧
      (∀ publicKeyHex data, verifySignature E publicKeyHex data signatureHex = .ok true ↔
        ∃ key hash, E.keyFromPublic publicKeyHex = .ok key ∧ hashData E data = .ok hash ∧
          E.verify key hash signatureHex = .ok true) := by
  obtain ⟨text, htext⟩ := canonicalString_obj_ok props
  have hhash : hashData E (.obj props) = .ok (toHex64 (E.sha256 (String.mk text))) := by
    simp only [hashData, htext]
  obtain ⟨key, hkey, hverify⟩ := hE privateKeyHex hprivate (E.sha256 (String.mk text))
  have hsame : ∀ data, canonicalString data = canonicalString (.obj props) →
      verifySignature E (E.getPublic privateKeyHex) data
        (E.sign privateKeyHex (toHex64 (E.sha256 (String.mk text)))) = .ok true := by
    intro data hdata
    rw [verifySignature_eq_true_iff]
    exact ⟨key, _, hkey, (hashData_congr E hdata).trans hhash, hverify⟩
  exact ⟨E.sign privateKeyHex (toHex64 (E.sha256 (String.mk text))), by simp [signData, hhash],
    hsame _ rfl, hsame, fun publicKeyHex data => verifySignature_eq_true_iff E publicKeyHex data _⟩

/-- Signing and verifying on the test's data: the key `aa` signs a transfer of 500.00, and
the signature verifies under the public key `04aa`. -/
theorem verifySignature_signData_witness :
    ∃ signatureHex,
      signData demoCrypto "aa"
        (.obj [("from", .str "0xAAA"), ("to", .str "0xBBB"), ("amount", .num (.finite 50000))]) =
          .ok signatureHex ∧
      verifySignature demoCrypto "04aa"
        (.obj [("from", .str "0xAAA"), ("to", .str "0xBBB"), ("amount", .num (.finite 50000))])
          signatureHex = .ok true :=
  have ⟨signatureHex, hsign, hverify, _⟩ := verifySignature_signData demoCrypto
    demoCrypto_signaturesVerify "aa" (by decide)
    [("from", .str "0xAAA"), ("to", .str "0xBBB"), ("amount", .num (.finite 50000))]
  ⟨signatureHex, hsign, hverify⟩

/-- The tests' rejections on the runnable instance: a signature of another key pair and
a tampered amount are both refused. -/
theorem verifySignature_rejections_examples :
    verifySignature demoCrypto "04aa" (transferFields "0xAAA" "0xBBB" (.finite 50000))
        (demoSignature "bb" (transferFields "0xAAA" "0xBBB" (.finite 50000))) = .ok false ∧
      verifySignature demoCrypto "04aa" (transferFields "0xAAA" "0xBBB" (.finite 999900))
        (demoSignature "aa" (transferFields "0xAAA" "0xBBB" (.finite 50000))) = .ok false := by
  decide


/-! ## Database statements -/

theorem head?_eq_some {α : Type} {l : List α} {a : α} (h : l.head? = some a) :
    ∃ rest, l = a :: rest := by
  cases l with
  | nil => simp at h
  | cons x rest => exact ⟨rest, by simp at h; rw [h]⟩

/-- One `UPDATE ... balance` after another, row by row. -/
theorem updateBalance_twice_wallets (db : Db) (k k' : String) (d d' : Int) :
    (updateBalance (updateBalance db k d) k' d').wallets = db.wallets.map fun w =>
      if w.public_key = k then
        (if w.public_key = k' then { w with balance := w.balance + d + d' }
          else { w with balance := w.balance + d })
      else if w.public_key = k' then { w with balance := w.balance + d' } else w := by
  simp only [updateBalance, List.map_map]
  apply List.map_congr_left
  intro w _
  simp only [Function.comp_apply, beq_iff_eq]
  by_cases h1 : w.public_key = k
  · simp only [h1, if_true]
  · simp only [h1, if_false]

/-- A row-wise change of balances shows in `findByPublicKey` as the same change of the
row found. -/
theorem findByPublicKey_map (db db' : Db) (g : Wallet → Wallet)
    (hkey : ∀ w, (g w).public_key = w.public_key) (hwallets : db'.wallets = db.wallets.map g)
    (k : String) : findByPublicKey db' k = (findByPublicKey db k).map g := by
  unfold findByPublicKey selectWallets
  rw [hwallets, List.filter_map, List.head?_map]
  congr 2
  apply List.filter_congr
  intro w _
  simp [hkey]

/-- What a debit of `a` from `f` and a credit of `a` to `t` make of a wallet row. -/
theorem settle_wallets (db : Db) (f t : String) (a : Int) (hne : f ≠ t) :
    (updateBalance (updateBalance db f (-a)) t a).wallets = db.wallets.map fun w =>
      if w.public_key = f then { w with balance := w.balance - a }
      else if w.public_key = t then { w with balance := w.balance + a } else w := by
  rw [updateBalance_twice_wallets]
  apply List.map_congr_left
  intro w _
  by_cases h1 : w.public_key = f
  · have h2 : w.public_key ≠ t := fun h => hne (h1.symm.trans h)
    simp [h1, h2, hne, Int.sub_eq_add_neg]
  · simp [h1]

/-! ## `transferFunds` -/

/-- With a database that fails no statement, a sender row, a receiver row and a finite
amount the sender's balance covers, `transferFunds` succeeds, and this is what it
stores. -/
theorem transferFundsTry_noFault (db : Db) (fromAddress toAddress : String) (a : Int)
    (signature signerAddress : String) (wallet : Wallet) (rest : List Wallet)
    (hrow : selectWallets db fromAddress = wallet :: rest)
    (hreceiver : selectWallets db toAddress ≠ []) (hbalance : a ≤ wallet.balance) :
    transferFundsTry noFault fromAddress toAddress (.finite a) signature signerAddress db =
      .ok (⟨db.nextTransactionId, initialStatus wallet⟩,
        if initialStatus wallet = .completed then
          updateBalance (updateBalance (insertSignature
            (insertTransaction db fromAddress toAddress a signature (initialStatus wallet)).2
            db.nextTransactionId signerAddress signature) fromAddress (-a)) toAddress a
        else insertSignature
          (insertTransaction db fromAddress toAddress a signature (initialStatus wallet)).2
          db.nextTransactionId signerAddress signature) := by
  have hlt : (JsNumber.finite wallet.balance).lt (JsNumber.finite a) = false := by
    simp [JsNumber.lt, hbalance]
  unfold transferFundsTry
  by_cases hst : initialStatus wallet = .completed <;>
    simp [execute, noFault, hrow, hreceiver, hlt, hst, decimalParam, insertTransaction, bind,
      Except.bind, pure, Except.pure]

/-- A failed `transferFunds` leaves the database as it was. -/
theorem transferFunds_error_unchanged (fault : Faults) (fromAddress toAddress : String)
    (amount : JsNumber) (signature signerAddress : String) (db : Db) (e : WalletError)
    (h : (transferFunds fault fromAddress toAddress amount signature signerAddress db).1 =
      .error e) :
    (transferFunds fault fromAddress toAddress amount signature signerAddress db).2 = db := by
  unfold transferFunds at h ⊢
  cases hres : transferFundsTry fault fromAddress toAddress amount signature signerAddress db with
  | error e' => rfl
  | ok r => rw [hres] at h; cases h

/-- Every successful run of the `try` block of `transferFunds` returns the status computed
from the sender row and has stored a transaction row with that status. -/
theorem transferFundsTry_status (fault : Faults) (fromAddress toAddress : String)
    (amount : JsNumber) (signature signerAddress : String) (db : Db) (wallet : Wallet)
    (rest : List Wallet) (hrow : selectWallets db fromAddress = wallet :: rest)
    (result : TransferResult) (db' : Db)
    (h : transferFundsTry fault fromAddress toAddress amount signature signerAddress db =
      .ok (result, db')) :
    result.status = initialStatus wallet ∧
      ∃ stored, amount = .finite stored ∧
        (⟨result.transactionId, fromAddress, toAddress, stored, signature, initialStatus wallet,
          db.now⟩ : Transaction) ∈ db'.transactions := by
  unfold transferFundsTry at h
  simp only [bind_eq_ok, execute_eq_ok, pure, Except.pure, Except.ok.injEq] at h
  obtain ⟨walletRows, ⟨_, hrows⟩, h⟩ := h
  subst hrows
  rw [hrow] at h
  simp only [bind_eq_ok, execute_eq_ok, pure, Except.pure, Except.ok.injEq] at h
  obtain ⟨receiverRows, _, h⟩ := h
  by_cases h1 : receiverRows.length = 0
  · simp [h1, throw, throwThe, MonadExceptOf.throw] at h
  rw [if_neg h1] at h
  by_cases h2 : (JsNumber.finite wallet.balance).lt amount = true
  · simp [h2, throw, throwThe, MonadExceptOf.throw] at h
  rw [if_neg h2] at h
  change (_ >>= _) = _ at h
  simp only [bind_eq_ok, execute_eq_ok, pure, Except.pure, Except.ok.injEq] at h
  obtain ⟨inserted, ⟨_, stored, hstored, hins⟩, db1, ⟨_, hdb1⟩, h⟩ := h
  subst hins hdb1
  have hamount : amount = .finite stored := by
    cases amount <;> simp_all [decimalParam]
  by_cases hst : initialStatus wallet = .completed
  · simp only [hst, if_true, bind_eq_ok, execute_eq_ok, Except.ok.injEq, Prod.mk.injEq] at h
    obtain ⟨y, ⟨db2, ⟨_, d1, _, rfl⟩, _, d2, _, rfl⟩, w, ⟨_, rfl⟩, rfl, rfl⟩ := h
    exact ⟨hst.symm, stored, hamount,
      by simp [hst, insertTransaction, insertSignature, updateBalance]⟩
  · simp only [hst, if_false, bind_eq_ok, execute_eq_ok, Except.ok.injEq, Prod.mk.injEq] at h
    obtain ⟨y, rfl, w, ⟨_, rfl⟩, rfl, rfl⟩ := h
    exact ⟨rfl, stored, hamount, by simp [insertTransaction, insertSignature]⟩

/-- C7: when the sender wallet and the receiver wallet exist and differ, the sender wallet
is single-signature (not flagged multi-signature, or one signature required) and its
balance covers the amount, `transferFunds` returns `completed`; every wallet row of the
sender's key is `amount` lower, every row of the receiver's key `amount` higher and
every other row unchanged, so the sender found afterwards has exactly `amount` less, the
receiver exactly `amount` more, and any other key finds what it found before. -/
theorem transferFunds_single_signature (db : Db) (fromAddress toAddress : String) (a : Int)
    (signature signerAddress : String) (sender receiver : Wallet)
    (hsender : findByPublicKey db fromAddress = some sender)
    (hreceiver : findByPublicKey db toAddress = some receiver)
    (hdifferent : fromAddress ≠ toAddress)
    (hsingle : sender.is_multisig = false ∨ sender.required_signatures ≤ 1)
    (hbalance : a ≤ sender.balance) :
    (transferFunds noFault fromAddress toAddress (.finite a) signature signerAddress db).1 =
        .ok ⟨db.nextTransactionId, .completed⟩ ∧
      (transferFunds noFault fromAddress toAddress (.finite a) signature signerAddress db).2.wallets =
        db.wallets.map (fun w =>
          if w.public_key = fromAddress then { w with balance := w.balance - a }
          else if w.public_key = toAddress then { w with balance := w.balance + a } else w) ∧
      findByPublicKey
          (transferFunds noFault fromAddress toAddress (.finite a) signature signerAddress db).2
          fromAddress = some { sender with balance := sender.balance - a } ∧
      findByPublicKey
          (transferFunds noFault fromAddress toAddress (.finite a) signature signerAddress db).2
          toAddress = some { receiver with balance := receiver.balance + a } ∧
      ∀ k, k ≠ fromAddress → k ≠ toAddress →
        findByPublicKey
          (transferFunds noFault fromAddress toAddress (.finite a) signature signerAddress db).2
          k = findByPublicKey db k := by
  obtain ⟨rest, hrow⟩ := head?_eq_some hsender
  have hrecv : selectWallets db toAddress ≠ [] := by
    intro h
    simp [findByPublicKey, h] at hreceiver
  have hst : initialStatus sender = .completed := by
    unfold initialStatus
    rcases hsingle with h | h
    · simp [h]
    · have : ¬ sender.required_signatures > 1 := by omega
      simp [this]
  have hsenderKey : sender.public_key = fromAddress := by
    have : sender ∈ selectWallets db fromAddress := by rw [hrow]; simp
    simpa [selectWallets] using (List.mem_filter.mp this).2
  have hreceiverKey : receiver.public_key = toAddress := by
    obtain ⟨rest', hrow'⟩ := head?_eq_some hreceiver
    have : receiver ∈ selectWallets db toAddress := by rw [hrow']; simp
    simpa [selectWallets] using (List.mem_filter.mp this).2
  have heval := transferFundsTry_noFault db fromAddress toAddress a signature signerAddress
    sender rest hrow hrecv hbalance
  rw [hst] at heval
  simp only [if_true] at heval
  have hwallets : (transferFunds noFault fromAddress toAddress (.finite a) signature
      signerAddress db).2.wallets = db.wallets.map (fun w =>
        if w.public_key = fromAddress then { w with balance := w.balance - a }
        else if w.public_key = toAddress then { w with balance := w.balance + a } else w) := by
    simp only [transferFunds, heval]
    rw [settle_wallets _ _ _ _ hdifferent]
    simp [insertSignature, insertTransaction]
  have hfind := findByPublicKey_map db
    (transferFunds noFault fromAddress toAddress (.finite a) signature signerAddress db).2
    (fun w => if w.public_key = fromAddress then { w with balance := w.balance - a }
      else if w.public_key = toAddress then { w with balance := w.balance + a } else w)
    (by intro w; dsimp only; split_ifs <;> rfl) hwallets
  refine ⟨by simp only [transferFunds, heval], hwallets, ?_, ?_, ?_⟩
  · rw [hfind, hsender]
    simp [hsenderKey]
  · rw [hfind, hreceiver]
    have : ¬ toAddress = fromAddress := fun h => hdifferent h.symm
    simp [hreceiverKey, this]
  · intro k hk1 hk2
    rw [hfind]
    cases hk : findByPublicKey db k with
    | none => rfl
    | some w =>
      obtain ⟨rest', hrow'⟩ := head?_eq_some hk
      have hmem : w ∈ selectWallets db k := by rw [hrow']; simp
      have hkey : w.public_key = k := by simpa [selectWallets] using (List.mem_filter.mp hmem).2
      simp [hkey, hk1, hk2]

/-- C7 on the spec's example: A has 1000.00 and is single-signature; a transfer of 100.00
to B completes, leaves A with 900.00, gives B 100.00 more and leaves C alone. -/
theorem transferFunds_single_signature_witness :
    (transferFunds noFault "04aa" "04bb" (.finite 10000) "sig" "04aa" demoDb).1 =
        .ok ⟨1, .completed⟩ ∧
      findByPublicKey (transferFunds noFault "04aa" "04bb" (.finite 10000) "sig" "04aa" demoDb).2
        "04aa" = some { walletA with balance := 90000 } ∧
      findByPublicKey (transferFunds noFault "04aa" "04bb" (.finite 10000) "sig" "04aa" demoDb).2
        "04bb" = some { walletB with balance := 15000 } ∧
      findByPublicKey (transferFunds noFault "04aa" "04bb" (.finite 10000) "sig" "04aa" demoDb).2
        "04cc" = some walletC :=
  have h := transferFunds_single_signature demoDb "04aa" "04bb" 10000 "sig" "04aa" walletA
    walletB (by decide) (by decide) (by decide) (Or.inl rfl) (by decide)
  ⟨h.1, h.2.2.1, h.2.2.2.1, h.2.2.2.2 "04cc" (by decide) (by decide)⟩

/-- A wallet row that breaks the wallet invariant: wallet E requires two signatures and is
not flagged multi-signature, and a transfer from it is `completed` at once. -/
theorem transferFunds_unflagged_completes :
    findByPublicKey unflaggedDb "04ee" = some walletE ∧
      walletE.required_signatures ≥ 2 ∧
      (transferFunds noFault "04ee" "04bb" (.finite 10000) "sig" "04ee" unflaggedDb).1 =
        .ok ⟨1, .completed⟩ := by
  decide

/-- The two columns behind the initial status: for every successful `transferFunds` call,
the status returned, which is also the status of the transaction row stored, is `pending`
if the sender wallet is flagged multi-signature and requires at least 2 signatures, and
`completed` otherwise.
For a wallet that keeps the wallet invariant (not flagged means one signature required)
this is `pending` exactly when at least 2 signatures are required. -/
theorem transferFunds_initial_status (fault : Faults) (fromAddress toAddress : String)
    (amount : JsNumber) (signature signerAddress : String) (db : Db) (wallet : Wallet)
    (hsender : findByPublicKey db fromAddress = some wallet) (result : TransferResult)
    (hok : (transferFunds fault fromAddress toAddress amount signature signerAddress db).1 =
      .ok result) :
    result.status =
        (if wallet.is_multisig = true ∧ 2 ≤ wallet.required_signatures then .pending
          else .completed) ∧
      (∃ stored, amount = .finite stored ∧
        (⟨result.transactionId, fromAddress, toAddress, stored, signature, result.status,
          db.now⟩ : Transaction) ∈
          (transferFunds fault fromAddress toAddress amount signature signerAddress
            db).2.transactions) ∧
      ((wallet.is_multisig = false → wallet.required_signatures = 1) →
        (result.status = .pending ↔ 2 ≤ wallet.required_signatures)) := by
  obtain ⟨rest, hrow⟩ := head?_eq_some hsender
  unfold transferFunds at hok ⊢
  cases hres : transferFundsTry fault fromAddress toAddress amount signature signerAddress db with
  | error e => rw [hres] at hok; cases hok
  | ok out =>
    obtain ⟨r, db'⟩ := out
    rw [hres] at hok
    simp only [Except.ok.injEq] at hok
    subst hok
    obtain ⟨hstatus, stored, hamount, hmem⟩ := transferFundsTry_status fault fromAddress
      toAddress amount signature signerAddress db wallet rest hrow r db' hres
    have hinit : initialStatus wallet =
        (if wallet.is_multisig = true ∧ 2 ≤ wallet.required_signatures then .pending
          else .completed) := by
      unfold initialStatus
      by_cases h1 : wallet.is_multisig = true <;>
        by_cases h2 : 2 ≤ wallet.required_signatures <;> simp [h1, h2] <;> omega
    refine ⟨hstatus.trans hinit, ⟨stored, hamount, by rw [hstatus]; exact hmem⟩, ?_⟩
    intro hinv
    rw [hstatus, hinit]
    by_cases h1 : wallet.is_multisig = true
    · by_cases h2 : 2 ≤ wallet.required_signatures <;> simp [h1, h2]
    · have h3 := hinv (by simpa using h1)
      have h2 : ¬ 2 ≤ wallet.required_signatures := by omega
      simp [h1, h2]

/-- The initial status on the worked example: the transfer from the multi-signature wallet
C is `pending`, the one from the single-signature wallet A is `completed`. -/
theorem transferFunds_initial_status_witness :
    (⟨1, .pending⟩ : TransferResult).status =
        (if walletC.is_multisig = true ∧ 2 ≤ walletC.required_signatures then .pending
          else .completed) ∧
      (⟨1, .completed⟩ : TransferResult).status =
        (if walletA.is_multisig = true ∧ 2 ≤ walletA.required_signatures then .pending
          else .completed) ∧
      (transferFunds noFault "04cc" "04bb" (.finite 10000) signatureC "04cc" demoDb).1 =
        .ok ⟨1, .pending⟩ ∧
      (transferFunds noFault "04aa" "04bb" (.finite 10000) "sig" "04aa" demoDb).1 =
        .ok ⟨1, .completed⟩ :=
  have hC : (transferFunds noFault "04cc" "04bb" (.finite 10000) signatureC "04cc" demoDb).1 =
      .ok ⟨1, .pending⟩ := by decide
  have hA : (transferFunds noFault "04aa" "04bb" (.finite 10000) "sig" "04aa" demoDb).1 =
      .ok ⟨1, .completed⟩ := by decide
  ⟨(transferFunds_initial_status noFault "04cc" "04bb" (.finite 10000) signatureC "04cc" demoDb
      walletC (by decide) ⟨1, .pending⟩ hC).1,
    (transferFunds_initial_status noFault "04aa" "04bb" (.finite 10000) "sig" "04aa" demoDb
      walletA (by decide) ⟨1, .completed⟩ hA).1, hC, hA⟩

/-- Whichever database calls fail, the `try` block of `transferFunds` throws the
insufficient-balance error only when the balance of the sender row is less than the
amount. -/
theorem transferFundsTry_insufficient_only (fault : Faults) (fromAddress toAddress : String)
    (amount : JsNumber) (signature signerAddress : String) (db : Db) (wallet : Wallet)
    (rest : List Wallet) (hrow : selectWallets db fromAddress = wallet :: rest)
    (h : transferFundsTry fault fromAddress toAddress amount signature signerAddress db =
      .error .insufficientBalance) :
    JsNumber.lt (.finite wallet.balance) amount = true := by
  unfold transferFundsTry at h
  simp only [bind_eq_error, execute_eq_error, bind_eq_ok, execute_eq_ok, pure, Except.pure,
    reduceCtorEq, and_false, false_or, or_false, Except.ok.injEq, false_and] at h
  obtain ⟨rows, ⟨_, rfl⟩, h⟩ := h
  rw [hrow] at h
  simp only [bind_eq_error, execute_eq_error, bind_eq_ok, execute_eq_ok, pure, Except.pure,
    reduceCtorEq, and_false, false_or, or_false, Except.ok.injEq, false_and] at h
  obtain ⟨receiverRows, _, h⟩ := h
  by_cases h1 : receiverRows.length = 0
  · simp [h1, throw, throwThe, MonadExceptOf.throw] at h
  rw [if_neg h1] at h
  by_cases h2 : (JsNumber.finite wallet.balance).lt amount = true
  · exact h2
  rw [if_neg h2] at h
  exfalso
  change (_ >>= _) = _ at h
  cases amount <;>
    simp [bind_eq_error, execute_eq_error, bind_eq_ok, execute_eq_ok, pure, Except.pure,
      decimalParam] at h
  obtain ⟨a, b, _, db1, _, h⟩ := h
  by_cases hst : initialStatus wallet = .completed
  · simp [hst, bind_eq_error, execute_eq_error, bind_eq_ok, execute_eq_ok] at h
  · simp [hst, bind_eq_error, execute_eq_error, bind_eq_ok, execute_eq_ok] at h

/-- C9: when the sender and the receiver wallet both exist (and the database fails no
statement), `transferFunds` fails with the insufficient-balance error exactly when the
sender's balance is less than the amount; for a finite amount that is `balance <
amount`, so a transfer of the whole balance succeeds.  Whichever database calls fail,
the error is thrown only when the balance is less than the amount, and whenever
`transferFunds` fails, with this error or another, the database is as it was: no
transaction row, no signature record, no balance change. -/
theorem transferFunds_insufficient (db : Db) (fromAddress toAddress : String)
    (amount : JsNumber) (signature signerAddress : String) (sender receiver : Wallet)
    (hsender : findByPublicKey db fromAddress = some sender)
    (hreceiver : findByPublicKey db toAddress = some receiver) :
    ((transferFunds noFault fromAddress toAddress amount signature signerAddress db).1 =
        .error .insufficientBalance ↔ JsNumber.lt (.finite sender.balance) amount = true) ∧
      (∀ a, amount = .finite a →
        ((transferFunds noFault fromAddress toAddress amount signature signerAddress db).1 =
          .error .insufficientBalance ↔ sender.balance < a)) ∧
      (∃ result,
        (transferFunds noFault fromAddress toAddress (.finite sender.balance) signature
          signerAddress db).1 = .ok result) ∧
      (∀ fault : Faults,
        (transferFunds fault fromAddress toAddress amount signature signerAddress db).1 =
          .error .insufficientBalance → JsNumber.lt (.finite sender.balance) amount = true) ∧
      (∀ (fault : Faults) (e : WalletError),
        (transferFunds fault fromAddress toAddress amount signature signerAddress db).1 =
          .error e →
        (transferFunds fault fromAddress toAddress amount signature signerAddress db).2 = db) := by
  obtain ⟨rest, hrow⟩ := head?_eq_some hsender
  have hrecv : selectWallets db toAddress ≠ [] := by
    intro h
    simp [findByPublicKey, h] at hreceiver
  have hiff : (transferFunds noFault fromAddress toAddress amount signature signerAddress db).1 =
      .error .insufficientBalance ↔ JsNumber.lt (.finite sender.balance) amount = true := by
    by_cases hlt : JsNumber.lt (.finite sender.balance) amount = true
    · simp [transferFunds, transferFundsTry, execute, noFault, hrow, hrecv, hlt, bind,
        Except.bind, pure, Except.pure, throw, throwThe, MonadExceptOf.throw]
    · simp only [hlt, iff_false]
      cases amount with
      | finite a =>
        have hle : a ≤ sender.balance := by simpa [JsNumber.lt] using hlt
        simp [transferFunds, transferFundsTry_noFault db fromAddress toAddress a signature
          signerAddress sender rest hrow hrecv hle]
      | nan =>
        simp [transferFunds, transferFundsTry, execute, noFault, hrow, hrecv, JsNumber.lt,
          decimalParam, bind, Except.bind, pure, Except.pure]
      | posInf => simp [JsNumber.lt] at hlt
      | negInf =>
        simp [transferFunds, transferFundsTry, execute, noFault, hrow, hrecv, JsNumber.lt,
          decimalParam, bind, Except.bind, pure, Except.pure]
  refine ⟨hiff, ?_, ?_, ?_, ?_⟩
  · intro a ha
    rw [hiff, ha]
    simp [JsNumber.lt]
  · exact ⟨⟨db.nextTransactionId, initialStatus sender⟩, by
      simp [transferFunds, transferFundsTry_noFault db fromAddress toAddress
        sender.balance signature signerAddress sender rest hrow hrecv (le_refl _)]⟩
  · intro fault h
    unfold transferFunds at h
    cases hres : transferFundsTry fault fromAddress toAddress amount signature signerAddress
        db with
    | error e =>
      rw [hres] at h
      simp only [Except.error.injEq] at h
      subst h
      exact transferFundsTry_insufficient_only fault fromAddress toAddress amount signature
        signerAddress db sender rest hrow hres
    | ok out => rw [hres] at h; cases h
  · intro fault e h
    exact transferFunds_error_unchanged fault fromAddress toAddress amount signature
      signerAddress db e h

/-- C9 on the test's numbers: B has 50.00; a transfer of 500.00 from B fails with the
insufficient-balance error and stores nothing, a transfer of exactly 50.00 goes
through. -/
theorem transferFunds_insufficient_witness :
    transferFunds noFault "04bb" "04aa" (.finite 50000) "sig" "04bb" demoDb =
        (.error .insufficientBalance, demoDb) ∧
      (transferFunds noFault "04bb" "04aa" (.finite 5000) "sig" "04bb" demoDb).1 =
        .ok ⟨1, .completed⟩ :=
  have h := transferFunds_insufficient demoDb "04bb" "04aa" (.finite 50000) "sig" "04bb"
    walletB walletA (by decide) (by decide)
  have herr := h.1.mpr (by decide)
  ⟨Prod.ext herr (h.2.2.2.2 noFault _ herr), by decide⟩

/-! ## `approveTransaction` at quorum -/

/-- A signature row added for a transaction is one more row of that transaction. -/
theorem selectSignatures_insertSignature (db : Db) (transactionId : Nat)
    (signer signature : String) :
    selectSignatures (insertSignature db transactionId signer signature) transactionId =
      selectSignatures db transactionId ++ [⟨transactionId, signer, signature⟩] := by
  simp [selectSignatures, insertSignature, List.filter_append]

/-- The `UPDATE transactions SET status = "completed"` statement, seen through the
lookup by id. -/
theorem selectTransactions_completeTransaction (db : Db) (transactionId : Nat) :
    selectTransactions (completeTransaction db transactionId) transactionId =
      (selectTransactions db transactionId).map fun t => { t with status := .completed } := by
  unfold selectTransactions completeTransaction
  simp only [List.filter_map]
  rw [List.map_congr_left (g := fun t : Transaction => { t with status := .completed })]
  · congr 1
    apply List.filter_congr
    intro t _
    by_cases h : t.id = transactionId <;> simp [h]
  · intro t ht
    have := (List.mem_filter.mp ht).2
    by_cases h : t.id = transactionId
    · simp [h]
    · simp [h] at this

/-- C10: for a pending transaction and a signature that verifies over its stored fields,
from a signer with no earlier record for it: if the number of signature records of the
transaction after the insert is at least the sender wallet's `required_signatures`,
`approveTransaction` returns `completed`; it appends the signature record, sets the
transaction's status to `completed`, and debits the stored amount from every wallet row
of the sender's key and credits it to every row of the receiver's key, once each. When
sender and receiver differ, the sender found afterwards has exactly the amount less and
the receiver exactly the amount more. -/
theorem approveTransaction_quorum {Key : Type} (E : Crypto Key) (db : Db) (transactionId : Nat)
    (signerAddress signature : String) (transaction : Transaction) (rest : List Transaction)
    (wallet : Wallet)
    (hrow : selectTransactions db transactionId = transaction :: rest)
    (hpending : transaction.status = .pending)
    (hvalid : verifySignature E signerAddress
      (.obj [("from", .str transaction.from_wallet), ("to", .str transaction.to_wallet),
        ("amount", .num (.finite transaction.amount))]) signature = .ok true)
    (hnew : ∀ r ∈ selectSignatures db transactionId, r.signer_public_key ≠ signerAddress)
    (hwallet : findByPublicKey db transaction.from_wallet = some wallet)
    (hquorum : wallet.required_signatures ≤
      (selectSignatures (insertSignature db transactionId signerAddress signature)
        transactionId).length) :
    (approveTransaction E noFault transactionId signerAddress signature db).1 =
        .ok ⟨.completed, "Yeterli imzaya ulaşıldı. Transfer gerçekleşti."⟩ ∧
      (approveTransaction E noFault transactionId signerAddress signature db).2 =
        completeTransaction (updateBalance (updateBalance
          (insertSignature db transactionId signerAddress signature)
          transaction.from_wallet (-transaction.amount))
          transaction.to_wallet transaction.amount) transactionId ∧
      (approveTransaction E noFault transactionId signerAddress signature
          db).2.transaction_signatures =
        db.transaction_signatures ++ [⟨transactionId, signerAddress, signature⟩] ∧
      selectTransactions (approveTransaction E noFault transactionId signerAddress signature db).2
          transactionId =
        { transaction with status := .completed } ::
          rest.map (fun t => { t with status := .completed }) ∧
      (transaction.from_wallet ≠ transaction.to_wallet →
        (approveTransaction E noFault transactionId signerAddress signature db).2.wallets =
          db.wallets.map (fun w =>
            if w.public_key = transaction.from_wallet then
              { w with balance := w.balance - transaction.amount }
            else if w.public_key = transaction.to_wallet then
              { w with balance := w.balance + transaction.amount }
            else w) ∧
        findByPublicKey (approveTransaction E noFault transactionId signerAddress signature db).2
          transaction.from_wallet =
            some { wallet with balance := wallet.balance - transaction.amount } ∧
        ∀ receiver, findByPublicKey db transaction.to_wallet = some receiver →
          findByPublicKey (approveTransaction E noFault transactionId signerAddress signature db).2
            transaction.to_wallet =
              some { receiver with balance := receiver.balance + transaction.amount }) := by
  have hexisting : List.filter (fun r : SignatureRow => r.signer_public_key == signerAddress)
      (selectSignatures db transactionId) = [] := by
    rw [List.filter_eq_nil_iff]
    intro r hr
    simpa using hnew r hr
  have hhead : (selectWallets db transaction.from_wallet).head? = some wallet := hwallet
  have heval : approveTransactionTry E noFault transactionId signerAddress signature db =
      .ok (⟨.completed, "Yeterli imzaya ulaşıldı. Transfer gerçekleşti."⟩,
        completeTransaction (updateBalance (updateBalance
          (insertSignature db transactionId signerAddress signature)
          transaction.from_wallet (-transaction.amount))
          transaction.to_wallet transaction.amount) transactionId) := by
    unfold approveTransactionTry
    simp [execute, noFault, hrow, hpending, storedTxData, hvalid, hexisting, hhead, hquorum,
      Except.mapError, bind, Except.bind, pure, Except.pure]
  have hout : approveTransaction E noFault transactionId signerAddress signature db =
      (.ok ⟨.completed, "Yeterli imzaya ulaşıldı. Transfer gerçekleşti."⟩,
        completeTransaction (updateBalance (updateBalance
          (insertSignature db transactionId signerAddress signature)
          transaction.from_wallet (-transaction.amount))
          transaction.to_wallet transaction.amount) transactionId) := by
    simp only [approveTransaction, heval]
  rw [hout]
  refine ⟨rfl, rfl, by simp [completeTransaction, updateBalance, insertSignature], ?_, ?_⟩
  · rw [selectTransactions_completeTransaction]
    have : selectTransactions (updateBalance (updateBalance
        (insertSignature db transactionId signerAddress signature)
        transaction.from_wallet (-transaction.amount))
        transaction.to_wallet transaction.amount) transactionId =
        selectTransactions db transactionId := by
      simp [selectTransactions, updateBalance, insertSignature]
    rw [this, hrow]
    rfl
  · intro hdifferent
    have hwallets : (completeTransaction (updateBalance (updateBalance
        (insertSignature db transactionId signerAddress signature)
        transaction.from_wallet (-transaction.amount))
        transaction.to_wallet transaction.amount) transactionId).wallets =
        db.wallets.map (fun w =>
          if w.public_key = transaction.from_wallet then
            { w with balance := w.balance - transaction.amount }
          else if w.public_key = transaction.to_wallet then
            { w with balance := w.balance + transaction.amount }
          else w) := by
      have := settle_wallets (insertSignature db transactionId signerAddress signature)
        transaction.from_wallet transaction.to_wallet transaction.amount hdifferent
      simpa [completeTransaction, insertSignature] using this
    have hfind := findByPublicKey_map db _
      (fun w => if w.public_key = transaction.from_wallet then
          { w with balance := w.balance - transaction.amount }
        else if w.public_key = transaction.to_wallet then
          { w with balance := w.balance + transaction.amount }
        else w)
      (by intro w; dsimp only; split_ifs <;> rfl) hwallets
    refine ⟨hwallets, ?_, ?_⟩
    · obtain ⟨rest', hrow'⟩ := head?_eq_some hwallet
      have hmem : wallet ∈ selectWallets db transaction.from_wallet := by rw [hrow']; simp
      have hkey : wallet.public_key = transaction.from_wallet := by
        simpa [selectWallets] using (List.mem_filter.mp hmem).2
      rw [hfind, hwallet]
      simp [hkey]
    · intro receiver hreceiver
      obtain ⟨rest', hrow'⟩ := head?_eq_some hreceiver
      have hmem : receiver ∈ selectWallets db transaction.to_wallet := by rw [hrow']; simp
      have hkey : receiver.public_key = transaction.to_wallet := by
        simpa [selectWallets] using (List.mem_filter.mp hmem).2
      have hne : ¬ transaction.to_wallet = transaction.from_wallet := fun h => hdifferent h.symm
      rw [hfind, hreceiver]
      simp [hkey, hne]

/-- C10 on the worked example: transaction 1 of `pendingDb` (100.00 from C to B, two
signatures required, C's own signature recorded at initiation) is completed by the second
signature, of the key `04dd`: C ends with 900.00 and B with 150.00. -/
theorem approveTransaction_quorum_witness :
    (approveTransaction demoCrypto noFault 1 "04dd" signatureD pendingDb).1 =
        .ok ⟨.completed, "Yeterli imzaya ulaşıldı. Transfer gerçekleşti."⟩ ∧
      selectTransactions (approveTransaction demoCrypto noFault 1 "04dd" signatureD pendingDb).2 1 =
        [⟨1, "04cc", "04bb", 10000, signatureC, .completed, 0⟩] ∧
      (approveTransaction demoCrypto noFault 1 "04dd" signatureD
          pendingDb).2.transaction_signatures =
        [⟨1, "04cc", signatureC⟩, ⟨1, "04dd", signatureD⟩] ∧
      findByPublicKey (approveTransaction demoCrypto noFault 1 "04dd" signatureD pendingDb).2
        "04cc" = some { walletC with balance := 90000 } ∧
      findByPublicKey (approveTransaction demoCrypto noFault 1 "04dd" signatureD pendingDb).2
        "04bb" = some { walletB with balance := 15000 } :=
  have h := approveTransaction_quorum demoCrypto pendingDb 1 "04dd" signatureD
    ⟨1, "04cc", "04bb", 10000, signatureC, .pending, 0⟩ [] walletC (by decide) (by decide)
    (by decide) (by decide) (by decide) (by decide)
  have hw := h.2.2.2.2 (by decide)
  ⟨h.1, h.2.2.2.1, h.2.2.1, hw.2.1, hw.2.2 walletB (by decide)⟩

/-! ## What a committed call has done -/

/-- Every run of the `try` block of `createWallet` that returns has added one user row
and one wallet row. -/
theorem createWalletTry_eq_ok (fault : Faults) (username publicKey : String) (db : Db)
    (result : CreateResult) (db' : Db)
    (h : createWalletTry fault username publicKey db = .ok (result, db')) :
    db.users.any (fun u => u.username == username) = false ∧
      db.wallets.any (fun w => w.public_key == publicKey) = false ∧
      result = ⟨db.nextUserId, publicKey, 100000⟩ ∧
      db' = { db with
        users := db.users ++ [⟨db.nextUserId, username⟩]
        wallets := db.wallets ++
          [⟨db.nextWalletId, db.nextUserId, publicKey, 100000, false, 1⟩]
        nextUserId := db.nextUserId + 1
        nextWalletId := db.nextWalletId + 1 } := by
  unfold createWalletTry at h
  simp only [bind_eq_ok, execute_eq_ok, pure, Except.pure, Except.ok.injEq, Prod.mk.injEq] at h
  obtain ⟨userResult, ⟨_, huser⟩, db1, ⟨_, hwallet⟩, db2, ⟨_, rfl⟩, rfl, rfl⟩ := h
  unfold insertUser at huser
  split at huser
  · cases huser
  · rename_i hu
    simp only [Except.ok.injEq] at huser
    subst huser
    unfold insertWallet at hwallet
    split at hwallet
    · cases hwallet
    · rename_i hw
      simp only [Except.ok.injEq] at hwallet
      subst hwallet
      exact ⟨by simpa using hu, by simpa using hw, rfl, rfl⟩

/-- Every run of the `try` block of `transferFunds` that returns, whichever database
calls fail in other runs, has found the sender row and a receiver row, was given a finite
amount that the sender's balance covers, and has stored exactly this. -/
theorem transferFundsTry_eq_ok (fault : Faults) (fromAddress toAddress : String)
    (amount : JsNumber) (signature signerAddress : String) (db : Db)
    (result : TransferResult) (db' : Db)
    (h : transferFundsTry fault fromAddress toAddress amount signature signerAddress db =
      .ok (result, db')) :
    ∃ wallet rest stored, selectWallets db fromAddress = wallet :: rest ∧
      selectWallets db toAddress ≠ [] ∧ amount = .finite stored ∧ stored ≤ wallet.balance ∧
      result = ⟨db.nextTransactionId, initialStatus wallet⟩ ∧
      db' = if initialStatus wallet = .completed then
          updateBalance (updateBalance (insertSignature
            (insertTransaction db fromAddress toAddress stored signature .completed).2
            db.nextTransactionId signerAddress signature) fromAddress (-stored)) toAddress stored
        else insertSignature
          (insertTransaction db fromAddress toAddress stored signature .pending).2
          db.nextTransactionId signerAddress signature := by
  unfold transferFundsTry at h
  simp only [bind_eq_ok, execute_eq_ok, pure, Except.pure, Except.ok.injEq] at h
  obtain ⟨walletRows, ⟨_, hrows⟩, h⟩ := h
  subst hrows
  cases hsel : selectWallets db fromAddress with
  | nil => rw [hsel] at h; simp [throw, throwThe, MonadExceptOf.throw] at h
  | cons wallet rest =>
    rw [hsel] at h
    simp only [bind_eq_ok, execute_eq_ok, pure, Except.pure, Except.ok.injEq] at h
    obtain ⟨receiverRows, ⟨_, hreceiver⟩, h⟩ := h
    by_cases h1 : receiverRows.length = 0
    · simp [h1, throw, throwThe, MonadExceptOf.throw] at h
    rw [if_neg h1] at h
    by_cases h2 : (JsNumber.finite wallet.balance).lt amount = true
    · simp [h2, throw, throwThe, MonadExceptOf.throw] at h
    rw [if_neg h2] at h
    change (_ >>= _) = _ at h
    simp only [bind_eq_ok, execute_eq_ok, pure, Except.pure, Except.ok.injEq] at h
    obtain ⟨inserted, ⟨_, stored, hstored, hins⟩, db1, ⟨_, hdb1⟩, h⟩ := h
    subst hins hdb1
    have hamount : amount = .finite stored := by
      cases amount <;> simp_all [decimalParam]
    subst hamount
    have hbalance : stored ≤ wallet.balance := by
      simpa [JsNumber.lt] using h2
    have hne : selectWallets db toAddress ≠ [] := by
      intro hnil
      apply h1
      rw [← hreceiver, hnil]
      rfl
    refine ⟨wallet, rest, stored, rfl, hne, rfl, hbalance, ?_⟩
    by_cases hst : initialStatus wallet = .completed
    · simp only [hst, if_true, bind_eq_ok, execute_eq_ok, Except.ok.injEq, Prod.mk.injEq,
        decimalParam] at h
      obtain ⟨y, ⟨db2, ⟨_, d1, hd1, rfl⟩, _, d2, hd2, rfl⟩, w, ⟨_, rfl⟩, rfl, rfl⟩ := h
      cases hd1
      cases hd2
      simp [hst, insertTransaction]
    · have hp : initialStatus wallet = .pending := by
        unfold initialStatus at hst ⊢
        split_ifs at hst ⊢ <;> simp_all
      simp only [hst, if_false, bind_eq_ok, execute_eq_ok, Except.ok.injEq, Prod.mk.injEq] at h
      obtain ⟨y, rfl, w, ⟨_, rfl⟩, rfl, rfl⟩ := h
      simp [hp, insertTransaction]

/-- Every run of the `try` block of `approveTransaction` that returns, whichever database
calls fail in other runs, has found a pending row, a signature that verifies over its
stored fields, no earlier record of the signer and the sender wallet; it has stored the
new record, and has settled the transfer exactly when the records then number at least
the `required_signatures` of the sender wallet. -/
theorem approveTransactionTry_eq_ok {Key : Type} (E : Crypto Key) (fault : Faults)
    (transactionId : Nat) (signerAddress signature : String) (db : Db)
    (result : ApproveResult) (db' : Db)
    (h : approveTransactionTry E fault transactionId signerAddress signature db =
      .ok (result, db')) :
    ∃ transaction rest wallet,
      selectTransactions db transactionId = transaction :: rest ∧
      transaction.status = .pending ∧
      verifySignature E signerAddress (storedTxData transaction) signature = .ok true ∧
      (∀ r ∈ selectSignatures db transactionId, r.signer_public_key ≠ signerAddress) ∧
      findByPublicKey db transaction.from_wallet = some wallet ∧
      ((wallet.required_signatures ≤ (selectSignatures db transactionId).length + 1 ∧
          result = ⟨.completed, "Yeterli imzaya ulaşıldı. Transfer gerçekleşti."⟩ ∧
          db' = completeTransaction (updateBalance (updateBalance
            (insertSignature db transactionId signerAddress signature)
            transaction.from_wallet (-transaction.amount))
            transaction.to_wallet transaction.amount) transactionId) ∨
        ((selectSignatures db transactionId).length + 1 < wallet.required_signatures ∧
          result = ⟨.pending, "İmza kaydedildi. Gereken: " ++
            String.mk (Nat.toDigits 10 wallet.required_signatures) ++ ", Şu anki: " ++
            String.mk (Nat.toDigits 10 ((selectSignatures db transactionId).length + 1))⟩ ∧
          db' = insertSignature db transactionId signerAddress signature)) := by
  unfold approveTransactionTry at h
  simp only [bind_eq_ok, execute_eq_ok, pure, Except.pure, Except.ok.injEq] at h
  obtain ⟨rows, ⟨_, rfl⟩, h⟩ := h
  cases hsel : selectTransactions db transactionId with
  | nil => rw [hsel] at h; simp [throw, throwThe, MonadExceptOf.throw] at h
  | cons transaction rest =>
    rw [hsel] at h
    by_cases hp : transaction.status ≠ .pending
    · simp [hp, throw, throwThe, MonadExceptOf.throw] at h
    simp only [if_neg hp] at h
    have hpending : transaction.status = .pending := not_not.mp hp
    obtain ⟨b, hb⟩ := verifySignature_ok E signerAddress (storedTxData transaction) signature
    rw [hb] at h
    cases b with
    | false =>
      simp [Except.mapError, bind, Except.bind, throw, throwThe, MonadExceptOf.throw] at h
    | true =>
      simp only [Except.mapError, bind_eq_ok, execute_eq_ok, pure, Except.pure,
        Except.ok.injEq, Bool.not_true, Bool.false_eq_true, if_false, exists_eq_left'] at h
      obtain ⟨walletRows, ⟨_, hwalletRows⟩, existing, ⟨_, hexisting⟩, h⟩ := h
      by_cases hd : existing.length > 0
      · simp [hd, throw, throwThe, MonadExceptOf.throw] at h
      rw [if_neg hd] at h
      simp only [bind_eq_ok, execute_eq_ok, pure, Except.pure, Except.ok.injEq] at h
      obtain ⟨db1, ⟨_, hdb1⟩, count, ⟨_, hcount⟩, h⟩ := h
      subst hdb1
      rw [selectSignatures_insertSignature] at hcount
      simp only [List.length_append, List.length_singleton] at hcount
      subst hcount
      have hnew : ∀ r ∈ selectSignatures db transactionId,
          r.signer_public_key ≠ signerAddress := by
        intro r hr heq
        apply hd
        rw [← hexisting]
        exact List.length_pos_of_mem (List.mem_filter.mpr ⟨hr, by simpa using heq⟩)
      cases hw : walletRows.head? with
      | none => simp [hw, throw, throwThe, MonadExceptOf.throw] at h
      | some wallet =>
        rw [hw] at h
        have hwallet : findByPublicKey db transaction.from_wallet = some wallet := by
          rw [← hw, ← hwalletRows]
          rfl
        refine ⟨transaction, rest, wallet, rfl, hpending, hb, hnew, hwallet, ?_⟩
        by_cases hq : (selectSignatures db transactionId).length + 1 ≥
            wallet.required_signatures
        · left
          simp only [hq, if_true, bind_eq_ok, execute_eq_ok, pure, Except.pure,
            Except.ok.injEq, Prod.mk.injEq] at h
          obtain ⟨d5, ⟨_, rfl⟩, d6, ⟨_, rfl⟩, d7, ⟨_, rfl⟩, d8, ⟨_, rfl⟩, rfl, rfl⟩ := h
          exact ⟨hq, rfl, rfl⟩
        · right
          simp only [hq, if_false, bind_eq_ok, execute_eq_ok, pure, Except.pure,
            Except.ok.injEq, Prod.mk.injEq] at h
          obtain ⟨d8, ⟨_, rfl⟩, rfl, rfl⟩ := h
          exact ⟨Nat.lt_of_not_le hq, rfl, rfl⟩

/-- A call leaves the database as it was (it failed, and was rolled back) or has
committed one of the five steps. -/
theorem Call.run_step {Key : Type} (E : Crypto Key) (call : Call) (db : Db) :
    call.run E db = db ∨ Step db (call.run E db) := by
  cases call with
  | createWallet fault username publicKey =>
    simp only [Call.run, MultiSigWallet.createWallet]
    cases hres : createWalletTry fault username publicKey db with
    | error e => exact Or.inl rfl
    | ok out =>
      obtain ⟨result, db'⟩ := out
      obtain ⟨huser, hkey, _, rfl⟩ :=
        createWalletTry_eq_ok fault username publicKey db result db' hres
      exact Or.inr (Step.created username publicKey huser hkey)
  | transferFunds fault fromAddress toAddress amount signature signerAddress =>
    simp only [Call.run, MultiSigWallet.transferFunds]
    cases hres : transferFundsTry fault fromAddress toAddress amount signature signerAddress
        db with
    | error e => exact Or.inl rfl
    | ok out =>
      obtain ⟨result, db'⟩ := out
      obtain ⟨wallet, rest, stored, hrow, hreceiver, _, hbalance, _, rfl⟩ :=
        transferFundsTry_eq_ok fault fromAddress toAddress amount signature signerAddress db
          result db' hres
      right
      by_cases hst : initialStatus wallet = .completed
      · simp only [hst, if_true]
        exact Step.transferred fromAddress toAddress stored signature signerAddress wallet rest
          hrow hst hbalance hreceiver
      · have hp : initialStatus wallet = .pending := by
          unfold initialStatus at hst ⊢
          split_ifs at hst ⊢ <;> simp_all
        simp only [hst, if_false]
        exact Step.initiated fromAddress toAddress stored signature signerAddress wallet rest
          hrow hp hreceiver
  | approveTransaction fault transactionId signerAddress signature =>
    simp only [Call.run, MultiSigWallet.approveTransaction]
    cases hres : approveTransactionTry E fault transactionId signerAddress signature db with
    | error e => exact Or.inl rfl
    | ok out =>
      obtain ⟨result, db'⟩ := out
      obtain ⟨transaction, rest, wallet, hrow, hpending, _, hnew, hwallet, hcase⟩ :=
        approveTransactionTry_eq_ok E fault transactionId signerAddress signature db
          result db' hres
      right
      rcases hcase with ⟨hq, _, rfl⟩ | ⟨_, _, rfl⟩
      · exact Step.settled transactionId signerAddress signature transaction rest wallet
          hrow hpending hnew hwallet hq
      · exact Step.signed transactionId signerAddress signature transaction rest
          hrow hpending hnew

/-- What every step keeps holds after every sequence of calls. -/
theorem runCalls_induction {Key : Type} (E : Crypto Key) (P : Db → Prop)
    (hstep : ∀ db db', P db → Step db db' → P db') (calls : List Call) :
    ∀ db, P db → P (runCalls E calls db) := by
  induction calls with
  | nil => intro db h; exact h
  | cons call calls ih =>
    intro db h
    have hrun : runCalls E (call :: calls) db = runCalls E calls (call.run E db) := rfl
    rw [hrun]
    apply ih
    rcases Call.run_step E call db with heq | hs
    · rw [heq]; exact h
    · exact hstep db _ h hs

/-! ## What a step keeps -/

/-- A row found by id is a row of the table with that id. -/
theorem selectTransactions_head {db : Db} {transactionId : Nat} {transaction : Transaction}
    {rest : List Transaction}
    (hrow : selectTransactions db transactionId = transaction :: rest) :
    transaction ∈ db.transactions ∧ transaction.id = transactionId := by
  have hmem : transaction ∈ selectTransactions db transactionId := by rw [hrow]; simp
  have := List.mem_filter.mp hmem
  exact ⟨this.1, by simpa using this.2⟩

/-- A step keeps the primary key of `transactions`, and keeps every row that is not
pending as it is. -/
theorem step_transactions {db db' : Db} (h : Step db db') (hkeys : db.TransactionKeys) :
    db'.TransactionKeys ∧ ∀ t ∈ db.transactions, t.status ≠ .pending → t ∈ db'.transactions := by
  obtain ⟨hnodup, hbelow⟩ := hkeys
  have hfresh : db.nextTransactionId ∉ db.transactions.map fun t => t.id := by
    intro hmem
    obtain ⟨t, ht, hid⟩ := List.mem_map.mp hmem
    have := hbelow t ht
    omega
  have hadd : ∀ row : Transaction, row.id = db.nextTransactionId →
      ((db.transactions ++ [row]).map fun t => t.id).Nodup ∧
        ∀ t ∈ db.transactions ++ [row], t.id < db.nextTransactionId + 1 := by
    intro row hrowid
    constructor
    · rw [List.map_append, List.nodup_append]
      refine ⟨hnodup, by simp, ?_⟩
      intro a ha hb
      simp only [List.map_cons, List.map_nil, List.mem_singleton] at hb
      rw [hb, hrowid] at ha
      exact hfresh ha
    · intro t ht
      rcases List.mem_append.mp ht with ht | ht
      · have := hbelow t ht
        omega
      · simp only [List.mem_singleton] at ht
        rw [ht, hrowid]
        omega
  cases h with
  | created username publicKey => exact ⟨⟨hnodup, hbelow⟩, fun t ht _ => ht⟩
  | initiated fromAddress toAddress a signature signerAddress wallet rest hrow hstatus =>
    refine ⟨?_, ?_⟩
    · simpa [Db.TransactionKeys, insertSignature, insertTransaction] using
        hadd ⟨db.nextTransactionId, fromAddress, toAddress, a, signature, .pending, db.now⟩ rfl
    · intro t ht _
      simp [insertSignature, insertTransaction, ht]
  | transferred fromAddress toAddress a signature signerAddress wallet rest hrow hstatus hbal =>
    refine ⟨?_, ?_⟩
    · simpa [Db.TransactionKeys, insertSignature, insertTransaction, updateBalance] using
        hadd ⟨db.nextTransactionId, fromAddress, toAddress, a, signature, .completed, db.now⟩
          rfl
    · intro t ht _
      simp [insertSignature, insertTransaction, updateBalance, ht]
  | signed transactionId signerAddress signature transaction rest hrow hpending hnew =>
    exact ⟨⟨hnodup, hbelow⟩, fun t ht _ => ht⟩
  | settled transactionId signerAddress signature transaction rest wallet hrow hpending hnew
      hwallet hquorum =>
    obtain ⟨hmem, hid⟩ := selectTransactions_head hrow
    refine ⟨⟨?_, ?_⟩, ?_⟩
    · have hmap : ((completeTransaction (updateBalance (updateBalance
          (insertSignature db transactionId signerAddress signature)
          transaction.from_wallet (-transaction.amount))
          transaction.to_wallet transaction.amount) transactionId).transactions.map
            fun t => t.id) = db.transactions.map fun t => t.id := by
        simp only [completeTransaction, updateBalance, insertSignature, List.map_map]
        apply List.map_congr_left
        intro t _
        simp only [Function.comp_apply]
        split_ifs <;> rfl
      rw [hmap]
      exact hnodup
    · intro t ht
      simp only [completeTransaction, updateBalance, insertSignature, List.mem_map] at ht
      obtain ⟨t0, ht0, rfl⟩ := ht
      have := hbelow t0 ht0
      split_ifs <;> simpa using this
    · intro t ht hnp
      simp only [completeTransaction, updateBalance, insertSignature, List.mem_map]
      refine ⟨t, ht, ?_⟩
      have hne : t.id ≠ transactionId := by
        intro heq
        have : t = transaction :=
          List.inj_on_of_nodup_map hnodup ht hmem (by rw [heq, hid])
        exact hnp (this ▸ hpending)
      simp [hne]

/-- A step adds at most one signature record: one for an id that has been given out, and
for a pair of id and signer that has no record yet. -/
theorem step_signatures {db db' : Db} (h : Step db db') (hkeys : db.TransactionKeys)
    (hids : db.SignatureIds) :
    db'.transaction_signatures = db.transaction_signatures ∧
        db'.nextTransactionId = db.nextTransactionId ∨
      ∃ r, db'.transaction_signatures = db.transaction_signatures ++ [r] ∧
        db.nextTransactionId ≤ db'.nextTransactionId ∧
        r.transaction_id < db'.nextTransactionId ∧
        ∀ r' ∈ db.transaction_signatures, r'.transaction_id = r.transaction_id →
          r'.signer_public_key ≠ r.signer_public_key := by
  have hfresh : ∀ r' ∈ db.transaction_signatures,
      r'.transaction_id = db.nextTransactionId → ∀ s, r'.signer_public_key ≠ s := by
    intro r' hr' heq
    have := hids r' hr'
    omega
  have hfound : ∀ {transactionId : Nat} {signerAddress : String},
      (∀ r ∈ selectSignatures db transactionId, r.signer_public_key ≠ signerAddress) →
      ∀ r' ∈ db.transaction_signatures, r'.transaction_id = transactionId →
        r'.signer_public_key ≠ signerAddress := by
    intro transactionId signerAddress hnew r' hr' heq
    exact hnew r' (List.mem_filter.mpr ⟨hr', by simpa using heq⟩)
  cases h with
  | created username publicKey => exact Or.inl ⟨rfl, rfl⟩
  | initiated fromAddress toAddress a signature signerAddress wallet rest hrow hstatus =>
    exact Or.inr ⟨⟨db.nextTransactionId, signerAddress, signature⟩, rfl,
      by simp [insertSignature, insertTransaction],
      by simp [insertSignature, insertTransaction],
      fun r' hr' heq => hfresh r' hr' heq _⟩
  | transferred fromAddress toAddress a signature signerAddress wallet rest hrow hstatus hbal =>
    exact Or.inr ⟨⟨db.nextTransactionId, signerAddress, signature⟩, rfl,
      by simp [insertSignature, insertTransaction, updateBalance],
      by simp [insertSignature, insertTransaction, updateBalance],
      fun r' hr' heq => hfresh r' hr' heq _⟩
  | signed transactionId signerAddress signature transaction rest hrow hpending hnew =>
    obtain ⟨hmem, hid⟩ := selectTransactions_head hrow
    have hlt := hkeys.2 transaction hmem
    exact Or.inr ⟨⟨transactionId, signerAddress, signature⟩, rfl,
      by simp [insertSignature], by simpa [insertSignature, hid] using hlt, hfound hnew⟩
  | settled transactionId signerAddress signature transaction rest wallet hrow hpending hnew
      hwallet hquorum =>
    obtain ⟨hmem, hid⟩ := selectTransactions_head hrow
    have hlt := hkeys.2 transaction hmem
    exact Or.inr ⟨⟨transactionId, signerAddress, signature⟩, rfl,
      by simp [insertSignature, completeTransaction, updateBalance],
      by simpa [insertSignature, completeTransaction, updateBalance, hid] using hlt,
      hfound hnew⟩

/-- A step keeps the signature records within the ids given out, and keeps them
unique for each pair of a transaction id and a signer address. -/
theorem step_signature_keys {db db' : Db} (h : Step db db') (hkeys : db.TransactionKeys)
    (hids : db.SignatureIds) (hunique : db.SignaturesUnique) :
    db'.SignatureIds ∧ db'.SignaturesUnique := by
  rcases step_signatures h hkeys hids with ⟨hsame, hnext⟩ | ⟨r, hadd, hle, hlt, hnew⟩
  · unfold Db.SignatureIds Db.SignaturesUnique
    rw [hsame, hnext]
    exact ⟨hids, hunique⟩
  · unfold Db.SignatureIds Db.SignaturesUnique
    rw [hadd]
    constructor
    · intro r' hr'
      rcases List.mem_append.mp hr' with hr' | hr'
      · have := hids r' hr'
        omega
      · simp only [List.mem_singleton] at hr'
        rw [hr']
        exact hlt
    · rw [List.map_append, List.nodup_append]
      refine ⟨hunique, by simp, ?_⟩
      intro p hp hq
      simp only [List.map_cons, List.map_nil, List.mem_singleton] at hq
      obtain ⟨r', hr', hpair⟩ := List.mem_map.mp hp
      rw [hq] at hpair
      simp only [Prod.mk.injEq] at hpair
      exact hnew r' hr' hpair.1 hpair.2

/-- A step never removes a signature record. -/
theorem step_signatures_length {db db' : Db} (h : Step db db') (transactionId : Nat) :
    (selectSignatures db transactionId).length ≤ (selectSignatures db' transactionId).length := by
  have hadd : ∀ r : SignatureRow,
      (List.filter (fun r => r.transaction_id == transactionId)
        db.transaction_signatures).length ≤
      (List.filter (fun r => r.transaction_id == transactionId)
        (db.transaction_signatures ++ [r])).length := by
    intro r
    rw [List.filter_append, List.length_append]
    exact Nat.le_add_right _ _
  cases h with
  | created username publicKey => exact Nat.le_refl _
  | initiated fromAddress toAddress a signature signerAddress wallet rest hrow hstatus =>
    exact hadd _
  | transferred fromAddress toAddress a signature signerAddress wallet rest hrow hstatus hbal =>
    exact hadd _
  | signed transactionId signerAddress signature transaction rest hrow hpending hnew =>
    exact hadd _
  | settled transactionId signerAddress signature transaction rest wallet hrow hpending hnew
      hwallet hquorum =>
    exact hadd _

/-- A step changes wallet rows in their balance only, or adds one row of a wallet that
is not multi-signature and requires one signature. -/
theorem step_wallets {db db' : Db} (h : Step db db') :
    (∃ g : Wallet → Wallet,
        (∀ w, (g w).public_key = w.public_key ∧ (g w).is_multisig = w.is_multisig ∧
          (g w).required_signatures = w.required_signatures) ∧
        db'.wallets = db.wallets.map g) ∨
      ∃ w, w.is_multisig = false ∧ w.required_signatures = 1 ∧
        db'.wallets = db.wallets ++ [w] := by
  have hsame : ∀ d : Db, d.wallets = db.wallets → ∃ g : Wallet → Wallet,
      (∀ w, (g w).public_key = w.public_key ∧ (g w).is_multisig = w.is_multisig ∧
        (g w).required_signatures = w.required_signatures) ∧
      d.wallets = db.wallets.map g := by
    intro d hd
    exact ⟨id, fun w => ⟨rfl, rfl, rfl⟩, by simpa using hd⟩
  have hsettle : ∀ (d : Db) (k k' : String) (x x' : Int), d.wallets = db.wallets →
      ∃ g : Wallet → Wallet,
        (∀ w, (g w).public_key = w.public_key ∧ (g w).is_multisig = w.is_multisig ∧
          (g w).required_signatures = w.required_signatures) ∧
        (updateBalance (updateBalance d k x) k' x').wallets = db.wallets.map g := by
    intro d k k' x x' hd
    refine ⟨fun w => if w.public_key = k then
        (if w.public_key = k' then { w with balance := w.balance + x + x' }
          else { w with balance := w.balance + x })
      else if w.public_key = k' then { w with balance := w.balance + x' } else w, ?_,
      by rw [updateBalance_twice_wallets, hd]⟩
    intro w
    dsimp only
    split_ifs <;> exact ⟨rfl, rfl, rfl⟩
  cases h with
  | created username publicKey => exact Or.inr ⟨_, rfl, rfl, rfl⟩
  | initiated fromAddress toAddress a signature signerAddress wallet rest hrow hstatus =>
    exact Or.inl (hsame _ rfl)
  | transferred fromAddress toAddress a signature signerAddress wallet rest hrow hstatus hbal =>
    exact Or.inl (hsettle _ _ _ _ _ rfl)
  | signed transactionId signerAddress signature transaction rest hrow hpending hnew =>
    exact Or.inl (hsame _ rfl)
  | settled transactionId signerAddress signature transaction rest wallet hrow hpending hnew
      hwallet hquorum =>
    exact Or.inl (hsettle (insertSignature db transactionId signerAddress signature) _ _ _ _ rfl)

/-- A step keeps the wallet invariant. -/
theorem step_walletInvariant {db db' : Db} (h : Step db db') (hinv : db.WalletInvariant) :
    db'.WalletInvariant := by
  unfold Db.WalletInvariant at hinv ⊢
  rcases step_wallets h with ⟨g, hg, hmap⟩ | ⟨w, hw1, hw2, hadd⟩
  · rw [hmap]
    intro w hw hm
    obtain ⟨w0, hw0, rfl⟩ := List.mem_map.mp hw
    rw [(hg w0).2.2]
    exact hinv w0 hw0 (by rw [← (hg w0).2.1]; exact hm)
  · rw [hadd]
    intro w' hw' hm
    rcases List.mem_append.mp hw' with hw' | hw'
    · exact hinv w' hw' hm
    · simp only [List.mem_singleton] at hw'
      rw [hw']
      exact hw2

/-- After a step, a key that found a wallet finds a wallet that requires as many
signatures. -/
theorem step_findByPublicKey {db db' : Db} (h : Step db db') (publicKey : String)
    (w : Wallet) (hw : findByPublicKey db publicKey = some w) :
    ∃ w', findByPublicKey db' publicKey = some w' ∧
      w'.required_signatures = w.required_signatures := by
  rcases step_wallets h with ⟨g, hg, hmap⟩ | ⟨w1, _, _, hadd⟩
  · refine ⟨g w, ?_, (hg w).2.2⟩
    rw [findByPublicKey_map db db' g (fun w => (hg w).1) hmap, hw]
    rfl
  · refine ⟨w, ?_, rfl⟩
    obtain ⟨rest, hrows⟩ := head?_eq_some hw
    unfold findByPublicKey selectWallets at hw ⊢
    rw [hadd, List.filter_append]
    unfold selectWallets at hrows
    rw [hrows]
    rfl

/-- With at most one record for each pair of transaction id and signer address, the
records of a transaction are as many as its distinct signer addresses. -/
theorem signers_length (db : Db) (hunique : db.SignaturesUnique) (transactionId : Nat) :
    (signers db transactionId).length = (selectSignatures db transactionId).length := by
  unfold Db.SignaturesUnique at hunique
  have hsub : ((selectSignatures db transactionId).map fun r =>
      (r.transaction_id, r.signer_public_key)).Nodup :=
    hunique.sublist (List.Sublist.map _ (List.filter_sublist _))
  have hpair : ((selectSignatures db transactionId).map fun r =>
      (r.transaction_id, r.signer_public_key)) =
      ((selectSignatures db transactionId).map fun r => r.signer_public_key).map
        (Prod.mk transactionId) := by
    rw [List.map_map]
    apply List.map_congr_left
    intro r hr
    have := (List.mem_filter.mp hr).2
    simp only [beq_iff_eq] at this
    simp [this]
  rw [hpair] at hsub
  unfold signers
  rw [(List.Nodup.of_map _ hsub).dedup, List.length_map]

/-- A step keeps the quorum of every completed transaction: the sender wallet found
requires no more signatures than the transaction has records. -/
theorem step_quorum {db db' : Db} (h : Step db db') (hkeys : db.TransactionKeys)
    (hinv : db.WalletInvariant)
    (hq : ∀ t ∈ db.transactions, t.status = .completed →
      ∃ w, findByPublicKey db t.from_wallet = some w ∧
        w.required_signatures ≤ (selectSignatures db t.id).length) :
    ∀ t ∈ db'.transactions, t.status = .completed →
      ∃ w, findByPublicKey db' t.from_wallet = some w ∧
        w.required_signatures ≤ (selectSignatures db' t.id).length := by
  have hold : ∀ t ∈ db.transactions, t.status = .completed →
      ∃ w, findByPublicKey db' t.from_wallet = some w ∧
        w.required_signatures ≤ (selectSignatures db' t.id).length := by
    intro t ht hc
    obtain ⟨w, hw, hreq⟩ := hq t ht hc
    obtain ⟨w', hw', hreq'⟩ := step_findByPublicKey h _ w hw
    exact ⟨w', hw', by
      rw [hreq']
      exact Nat.le_trans hreq (step_signatures_length h t.id)⟩
  have hs := h
  cases h with
  | created username publicKey => exact hold
  | initiated fromAddress toAddress a signature signerAddress wallet rest hrow hstatus =>
    intro t ht hc
    simp only [insertSignature, insertTransaction, List.mem_append, List.mem_singleton] at ht
    rcases ht with ht | ht
    · exact hold t ht hc
    · rw [ht] at hc
      cases hc
  | transferred fromAddress toAddress a signature signerAddress wallet rest hrow hstatus hbal =>
    intro t ht hc
    simp only [insertSignature, insertTransaction, updateBalance, List.mem_append,
      List.mem_singleton] at ht
    rcases ht with ht | ht
    · exact hold t ht hc
    · have hfind : findByPublicKey db fromAddress = some wallet := by
        unfold findByPublicKey
        rw [hrow]
        rfl
      obtain ⟨w', hw', hreq'⟩ := step_findByPublicKey hs fromAddress wallet hfind
      have hmem : wallet ∈ db.wallets := by
        have : wallet ∈ selectWallets db fromAddress := by rw [hrow]; simp
        exact (List.mem_filter.mp this).1
      have hone : wallet.required_signatures ≤ 1 := by
        unfold initialStatus at hstatus
        cases hm : wallet.is_multisig with
        | false => exact Nat.le_of_eq (hinv wallet hmem hm)
        | true =>
          rw [hm] at hstatus
          by_cases hgt : wallet.required_signatures > 1
          · simp [hgt] at hstatus
          · omega
      refine ⟨w', by rw [ht]; exact hw', ?_⟩
      rw [hreq', ht]
      refine Nat.le_trans hone ?_
      simp [selectSignatures, insertSignature, insertTransaction, updateBalance,
        List.filter_append]
  | signed transactionId signerAddress signature transaction rest hrow hpending hnew =>
    exact hold
  | settled transactionId signerAddress signature transaction rest wallet hrow hpending hnew
      hwallet hquorum =>
    intro t ht hc
    obtain ⟨hmem, hid⟩ := selectTransactions_head hrow
    simp only [completeTransaction, updateBalance, insertSignature, List.mem_map] at ht
    obtain ⟨t0, ht0, rfl⟩ := ht
    by_cases heq : t0.id = transactionId
    · have ht0eq : t0 = transaction :=
        List.inj_on_of_nodup_map hkeys.1 ht0 hmem (by rw [heq, hid])
      subst ht0eq
      obtain ⟨w', hw', hreq'⟩ := step_findByPublicKey hs _ wallet hwallet
      refine ⟨w', by simpa [heq] using hw', ?_⟩
      rw [hreq']
      refine Nat.le_trans hquorum ?_
      simp [heq, selectSignatures, insertSignature, completeTransaction, updateBalance,
        List.filter_append]
    · simp only [beq_iff_eq, heq, if_false] at hc ⊢
      exact hold t0 ht0 hc

/-! ## The outcomes of `approveTransaction`, one by one -/

/-- `findByPublicKey` reads the table `wallets` only. -/
theorem findByPublicKey_congr {db db' : Db} (h : db'.wallets = db.wallets) (publicKey : String) :
    findByPublicKey db' publicKey = findByPublicKey db publicKey := by
  unfold findByPublicKey selectWallets
  rw [h]

/-- A wallet found under a key has that key. -/
theorem findByPublicKey_key {db : Db} {publicKey : String} {w : Wallet}
    (h : findByPublicKey db publicKey = some w) : w.public_key = publicKey := by
  obtain ⟨rest, hrows⟩ := head?_eq_some h
  have hmem : w ∈ selectWallets db publicKey := by rw [hrows]; simp
  simpa [selectWallets] using (List.mem_filter.mp hmem).2

/-- After a debit of `a` from `f` and a credit of `a` to another key `t`, the wallet found
under `f` has `a` less and the wallet found under `t` has `a` more. -/
theorem settle_findByPublicKey (db : Db) (f t : String) (a : Int) (hne : f ≠ t) :
    (∀ w, findByPublicKey db f = some w →
      findByPublicKey (updateBalance (updateBalance db f (-a)) t a) f =
        some { w with balance := w.balance - a }) ∧
    (∀ w, findByPublicKey db t = some w →
      findByPublicKey (updateBalance (updateBalance db f (-a)) t a) t =
        some { w with balance := w.balance + a }) := by
  have hfind := findByPublicKey_map db (updateBalance (updateBalance db f (-a)) t a)
    (fun w => if w.public_key = f then { w with balance := w.balance - a }
      else if w.public_key = t then { w with balance := w.balance + a } else w)
    (by intro w; dsimp only; split_ifs <;> rfl) (settle_wallets db f t a hne)
  constructor
  · intro w hw
    rw [hfind, hw]
    simp [findByPublicKey_key hw]
  · intro w hw
    have hne' : ¬ t = f := fun h => hne h.symm
    rw [hfind, hw]
    simp [findByPublicKey_key hw, hne']

/-- A transaction row that is not pending: `approveTransaction` throws the not-pending
error, whatever the signer and the signature, once the first `SELECT` has answered. -/
theorem approveTransactionTry_notPending {Key : Type} (E : Crypto Key) (fault : Faults)
    (db : Db) (transactionId : Nat) (signerAddress signature : String)
    (transaction : Transaction) (rest : List Transaction) (hfault : fault 0 = false)
    (hrow : selectTransactions db transactionId = transaction :: rest)
    (hstatus : transaction.status ≠ .pending) :
    approveTransactionTry E fault transactionId signerAddress signature db =
      .error .notPending := by
  simp [approveTransactionTry, execute, hfault, hrow, hstatus, bind, Except.bind, pure,
    Except.pure, throw, throwThe, MonadExceptOf.throw]

/-- A signer that already has a record for the pending transaction: `approveTransaction`
throws the duplicate-signer error, once the three `SELECT`s have answered. -/
theorem approveTransactionTry_duplicate {Key : Type} (E : Crypto Key) (fault : Faults)
    (db : Db) (transactionId : Nat) (signerAddress signature : String)
    (transaction : Transaction) (rest : List Transaction)
    (hfault : fault 0 = false ∧ fault 1 = false ∧ fault 2 = false)
    (hrow : selectTransactions db transactionId = transaction :: rest)
    (hpending : transaction.status = .pending)
    (hvalid : verifySignature E signerAddress (storedTxData transaction) signature = .ok true)
    (r : SignatureRow) (hr : r ∈ selectSignatures db transactionId)
    (hsigner : r.signer_public_key = signerAddress) :
    approveTransactionTry E fault transactionId signerAddress signature db =
      .error .duplicateSigner := by
  have hexisting : 0 < (List.filter
      (fun r : SignatureRow => r.signer_public_key == signerAddress)
      (selectSignatures db transactionId)).length :=
    List.length_pos_of_mem (List.mem_filter.mpr ⟨hr, by simpa using hsigner⟩)
  simp [approveTransactionTry, execute, hfault.1, hfault.2.1, hfault.2.2, hrow, hpending,
    hvalid, hexisting, Except.mapError, bind, Except.bind, pure, Except.pure, throw,
    throwThe, MonadExceptOf.throw]

/-- At quorum and with a database that fails no statement, this is what
`approveTransaction` returns and stores. -/
theorem approveTransaction_noFault_completed {Key : Type} (E : Crypto Key) (db : Db)
    (transactionId : Nat) (signerAddress signature : String) (transaction : Transaction)
    (rest : List Transaction) (wallet : Wallet)
    (hrow : selectTransactions db transactionId = transaction :: rest)
    (hpending : transaction.status = .pending)
    (hvalid : verifySignature E signerAddress (storedTxData transaction) signature = .ok true)
    (hnew : ∀ r ∈ selectSignatures db transactionId, r.signer_public_key ≠ signerAddress)
    (hwallet : findByPublicKey db transaction.from_wallet = some wallet)
    (hquorum : wallet.required_signatures ≤ (selectSignatures db transactionId).length + 1) :
    approveTransaction E noFault transactionId signerAddress signature db =
      (.ok ⟨.completed, "Yeterli imzaya ulaşıldı. Transfer gerçekleşti."⟩,
        completeTransaction (updateBalance (updateBalance
          (insertSignature db transactionId signerAddress signature)
          transaction.from_wallet (-transaction.amount))
          transaction.to_wallet transaction.amount) transactionId) := by
  have hexisting : List.filter (fun r : SignatureRow => r.signer_public_key == signerAddress)
      (selectSignatures db transactionId) = [] := by
    rw [List.filter_eq_nil_iff]
    intro r hr
    simpa using hnew r hr
  have hhead : (selectWallets db transaction.from_wallet).head? = some wallet := hwallet
  have hcount : wallet.required_signatures ≤
      (selectSignatures (insertSignature db transactionId signerAddress signature)
        transactionId).length := by
    rw [selectSignatures_insertSignature]
    simpa using hquorum
  have heval : approveTransactionTry E noFault transactionId signerAddress signature db =
      .ok (⟨.completed, "Yeterli imzaya ulaşıldı. Transfer gerçekleşti."⟩,
        completeTransaction (updateBalance (updateBalance
          (insertSignature db transactionId signerAddress signature)
          transaction.from_wallet (-transaction.amount))
          transaction.to_wallet transaction.amount) transactionId) := by
    unfold approveTransactionTry
    simp [execute, noFault, hrow, hpending, hvalid, hexisting, hhead, hcount,
      Except.mapError, bind, Except.bind, pure, Except.pure]
  simp only [approveTransaction, heval]

/-! ## `approveTransaction` below the quorum -/

/-- C11 at a concrete input, as the claim words the result: in `boardPendingDb`
(transaction 1 out of wallet F, three signatures required, one recorded) the approval of
the co-signer `04dd` returns the status `pending` and a message; the returned object has
the properties `status` and `message`, and none named `signaturesSoFar` or
`signaturesRequired`. -/
theorem approveTransaction_pending_result_fields :
    (approveTransaction demoCrypto noFault 1 "04dd" signatureDF boardPendingDb).1 =
        .ok ⟨.pending, "İmza kaydedildi. Gereken: 3, Şu anki: 2"⟩ ∧
      objectKeys (ApproveResult.toJsValue
        ⟨.pending, "İmza kaydedildi. Gereken: 3, Şu anki: 2"⟩) = .ok ["status", "message"] ∧
      "signaturesSoFar" ∉ ["status", "message"] ∧
      "signaturesRequired" ∉ ["status", "message"] := by
  refine ⟨by decide, rfl, by decide, by decide⟩

/-- C11 (amended): for a pending transaction and a signature that verifies over its
stored fields, from a signer with no earlier record for it: if the number of signature
records of the transaction after the insert is still below the sender wallet's
`required_signatures`, `approveTransaction` commits the new signature record and nothing
else (users, wallets with their balances and transactions with their statuses are as
before) and returns the status `pending` with the message `İmza kaydedildi. Gereken: R,
Şu anki: N`, where `R` is the sender wallet's `required_signatures` and `N` the count
after the insert, both in decimal; the returned object has the two properties `status`
and `message`. -/
theorem approveTransaction_below_quorum {Key : Type} (E : Crypto Key) (db : Db)
    (transactionId : Nat) (signerAddress signature : String) (transaction : Transaction)
    (rest : List Transaction) (wallet : Wallet)
    (hrow : selectTransactions db transactionId = transaction :: rest)
    (hpending : transaction.status = .pending)
    (hvalid : verifySignature E signerAddress
      (.obj [("from", .str transaction.from_wallet), ("to", .str transaction.to_wallet),
        ("amount", .num (.finite transaction.amount))]) signature = .ok true)
    (hnew : ∀ r ∈ selectSignatures db transactionId, r.signer_public_key ≠ signerAddress)
    (hwallet : findByPublicKey db transaction.from_wallet = some wallet)
    (hbelow : (selectSignatures (insertSignature db transactionId signerAddress signature)
        transactionId).length < wallet.required_signatures) :
    approveTransaction E noFault transactionId signerAddress signature db =
        (.ok ⟨.pending, "İmza kaydedildi. Gereken: " ++
          String.mk (Nat.toDigits 10 wallet.required_signatures) ++ ", Şu anki: " ++
          String.mk (Nat.toDigits 10
            (selectSignatures (insertSignature db transactionId signerAddress signature)
              transactionId).length)⟩,
          insertSignature db transactionId signerAddress signature) ∧
      (approveTransaction E noFault transactionId signerAddress signature db).2.users =
        db.users ∧
      (approveTransaction E noFault transactionId signerAddress signature db).2.wallets =
        db.wallets ∧
      (approveTransaction E noFault transactionId signerAddress signature db).2.transactions =
        db.transactions ∧
      (approveTransaction E noFault transactionId signerAddress signature
          db).2.transaction_signatures =
        db.transaction_signatures ++ [⟨transactionId, signerAddress, signature⟩] ∧
      ∀ result,
        (approveTransaction E noFault transactionId signerAddress signature db).1 = .ok result →
          objectKeys result.toJsValue = .ok ["status", "message"] := by
  have hexisting : List.filter (fun r : SignatureRow => r.signer_public_key == signerAddress)
      (selectSignatures db transactionId) = [] := by
    rw [List.filter_eq_nil_iff]
    intro r hr
    simpa using hnew r hr
  have hhead : (selectWallets db transaction.from_wallet).head? = some wallet := hwallet
  have hnot : ¬ wallet.required_signatures ≤
      (selectSignatures (insertSignature db transactionId signerAddress signature)
        transactionId).length := Nat.not_le_of_lt hbelow
  have heval : approveTransactionTry E noFault transactionId signerAddress signature db =
      .ok (⟨.pending, "İmza kaydedildi. Gereken: " ++
          String.mk (Nat.toDigits 10 wallet.required_signatures) ++ ", Şu anki: " ++
          String.mk (Nat.toDigits 10
            (selectSignatures (insertSignature db transactionId signerAddress signature)
              transactionId).length)⟩,
        insertSignature db transactionId signerAddress signature) := by
    unfold approveTransactionTry
    simp [execute, noFault, hrow, hpending, storedTxData, hvalid, hexisting, hhead, hnot,
      Except.mapError, bind, Except.bind, pure, Except.pure]
  have hout : approveTransaction E noFault transactionId signerAddress signature db =
      (.ok ⟨.pending, "İmza kaydedildi. Gereken: " ++
          String.mk (Nat.toDigits 10 wallet.required_signatures) ++ ", Şu anki: " ++
          String.mk (Nat.toDigits 10
            (selectSignatures (insertSignature db transactionId signerAddress signature)
              transactionId).length)⟩,
        insertSignature db transactionId signerAddress signature) := by
    simp only [approveTransaction, heval]
  rw [hout]
  refine ⟨rfl, rfl, rfl, rfl, rfl, ?_⟩
  intro result hresult
  rfl

/-- C11 on a worked example: in `boardPendingDb` the approval of `04dd` is the second of
three required signatures; the record is added, the message names 3 and 2, and wallet F
still has its 1000.00. -/
theorem approveTransaction_below_quorum_witness :
    approveTransaction demoCrypto noFault 1 "04dd" signatureDF boardPendingDb =
        (.ok ⟨.pending, "İmza kaydedildi. Gereken: 3, Şu anki: 2"⟩,
          insertSignature boardPendingDb 1 "04dd" signatureDF) ∧
      (approveTransaction demoCrypto noFault 1 "04dd" signatureDF boardPendingDb).2.wallets =
        [walletA, walletB, walletC, walletF] ∧
      (approveTransaction demoCrypto noFault 1 "04dd" signatureDF
          boardPendingDb).2.transactions =
        [⟨1, "04ff", "04bb", 10000, signatureF, .pending, 0⟩] ∧
      (approveTransaction demoCrypto noFault 1 "04dd" signatureDF
          boardPendingDb).2.transaction_signatures =
        [⟨1, "04ff", signatureF⟩, ⟨1, "04dd", signatureDF⟩] :=
  have h := approveTransaction_below_quorum demoCrypto boardPendingDb 1 "04dd" signatureDF
    ⟨1, "04ff", "04bb", 10000, signatureF, .pending, 0⟩ [] walletF (by decide) (by decide)
    (by decide) (by decide) (by decide) (by decide)
  ⟨h.1.trans (by decide), h.2.2.1.trans (by decide), h.2.2.2.1.trans (by decide),
    h.2.2.2.2.1.trans (by decide)⟩

/-! ## Two signatures out of two -/

/-- C12 at the claim's numbers: wallet C of `demoDb` has balance 1000.00 and requires two
signatures.  The transfer of 100.00 to B lands in pending with the initiator's signature
recorded, so the first approval by another signer (`04dd`) already completes it and a
following approval (by `04aa`) is refused; and whoever signs the initiation, no approval
of the new transaction by any signer returns `pending`. -/
theorem approveTransaction_first_cosigner_completes :
    transferFunds noFault "04cc" "04bb" (.finite 10000) signatureC "04cc" demoDb =
        (.ok ⟨1, .pending⟩, pendingDb) ∧
      selectSignatures pendingDb 1 = [⟨1, "04cc", signatureC⟩] ∧
      (approveTransaction demoCrypto noFault 1 "04dd" signatureD pendingDb).1 =
        .ok ⟨.completed, "Yeterli imzaya ulaşıldı. Transfer gerçekleşti."⟩ ∧
      (approveTransaction demoCrypto noFault 1 "04aa" signatureAC
        (approveTransaction demoCrypto noFault 1 "04dd" signatureD pendingDb).2).1 =
        .error .notPending ∧
      ¬ ∃ (initiator signature0 signerX signatureX message : String),
        (approveTransaction demoCrypto noFault 1 signerX signatureX
          (transferFunds noFault "04cc" "04bb" (.finite 10000) signature0 initiator
            demoDb).2).1 = .ok ⟨.pending, message⟩ := by
  refine ⟨by decide, by decide, by decide, by decide, ?_⟩
  rintro ⟨initiator, signature0, signerX, signatureX, message, h⟩
  have htransfer : (transferFunds noFault "04cc" "04bb" (.finite 10000) signature0 initiator
      demoDb).2 = insertSignature
        (insertTransaction demoDb "04cc" "04bb" 10000 signature0 .pending).2 1 initiator
        signature0 := by
    have := transferFundsTry_noFault demoDb "04cc" "04bb" 10000 signature0 initiator walletC []
      (by decide) (by decide) (by decide)
    simp only [transferFunds, this]
    rfl
  rw [htransfer] at h
  unfold approveTransaction at h
  cases hres : approveTransactionTry demoCrypto noFault 1 signerX signatureX
      (insertSignature (insertTransaction demoDb "04cc" "04bb" 10000 signature0 .pending).2 1
        initiator signature0) with
  | error e => rw [hres] at h; cases h
  | ok out =>
    obtain ⟨result, db'⟩ := out
    rw [hres] at h
    simp only [Except.ok.injEq] at h
    obtain ⟨transaction, rest, wallet, hrow, _, _, _, hwallet, hcase⟩ :=
      approveTransactionTry_eq_ok demoCrypto noFault 1 signerX signatureX _ result db' hres
    have hfind : findByPublicKey (insertSignature
        (insertTransaction demoDb "04cc" "04bb" 10000 signature0 .pending).2 1 initiator
        signature0) "04cc" = some walletC :=
      (@findByPublicKey_congr demoDb _ rfl "04cc").trans (by decide)
    have hcount : (selectSignatures (insertSignature
        (insertTransaction demoDb "04cc" "04bb" 10000 signature0 .pending).2 1 initiator
        signature0) 1).length = 1 := by
      rw [selectSignatures_insertSignature]
      rfl
    rcases hcase with ⟨_, hresult, _⟩ | ⟨hlt, _, _⟩
    · rw [hresult] at h
      cases h
    · have hw : transaction.from_wallet = "04cc" := by
        have hmem : transaction ∈ selectTransactions (insertSignature
            (insertTransaction demoDb "04cc" "04bb" 10000 signature0 .pending).2 1 initiator
            signature0) 1 := by rw [hrow]; simp
        simp [selectTransactions, insertSignature, insertTransaction, demoDb] at hmem
        rw [hmem]
      rw [hw, hfind] at hwallet
      cases hwallet
      rw [hcount] at hlt
      exact absurd hlt (by decide)

/-- C12 (amended): starting from a sender wallet A with balance 1000.00 that is
multi-signature and requires two signatures, and a receiver wallet B: a transfer of
100.00 from A to B initiated with signer X lands in pending, with X's signature recorded
as the first of the two and A's balance untouched; a further approval by X is refused as
a duplicate and leaves everything as it is; an approval by a different signer Y, signed
over the original fields `from: A, to: B, amount: 100`, makes the transaction completed
and leaves A with 900.00 and B with 100.00 more. -/
theorem transfer_two_of_two {Key : Type} (E : Crypto Key) (db : Db)
    (addressA addressB signerX signerY signatureX signatureY : String)
    (sender receiver : Wallet)
    (hsender : findByPublicKey db addressA = some sender)
    (hreceiver : findByPublicKey db addressB = some receiver)
    (hdifferent : addressA ≠ addressB)
    (hbalance : sender.balance = 100000) (hmultisig : sender.is_multisig = true)
    (hrequired : sender.required_signatures = 2)
    (hsigners : signerX ≠ signerY)
    (hkeys : db.TransactionKeys) (hids : db.SignatureIds)
    (hvalid : verifySignature E signerY
      (.obj [("from", .str addressA), ("to", .str addressB), ("amount", .num (.finite 10000))])
      signatureY = .ok true) :
    transferFunds noFault addressA addressB (.finite 10000) signatureX signerX db =
        (.ok ⟨db.nextTransactionId, .pending⟩,
          insertSignature (insertTransaction db addressA addressB 10000 signatureX .pending).2
            db.nextTransactionId signerX signatureX) ∧
      selectSignatures
          (transferFunds noFault addressA addressB (.finite 10000) signatureX signerX db).2
          db.nextTransactionId = [⟨db.nextTransactionId, signerX, signatureX⟩] ∧
      findByPublicKey
          (transferFunds noFault addressA addressB (.finite 10000) signatureX signerX db).2
          addressA = some sender ∧
      (∀ signature, verifySignature E signerX
          (.obj [("from", .str addressA), ("to", .str addressB),
            ("amount", .num (.finite 10000))]) signature = .ok true →
        approveTransaction E noFault db.nextTransactionId signerX signature
            (transferFunds noFault addressA addressB (.finite 10000) signatureX signerX db).2 =
          (.error .duplicateSigner,
            (transferFunds noFault addressA addressB (.finite 10000) signatureX signerX db).2)) ∧
      (approveTransaction E noFault db.nextTransactionId signerY signatureY
          (transferFunds noFault addressA addressB (.finite 10000) signatureX signerX db).2).1 =
        .ok ⟨.completed, "Yeterli imzaya ulaşıldı. Transfer gerçekleşti."⟩ ∧
      selectTransactions
          (approveTransaction E noFault db.nextTransactionId signerY signatureY
            (transferFunds noFault addressA addressB (.finite 10000) signatureX signerX
              db).2).2 db.nextTransactionId =
        [⟨db.nextTransactionId, addressA, addressB, 10000, signatureX, .completed, db.now⟩] ∧
      findByPublicKey
          (approveTransaction E noFault db.nextTransactionId signerY signatureY
            (transferFunds noFault addressA addressB (.finite 10000) signatureX signerX
              db).2).2 addressA = some { sender with balance := 90000 } ∧
      findByPublicKey
          (approveTransaction E noFault db.nextTransactionId signerY signatureY
            (transferFunds noFault addressA addressB (.finite 10000) signatureX signerX
              db).2).2 addressB = some { receiver with balance := receiver.balance + 10000 } := by
  obtain ⟨rest, hrowS⟩ := head?_eq_some hsender
  have hrec : selectWallets db addressB ≠ [] := by
    obtain ⟨rest', hrowR⟩ := head?_eq_some hreceiver
    rw [hrowR]
    simp
  have hstatus : initialStatus sender = .pending := by
    simp [initialStatus, hmultisig, hrequired]
  have htry := transferFundsTry_noFault db addressA addressB 10000 signatureX signerX sender
    rest hrowS hrec (by rw [hbalance]; decide)
  rw [hstatus] at htry
  simp only [reduceCtorEq, if_false] at htry
  have htransfer : transferFunds noFault addressA addressB (.finite 10000) signatureX signerX
      db = (.ok ⟨db.nextTransactionId, .pending⟩,
        insertSignature (insertTransaction db addressA addressB 10000 signatureX .pending).2
          db.nextTransactionId signerX signatureX) := by
    simp only [transferFunds, htry]
  rw [htransfer]
  have hnoTx : db.transactions.filter (fun t => t.id == db.nextTransactionId) = [] := by
    rw [List.filter_eq_nil_iff]
    intro t ht heq
    have := hkeys.2 t ht
    simp only [beq_iff_eq] at heq
    omega
  have hnoSig : db.transaction_signatures.filter
      (fun r => r.transaction_id == db.nextTransactionId) = [] := by
    rw [List.filter_eq_nil_iff]
    intro r hr heq
    have := hids r hr
    simp only [beq_iff_eq] at heq
    omega
  have hrow : selectTransactions (insertSignature
      (insertTransaction db addressA addressB 10000 signatureX .pending).2
      db.nextTransactionId signerX signatureX) db.nextTransactionId =
      [⟨db.nextTransactionId, addressA, addressB, 10000, signatureX, .pending, db.now⟩] := by
    simp [selectTransactions, insertSignature, insertTransaction, List.filter_append, hnoTx]
  have hsigs : selectSignatures (insertSignature
      (insertTransaction db addressA addressB 10000 signatureX .pending).2
      db.nextTransactionId signerX signatureX) db.nextTransactionId =
      [⟨db.nextTransactionId, signerX, signatureX⟩] := by
    simp [selectSignatures, insertSignature, insertTransaction, List.filter_append, hnoSig]
  have hfind : ∀ k, findByPublicKey (insertSignature
      (insertTransaction db addressA addressB 10000 signatureX .pending).2
      db.nextTransactionId signerX signatureX) k = findByPublicKey db k :=
    fun k => findByPublicKey_congr rfl k
  have hout := approveTransaction_noFault_completed E _ db.nextTransactionId signerY signatureY
    _ [] sender hrow rfl hvalid
    (by
      intro r hr
      rw [hsigs] at hr
      simp only [List.mem_singleton] at hr
      rw [hr]
      exact hsigners)
    (by rw [hfind]; exact hsender)
    (by rw [hsigs, hrequired]; simp)
  have hcomplete : ∀ (d : Db) (transactionId : Nat) (k : String),
      findByPublicKey (completeTransaction d transactionId) k = findByPublicKey d k :=
    fun d transactionId k => findByPublicKey_congr rfl k
  refine ⟨rfl, hsigs, by rw [hfind]; exact hsender, ?_, by rw [hout], ?_, ?_, ?_⟩
  · intro signature hsignature
    simp only [approveTransaction, approveTransactionTry_duplicate E noFault _
      db.nextTransactionId signerX signature _ [] ⟨rfl, rfl, rfl⟩ hrow rfl hsignature
      ⟨db.nextTransactionId, signerX, signatureX⟩ (by rw [hsigs]; simp) rfl]
  · rw [hout, selectTransactions_completeTransaction]
    have hsel : selectTransactions (updateBalance (updateBalance (insertSignature
        (insertSignature (insertTransaction db addressA addressB 10000 signatureX .pending).2
          db.nextTransactionId signerX signatureX) db.nextTransactionId signerY signatureY)
        addressA (-10000)) addressB 10000) db.nextTransactionId =
        [⟨db.nextTransactionId, addressA, addressB, 10000, signatureX, .pending, db.now⟩] :=
      hrow
    rw [hsel]
    rfl
  · rw [hout, hcomplete]
    have := (settle_findByPublicKey (insertSignature (insertSignature
      (insertTransaction db addressA addressB 10000 signatureX .pending).2
      db.nextTransactionId signerX signatureX) db.nextTransactionId signerY signatureY)
      addressA addressB 10000 hdifferent).1 sender
      ((findByPublicKey_congr rfl addressA).trans hsender)
    rw [this, hbalance]
    rfl
  · rw [hout, hcomplete]
    exact (settle_findByPublicKey (insertSignature (insertSignature
      (insertTransaction db addressA addressB 10000 signatureX .pending).2
      db.nextTransactionId signerX signatureX) db.nextTransactionId signerY signatureY)
      addressA addressB 10000 hdifferent).2 receiver
      ((findByPublicKey_congr rfl addressB).trans hreceiver)

/-- C12 on the worked example: wallet C (1000.00, two signatures required) initiates the
transfer of 100.00 to B with its own key; its second approval is a duplicate; the
approval of `04dd` completes transaction 1 and leaves C with 900.00 and B with 150.00. -/
theorem transfer_two_of_two_witness :
    transferFunds noFault "04cc" "04bb" (.finite 10000) signatureC "04cc" demoDb =
        (.ok ⟨1, .pending⟩, pendingDb) ∧
      approveTransaction demoCrypto noFault 1 "04cc" signatureC pendingDb =
        (.error .duplicateSigner, pendingDb) ∧
      (approveTransaction demoCrypto noFault 1 "04dd" signatureD pendingDb).1 =
        .ok ⟨.completed, "Yeterli imzaya ulaşıldı. Transfer gerçekleşti."⟩ ∧
      findByPublicKey (approveTransaction demoCrypto noFault 1 "04dd" signatureD pendingDb).2
        "04cc" = some { walletC with balance := 90000 } ∧
      findByPublicKey (approveTransaction demoCrypto noFault 1 "04dd" signatureD pendingDb).2
        "04bb" = some { walletB with balance := 15000 } :=
  have h := transfer_two_of_two demoCrypto demoDb "04cc" "04bb" "04cc" "04dd" signatureC
    signatureD walletC walletB (by decide) (by decide) (by decide) (by decide) (by decide)
    (by decide) (by decide) (by decide) (by decide) (by decide)
  ⟨h.1.trans (by decide), by decide, by decide, by decide, by decide⟩

/-! ## A second signature of the same signer -/

/-- C13: for a pending transaction and a signer address that already has a signature
record for it, `approveTransaction` called with a signature of that signer that verifies
over the stored fields fails with the duplicate-signer error, and the database (the
signature records, every balance, the transaction's status) is exactly as before; this
holds whichever later database calls would fail. -/
theorem approveTransaction_duplicate_signer {Key : Type} (E : Crypto Key) (fault : Faults)
    (db : Db) (transactionId : Nat) (signerAddress signature : String)
    (transaction : Transaction) (rest : List Transaction)
    (hfault : fault 0 = false ∧ fault 1 = false ∧ fault 2 = false)
    (hrow : selectTransactions db transactionId = transaction :: rest)
    (hpending : transaction.status = .pending)
    (hvalid : verifySignature E signerAddress
      (.obj [("from", .str transaction.from_wallet), ("to", .str transaction.to_wallet),
        ("amount", .num (.finite transaction.amount))]) signature = .ok true)
    (hrecord : ∃ r ∈ selectSignatures db transactionId, r.signer_public_key = signerAddress) :
    approveTransaction E fault transactionId signerAddress signature db =
      (.error .duplicateSigner, db) := by
  obtain ⟨r, hr, hsigner⟩ := hrecord
  simp only [approveTransaction, approveTransactionTry_duplicate E fault db transactionId
    signerAddress signature transaction rest hfault hrow hpending hvalid r hr hsigner]

/-- C13 on the worked example: wallet C, whose signature was recorded when it initiated
transaction 1, approves it again with the same valid signature; the call fails with the
message `Bu işlemi zaten imzaladınız!` and `pendingDb` is unchanged. -/
theorem approveTransaction_duplicate_signer_witness :
    approveTransaction demoCrypto noFault 1 "04cc" signatureC pendingDb =
        (.error .duplicateSigner, pendingDb) ∧
      WalletError.duplicateSigner.message = "Bu işlemi zaten imzaladınız!" :=
  ⟨approveTransaction_duplicate_signer demoCrypto noFault pendingDb 1 "04cc" signatureC
    ⟨1, "04cc", "04bb", 10000, signatureC, .pending, 0⟩ [] (by decide) (by decide) (by decide)
    (by decide) ⟨⟨1, "04cc", signatureC⟩, by decide, by decide⟩, by decide⟩

/-! ## Completed and rejected transactions stay as they are -/

/-- With distinct ids, the lookup by its id finds a row of the table and nothing else. -/
theorem selectTransactions_eq_singleton {db : Db} (hkeys : db.TransactionKeys)
    {t : Transaction} (ht : t ∈ db.transactions) : selectTransactions db t.id = [t] := by
  unfold selectTransactions
  have hnodup := hkeys.1
  revert hnodup ht
  generalize db.transactions = l
  intro ht hnodup
  induction l with
  | nil => cases ht
  | cons x xs ih =>
    rw [List.map_cons, List.nodup_cons] at hnodup
    rcases List.mem_cons.mp ht with rfl | hmem
    · have hnone : xs.filter (fun u => u.id == t.id) = [] := by
        rw [List.filter_eq_nil_iff]
        intro u hu heq
        exact hnodup.1 (List.mem_map.mpr ⟨u, hu, by simpa using heq⟩)
      simp [List.filter_cons, hnone]
    · have hne : x.id ≠ t.id := by
        intro heq
        exact hnodup.1 (List.mem_map.mpr ⟨t, hmem, heq.symm⟩)
      simp [List.filter_cons, hne, ih hmem hnodup.2]

/-- C14: when the row found for `transactionId` is completed or rejected,
`approveTransaction` fails with the not-pending error, whatever the signer and the
signature (and whichever later database calls would fail), and the database is exactly as
before.  Consequently, in a database whose transaction ids are a primary key, a
transaction that is completed or rejected is the same row, found under its id, after
every sequence of `createWallet`, `transferFunds` and `approveTransaction` calls,
successful or failed. -/
theorem approveTransaction_terminal {Key : Type} (E : Crypto Key) (db : Db) :
    (∀ (fault : Faults) (transactionId : Nat) (signerAddress signature : String)
        (transaction : Transaction) (rest : List Transaction), fault 0 = false →
      selectTransactions db transactionId = transaction :: rest →
      transaction.status = .completed ∨ transaction.status = .rejected →
      approveTransaction E fault transactionId signerAddress signature db =
        (.error .notPending, db)) ∧
    (db.TransactionKeys → ∀ (calls : List Call) (t : Transaction), t ∈ db.transactions →
      t.status = .completed ∨ t.status = .rejected →
      t ∈ (runCalls E calls db).transactions ∧
        selectTransactions (runCalls E calls db) t.id = [t]) := by
  constructor
  · intro fault transactionId signerAddress signature transaction rest hfault hrow hstatus
    have hne : transaction.status ≠ .pending := by
      rcases hstatus with h | h <;> rw [h] <;> decide
    simp only [approveTransaction, approveTransactionTry_notPending E fault db transactionId
      signerAddress signature transaction rest hfault hrow hne]
  · intro hkeys calls t ht hstatus
    have hne : t.status ≠ .pending := by
      rcases hstatus with h | h <;> rw [h] <;> decide
    have hinv := runCalls_induction E (fun d => d.TransactionKeys ∧ t ∈ d.transactions)
      (fun d d' hd hstep =>
        ⟨(step_transactions hstep hd.1).1, (step_transactions hstep hd.1).2 t hd.2 hne⟩)
      calls db ⟨hkeys, ht⟩
    exact ⟨hinv.2, selectTransactions_eq_singleton hinv.1 hinv.2⟩

/-- C14 on a worked example: transaction 1 of `rejectedDb` cannot be approved, and it is
still the same rejected row after an approval attempt, a new transfer out of wallet C,
the co-signer's approval of that transfer and one more attempt on transaction 1. -/
theorem approveTransaction_terminal_witness :
    approveTransaction demoCrypto noFault 1 "04dd" signatureD rejectedDb =
        (.error .notPending, rejectedDb) ∧
      selectTransactions (runCalls demoCrypto
        [.approveTransaction noFault 1 "04dd" signatureD,
          .transferFunds noFault "04cc" "04bb" (.finite 10000) signatureC "04cc",
          .approveTransaction noFault 2 "04dd" signatureD,
          .approveTransaction noFault 1 "04aa" signatureAC] rejectedDb) 1 =
        [⟨1, "04cc", "04bb", 10000, signatureC, .rejected, 0⟩] ∧
      (selectTransactions (runCalls demoCrypto
        [.approveTransaction noFault 1 "04dd" signatureD,
          .transferFunds noFault "04cc" "04bb" (.finite 10000) signatureC "04cc",
          .approveTransaction noFault 2 "04dd" signatureD,
          .approveTransaction noFault 1 "04aa" signatureAC] rejectedDb) 2).map
            (fun t => t.status) = [.completed] :=
  have h := approveTransaction_terminal demoCrypto rejectedDb
  ⟨h.1 noFault 1 "04dd" signatureD ⟨1, "04cc", "04bb", 10000, signatureC, .rejected, 0⟩ []
      rfl (by decide) (Or.inr rfl),
    (h.2 (by decide) _ ⟨1, "04cc", "04bb", 10000, signatureC, .rejected, 0⟩ (by decide)
      (Or.inr rfl)).2,
    by decide⟩

/-! ## Balances under pending transfers -/

set_option maxRecDepth 100000 in
/-- C15 at a failing input: `demoDb` has non-negative balances and no transaction.  Two
transfers of 800.00 out of wallet C (balance 1000.00, two signatures required) both pass
the balance check and land in pending, since a pending transfer debits nothing; the
co-signer's two approvals then settle both, and the second debit leaves wallet C with
-600.00. -/
theorem approveTransaction_overdraws :
    (∀ w ∈ demoDb.wallets, 0 ≤ w.balance) ∧ demoDb.transactions = [] ∧
      (runCalls demoCrypto (overdraftCalls.take 2) demoDb).transactions.map
        (fun t => (t.id, t.amount, t.status)) =
          [(1, 80000, .pending), (2, 80000, .pending)] ∧
      findByPublicKey (runCalls demoCrypto (overdraftCalls.take 3) demoDb) "04cc" =
        some { walletC with balance := 20000 } ∧
      (approveTransaction demoCrypto noFault 2 "04dd" signatureD800
        (runCalls demoCrypto (overdraftCalls.take 3) demoDb)).1 =
          .ok ⟨.completed, "Yeterli imzaya ulaşıldı. Transfer gerçekleşti."⟩ ∧
      (runCalls demoCrypto overdraftCalls demoDb).transactions.map
        (fun t => (t.id, t.amount, t.status)) =
          [(1, 80000, .completed), (2, 80000, .completed)] ∧
      findByPublicKey (runCalls demoCrypto overdraftCalls demoDb) "04cc" =
        some { walletC with balance := -60000 } := by
  refine ⟨by decide, rfl, by decide, by decide, by decide, by decide, by decide⟩

/-! ## The quorum of completed transactions -/

/-- C16: from a database whose wallets satisfy the wallet invariant (a wallet that is not
multi-signature requires one signature) and that has no transaction and no signature
record, after every sequence of `createWallet`, `transferFunds` and `approveTransaction`
calls, successful or failed, every completed transaction has its sender wallet, and has
signature records of at least as many distinct signer addresses as that wallet's
`required_signatures`. -/
theorem completed_has_quorum {Key : Type} (E : Crypto Key) (db : Db)
    (hwallets : db.WalletInvariant) (hempty : db.transactions = [])
    (hnone : db.transaction_signatures = []) (calls : List Call) :
    (runCalls E calls db).QuorumReached := by
  have hinv := runCalls_induction E
    (fun d => d.TransactionKeys ∧ d.SignatureIds ∧ d.SignaturesUnique ∧ d.WalletInvariant ∧
      ∀ t ∈ d.transactions, t.status = .completed →
        ∃ w, findByPublicKey d t.from_wallet = some w ∧
          w.required_signatures ≤ (selectSignatures d t.id).length)
    (fun d d' hd hstep =>
      ⟨(step_transactions hstep hd.1).1,
        (step_signature_keys hstep hd.1 hd.2.1 hd.2.2.1).1,
        (step_signature_keys hstep hd.1 hd.2.1 hd.2.2.1).2,
        step_walletInvariant hstep hd.2.2.2.1,
        step_quorum hstep hd.1 hd.2.2.2.1 hd.2.2.2.2⟩)
    calls db
    ⟨by simp [Db.TransactionKeys, hempty], by simp [Db.SignatureIds, hnone],
      by simp [Db.SignaturesUnique, hnone], hwallets, by simp [hempty]⟩
  intro t ht hc
  obtain ⟨w, hw, hreq⟩ := hinv.2.2.2.2 t ht hc
  exact ⟨w, hw, by rw [signers_length _ hinv.2.2.1]; exact hreq⟩

set_option maxRecDepth 100000 in
/-- C16 on the worked session: after `demoCalls` on `demoDb`, transaction 1 (out of the
single-signature wallet A) and transaction 2 (out of wallet C, two signatures required)
are completed; transaction 2 has the two signers `04cc` and `04dd`. -/
theorem completed_has_quorum_witness :
    demoDb.WalletInvariant ∧ (runCalls demoCrypto demoCalls demoDb).QuorumReached ∧
      (runCalls demoCrypto demoCalls demoDb).transactions.map
        (fun t => (t.id, t.from_wallet, t.status)) =
          [(1, "04aa", .completed), (2, "04cc", .completed)] ∧
      signers (runCalls demoCrypto demoCalls demoDb) 1 = ["04aa"] ∧
      signers (runCalls demoCrypto demoCalls demoDb) 2 = ["04cc", "04dd"] :=
  ⟨by decide, completed_has_quorum demoCrypto demoDb (by decide) rfl rfl demoCalls,
    by decide, by decide, by decide⟩

/-! ## One signature record for each signer -/

/-- A record for a signer that has none for the transaction keeps the records unique. -/
theorem insertSignature_unique (db : Db) (hunique : db.SignaturesUnique) (transactionId : Nat)
    (signerAddress signature : String)
    (hnew : ∀ r ∈ selectSignatures db transactionId, r.signer_public_key ≠ signerAddress) :
    (insertSignature db transactionId signerAddress signature).SignaturesUnique := by
  unfold Db.SignaturesUnique insertSignature
  rw [List.map_append, List.nodup_append]
  refine ⟨hunique, by simp, ?_⟩
  intro p hp hq
  simp only [List.map_cons, List.map_nil, List.mem_singleton] at hq
  obtain ⟨r', hr', hpair⟩ := List.mem_map.mp hp
  rw [hq] at hpair
  simp only [Prod.mk.injEq] at hpair
  exact hnew r' (List.mem_filter.mpr ⟨hr', by simpa using hpair.1⟩) hpair.2

/-- C17: from a database with no signature record (and transaction ids that are a
primary key), after every sequence of `createWallet`, `transferFunds` and
`approveTransaction` calls, successful or failed, there is at most one signature record
for each pair of a transaction id and a signer address; so the records of a transaction
are as many as its distinct signer addresses, in the stored state and in the state in
which `approveTransaction` counts them, after it has inserted the record of a signer
that had none. -/
theorem signature_records_unique {Key : Type} (E : Crypto Key) (db : Db)
    (hkeys : db.TransactionKeys) (hnone : db.transaction_signatures = [])
    (calls : List Call) :
    (runCalls E calls db).SignaturesUnique ∧
      (∀ transactionId, (selectSignatures (runCalls E calls db) transactionId).length =
        (signers (runCalls E calls db) transactionId).length) ∧
      ∀ (transactionId : Nat) (signerAddress signature : String),
        (∀ r ∈ selectSignatures (runCalls E calls db) transactionId,
          r.signer_public_key ≠ signerAddress) →
        (selectSignatures (insertSignature (runCalls E calls db) transactionId signerAddress
          signature) transactionId).length =
        (signers (insertSignature (runCalls E calls db) transactionId signerAddress
          signature) transactionId).length := by
  have hinv := runCalls_induction E
    (fun d => d.TransactionKeys ∧ d.SignatureIds ∧ d.SignaturesUnique)
    (fun d d' hd hstep =>
      ⟨(step_transactions hstep hd.1).1,
        (step_signature_keys hstep hd.1 hd.2.1 hd.2.2).1,
        (step_signature_keys hstep hd.1 hd.2.1 hd.2.2).2⟩)
    calls db
    ⟨hkeys, by simp [Db.SignatureIds, hnone], by simp [Db.SignaturesUnique, hnone]⟩
  refine ⟨hinv.2.2, fun transactionId => (signers_length _ hinv.2.2 transactionId).symm, ?_⟩
  intro transactionId signerAddress signature hnew
  exact (signers_length _
    (insertSignature_unique _ hinv.2.2 transactionId signerAddress signature hnew)
    transactionId).symm

set_option maxRecDepth 100000 in
/-- C17 on the worked session: after `demoCalls` on `demoDb` the three signature records
are those of three different pairs, and transaction 2 has two records and two signers. -/
theorem signature_records_unique_witness :
    demoDb.TransactionKeys ∧ (runCalls demoCrypto demoCalls demoDb).SignaturesUnique ∧
      (runCalls demoCrypto demoCalls demoDb).transaction_signatures.map
        (fun r => (r.transaction_id, r.signer_public_key)) =
          [(1, "04aa"), (2, "04cc"), (2, "04dd")] ∧
      (selectSignatures (runCalls demoCrypto demoCalls demoDb) 2).length = 2 ∧
      (signers (runCalls demoCrypto demoCalls demoDb) 2).length = 2 :=
  have h := signature_records_unique demoCrypto demoDb (by decide) rfl demoCalls
  ⟨by decide, h.1, by decide, by decide, (h.2.1 2).symm.trans (by decide)⟩

/-! ## Rollback -/

/-- A failed `createWallet` leaves the database of the committed-or-rolled-back model as
it was. -/
theorem createWallet_error_unchanged (fault : Faults) (username publicKey : String) (db : Db)
    (e : WalletError) (h : (createWallet fault username publicKey db).1 = .error e) :
    (createWallet fault username publicKey db).2 = db := by
  unfold createWallet at h ⊢
  cases hres : createWalletTry fault username publicKey db with
  | error e' => rfl
  | ok r => rw [hres] at h; cases h

/-- A failed `approveTransaction` leaves the database of the committed-or-rolled-back
model as it was. -/
theorem approveTransaction_error_unchanged {Key : Type} (E : Crypto Key) (fault : Faults)
    (transactionId : Nat) (signerAddress signature : String) (db : Db) (e : WalletError)
    (h : (approveTransaction E fault transactionId signerAddress signature db).1 = .error e) :
    (approveTransaction E fault transactionId signerAddress signature db).2 = db := by
  unfold approveTransaction at h ⊢
  cases hres : approveTransactionTry E fault transactionId signerAddress signature db with
  | error e' => rfl
  | ok r => rw [hres] at h; cases h

/-- One statement after the other on a connection. -/
theorem OnConnection.bind_apply {α β : Type} (m : OnConnection α) (f : α → OnConnection β)
    (c : Connection) :
    (m >>= f) c = match m c with
      | (.ok a, c') => f a c'
      | (.error e, c') => (.error e, c') := rfl

/-- A `return` leaves the connection as it is. -/
theorem OnConnection.pure_apply {α : Type} (a : α) (c : Connection) :
    (pure a : OnConnection α) c = (.ok a, c) := rfl

/-- A `throw` leaves the connection as it is. -/
theorem OnConnection.throw_apply {α : Type} (e : WalletError) (c : Connection) :
    (throw e : OnConnection α) c = (.error e, c) := rfl

/-- The `catch` runs on the connection as the `try` block left it. -/
theorem OnConnection.tryCatch_apply {α : Type} (m : OnConnection α)
    (handler : WalletError → OnConnection α) (c : Connection) :
    (tryCatch m handler) c = match m c with
      | (.ok a, c') => (.ok a, c')
      | (.error e, c') => handler e c' := rfl

/-- A statement on a connection with an open transaction reads and writes the view of
that transaction; what is committed stays. -/
theorem onConnection_open {α : Type} (fault : Faults) (k : Nat)
    (effect : Db → Except WalletError (α × Db)) (d w : Db) :
    onConnection fault k effect ⟨d, some w⟩ =
      if fault k then (.error (.database "ER_STATEMENT_FAILED"), ⟨d, some w⟩)
      else match effect w with
        | .ok (a, w') => (.ok a, ⟨d, some w'⟩)
        | .error e => (.error e, ⟨d, some w⟩) := by
  simp only [onConnection, Connection.view, Connection.write, Option.getD_some]

/-- A commit on a connection with an open transaction makes its view the committed
database. -/
theorem commit_open (fault : Faults) (k : Nat) (d w : Db) :
    commit fault k ⟨d, some w⟩ =
      if fault k then (.error (.database "ER_STATEMENT_FAILED"), ⟨d, some w⟩)
      else (.ok (), ⟨w, none⟩) := by
  simp only [commit, Connection.view, Option.getD_some]

/-- On a connection without an open transaction, whose `beginTransaction` succeeds,
`createWallet` with its statements, its `commit` and its `catch` written out returns
what `createWallet` returns and commits the database `createWallet` gives. -/
theorem createWalletOn_eq (fault : Faults) (username publicKey : String) (db : Db) :
    createWalletOn false fault username publicKey ⟨db, none⟩ =
      ((createWallet fault username publicKey db).1,
        ⟨(createWallet fault username publicKey db).2, none⟩) := by
  simp only [createWalletOn, createWalletTryOn, createWallet, createWalletTry, OnConnection.tryCatch_apply, OnConnection.bind_apply, OnConnection.pure_apply,
    OnConnection.throw_apply, beginTransaction, Connection.view, Option.getD_none,
    onConnection_open, commit_open, updateOn, selectOn, rollback, execute, bind, Except.bind,
    pure, Except.pure, Except.map, throw, throwThe, MonadExceptOf.throw, Bool.false_eq_true,
    if_false, if_true]
  by_cases h0 : fault 0 <;> simp only [h0, OnConnection.tryCatch_apply, OnConnection.bind_apply, OnConnection.pure_apply,
    OnConnection.throw_apply, beginTransaction, Connection.view, Option.getD_none,
    onConnection_open, commit_open, updateOn, selectOn, rollback, execute, bind, Except.bind,
    pure, Except.pure, Except.map, throw, throwThe, MonadExceptOf.throw, Bool.false_eq_true,
    if_false, if_true]
  cases hu : insertUser db username with
  | error e => simp only [hu, OnConnection.tryCatch_apply, OnConnection.bind_apply, OnConnection.pure_apply,
    OnConnection.throw_apply, beginTransaction, Connection.view, Option.getD_none,
    onConnection_open, commit_open, updateOn, selectOn, rollback, execute, bind, Except.bind,
    pure, Except.pure, Except.map, throw, throwThe, MonadExceptOf.throw, Bool.false_eq_true,
    if_false, if_true]
  | ok r =>
    simp only [hu, OnConnection.tryCatch_apply, OnConnection.bind_apply, OnConnection.pure_apply,
    OnConnection.throw_apply, beginTransaction, Connection.view, Option.getD_none,
    onConnection_open, commit_open, updateOn, selectOn, rollback, execute, bind, Except.bind,
    pure, Except.pure, Except.map, throw, throwThe, MonadExceptOf.throw, Bool.false_eq_true,
    if_false, if_true]
    by_cases h1 : fault 1 <;> simp only [h1, OnConnection.tryCatch_apply, OnConnection.bind_apply, OnConnection.pure_apply,
    OnConnection.throw_apply, beginTransaction, Connection.view, Option.getD_none,
    onConnection_open, commit_open, updateOn, selectOn, rollback, execute, bind, Except.bind,
    pure, Except.pure, Except.map, throw, throwThe, MonadExceptOf.throw, Bool.false_eq_true,
    if_false, if_true]
    cases hw : insertWallet r.2 r.1 publicKey 100000 with
    | error e => simp only [hw, OnConnection.tryCatch_apply, OnConnection.bind_apply, OnConnection.pure_apply,
    OnConnection.throw_apply, beginTransaction, Connection.view, Option.getD_none,
    onConnection_open, commit_open, updateOn, selectOn, rollback, execute, bind, Except.bind,
    pure, Except.pure, Except.map, throw, throwThe, MonadExceptOf.throw, Bool.false_eq_true,
    if_false, if_true]
    | ok w =>
      simp only [hw, OnConnection.tryCatch_apply, OnConnection.bind_apply, OnConnection.pure_apply,
    OnConnection.throw_apply, beginTransaction, Connection.view, Option.getD_none,
    onConnection_open, commit_open, updateOn, selectOn, rollback, execute, bind, Except.bind,
    pure, Except.pure, Except.map, throw, throwThe, MonadExceptOf.throw, Bool.false_eq_true,
    if_false, if_true]
      by_cases h2 : fault 2 <;> simp only [h2, OnConnection.tryCatch_apply, OnConnection.bind_apply, OnConnection.pure_apply,
    OnConnection.throw_apply, beginTransaction, Connection.view, Option.getD_none,
    onConnection_open, commit_open, updateOn, selectOn, rollback, execute, bind, Except.bind,
    pure, Except.pure, Except.map, throw, throwThe, MonadExceptOf.throw, Bool.false_eq_true,
    if_false, if_true]

/-- On a connection without an open transaction, whose `beginTransaction` succeeds,
`transferFunds` with its statements, its `commit` and its `catch` written out returns
what `transferFunds` returns and commits the database `transferFunds` gives. -/
theorem transferFundsOn_eq (fault : Faults) (fromAddress toAddress : String)
    (amount : JsNumber) (signature signerAddress : String) (db : Db) :
    transferFundsOn false fault fromAddress toAddress amount signature signerAddress
        ⟨db, none⟩ =
      ((transferFunds fault fromAddress toAddress amount signature signerAddress db).1,
        ⟨(transferFunds fault fromAddress toAddress amount signature signerAddress db).2,
          none⟩) := by
  simp only [transferFundsOn, transferFundsTryOn, transferFunds, transferFundsTry, OnConnection.tryCatch_apply, OnConnection.bind_apply, OnConnection.pure_apply,
    OnConnection.throw_apply, beginTransaction, Connection.view, Option.getD_none,
    onConnection_open, commit_open, updateOn, selectOn, rollback, execute, bind, Except.bind,
    pure, Except.pure, Except.map, throw, throwThe, MonadExceptOf.throw, Bool.false_eq_true,
    if_false, if_true]
  by_cases h0 : fault 0 <;> simp only [h0, OnConnection.tryCatch_apply, OnConnection.bind_apply, OnConnection.pure_apply,
    OnConnection.throw_apply, beginTransaction, Connection.view, Option.getD_none,
    onConnection_open, commit_open, updateOn, selectOn, rollback, execute, bind, Except.bind,
    pure, Except.pure, Except.map, throw, throwThe, MonadExceptOf.throw, Bool.false_eq_true,
    if_false, if_true]
  cases hrows : selectWallets db fromAddress with
  | nil => simp only [hrows, OnConnection.tryCatch_apply, OnConnection.bind_apply, OnConnection.pure_apply,
    OnConnection.throw_apply, beginTransaction, Connection.view, Option.getD_none,
    onConnection_open, commit_open, updateOn, selectOn, rollback, execute, bind, Except.bind,
    pure, Except.pure, Except.map, throw, throwThe, MonadExceptOf.throw, Bool.false_eq_true,
    if_false, if_true]
  | cons wallet rest =>
    simp only [hrows, OnConnection.tryCatch_apply, OnConnection.bind_apply, OnConnection.pure_apply,
    OnConnection.throw_apply, beginTransaction, Connection.view, Option.getD_none,
    onConnection_open, commit_open, updateOn, selectOn, rollback, execute, bind, Except.bind,
    pure, Except.pure, Except.map, throw, throwThe, MonadExceptOf.throw, Bool.false_eq_true,
    if_false, if_true]
    by_cases h1 : fault 1 <;> simp only [h1, OnConnection.tryCatch_apply, OnConnection.bind_apply, OnConnection.pure_apply,
    OnConnection.throw_apply, beginTransaction, Connection.view, Option.getD_none,
    onConnection_open, commit_open, updateOn, selectOn, rollback, execute, bind, Except.bind,
    pure, Except.pure, Except.map, throw, throwThe, MonadExceptOf.throw, Bool.false_eq_true,
    if_false, if_true]
    by_cases hrec : (selectWallets db toAddress).length = 0 <;> simp only [hrec, OnConnection.tryCatch_apply, OnConnection.bind_apply, OnConnection.pure_apply,
    OnConnection.throw_apply, beginTransaction, Connection.view, Option.getD_none,
    onConnection_open, commit_open, updateOn, selectOn, rollback, execute, bind, Except.bind,
    pure, Except.pure, Except.map, throw, throwThe, MonadExceptOf.throw, Bool.false_eq_true,
    if_false, if_true]
    by_cases hlt : JsNumber.lt (.finite wallet.balance) amount = true <;> simp only [hlt, OnConnection.tryCatch_apply, OnConnection.bind_apply, OnConnection.pure_apply,
    OnConnection.throw_apply, beginTransaction, Connection.view, Option.getD_none,
    onConnection_open, commit_open, updateOn, selectOn, rollback, execute, bind, Except.bind,
    pure, Except.pure, Except.map, throw, throwThe, MonadExceptOf.throw, Bool.false_eq_true,
    if_false, if_true]
    by_cases h2 : fault 2 <;> simp only [h2, OnConnection.tryCatch_apply, OnConnection.bind_apply, OnConnection.pure_apply,
    OnConnection.throw_apply, beginTransaction, Connection.view, Option.getD_none,
    onConnection_open, commit_open, updateOn, selectOn, rollback, execute, bind, Except.bind,
    pure, Except.pure, Except.map, throw, throwThe, MonadExceptOf.throw, Bool.false_eq_true,
    if_false, if_true]
    cases hdec : decimalParam amount with
    | error e => simp only [hdec, OnConnection.tryCatch_apply, OnConnection.bind_apply, OnConnection.pure_apply,
    OnConnection.throw_apply, beginTransaction, Connection.view, Option.getD_none,
    onConnection_open, commit_open, updateOn, selectOn, rollback, execute, bind, Except.bind,
    pure, Except.pure, Except.map, throw, throwThe, MonadExceptOf.throw, Bool.false_eq_true,
    if_false, if_true]
    | ok stored =>
      simp only [hdec, OnConnection.tryCatch_apply, OnConnection.bind_apply, OnConnection.pure_apply,
    OnConnection.throw_apply, beginTransaction, Connection.view, Option.getD_none,
    onConnection_open, commit_open, updateOn, selectOn, rollback, execute, bind, Except.bind,
    pure, Except.pure, Except.map, throw, throwThe, MonadExceptOf.throw, Bool.false_eq_true,
    if_false, if_true]
      by_cases h3 : fault 3 <;> simp only [h3, OnConnection.tryCatch_apply, OnConnection.bind_apply, OnConnection.pure_apply,
    OnConnection.throw_apply, beginTransaction, Connection.view, Option.getD_none,
    onConnection_open, commit_open, updateOn, selectOn, rollback, execute, bind, Except.bind,
    pure, Except.pure, Except.map, throw, throwThe, MonadExceptOf.throw, Bool.false_eq_true,
    if_false, if_true]
      by_cases hst : initialStatus wallet = .completed <;> simp only [hst, OnConnection.tryCatch_apply, OnConnection.bind_apply, OnConnection.pure_apply,
    OnConnection.throw_apply, beginTransaction, Connection.view, Option.getD_none,
    onConnection_open, commit_open, updateOn, selectOn, rollback, execute, bind, Except.bind,
    pure, Except.pure, Except.map, throw, throwThe, MonadExceptOf.throw, Bool.false_eq_true,
    if_false, if_true]
      · by_cases h4 : fault 4 <;> simp only [h4, OnConnection.tryCatch_apply, OnConnection.bind_apply, OnConnection.pure_apply,
    OnConnection.throw_apply, beginTransaction, Connection.view, Option.getD_none,
    onConnection_open, commit_open, updateOn, selectOn, rollback, execute, bind, Except.bind,
    pure, Except.pure, Except.map, throw, throwThe, MonadExceptOf.throw, Bool.false_eq_true,
    if_false, if_true]
        by_cases h5 : fault 5 <;> simp only [h5, OnConnection.tryCatch_apply, OnConnection.bind_apply, OnConnection.pure_apply,
    OnConnection.throw_apply, beginTransaction, Connection.view, Option.getD_none,
    onConnection_open, commit_open, updateOn, selectOn, rollback, execute, bind, Except.bind,
    pure, Except.pure, Except.map, throw, throwThe, MonadExceptOf.throw, Bool.false_eq_true,
    if_false, if_true]
        by_cases h6 : fault 6 <;> simp only [h6, OnConnection.tryCatch_apply, OnConnection.bind_apply, OnConnection.pure_apply,
    OnConnection.throw_apply, beginTransaction, Connection.view, Option.getD_none,
    onConnection_open, commit_open, updateOn, selectOn, rollback, execute, bind, Except.bind,
    pure, Except.pure, Except.map, throw, throwThe, MonadExceptOf.throw, Bool.false_eq_true,
    if_false, if_true]
      · by_cases h6 : fault 6 <;> simp only [h6, OnConnection.tryCatch_apply, OnConnection.bind_apply, OnConnection.pure_apply,
    OnConnection.throw_apply, beginTransaction, Connection.view, Option.getD_none,
    onConnection_open, commit_open, updateOn, selectOn, rollback, execute, bind, Except.bind,
    pure, Except.pure, Except.map, throw, throwThe, MonadExceptOf.throw, Bool.false_eq_true,
    if_false, if_true]

/-- On a connection without an open transaction, whose `beginTransaction` succeeds,
`approveTransaction` with its statements, its `commit` and its `catch` written out
returns what `approveTransaction` returns and commits the database `approveTransaction`
gives. -/
theorem approveTransactionOn_eq {Key : Type} (E : Crypto Key) (fault : Faults)
    (transactionId : Nat) (signerAddress signature : String) (db : Db) :
    approveTransactionOn E false fault transactionId signerAddress signature ⟨db, none⟩ =
      ((approveTransaction E fault transactionId signerAddress signature db).1,
        ⟨(approveTransaction E fault transactionId signerAddress signature db).2, none⟩) := by
  simp only [approveTransactionOn, approveTransactionTryOn, approveTransaction,
    approveTransactionTry, OnConnection.tryCatch_apply, OnConnection.bind_apply, OnConnection.pure_apply,
    OnConnection.throw_apply, beginTransaction, Connection.view, Option.getD_none,
    onConnection_open, commit_open, updateOn, selectOn, rollback, execute, bind, Except.bind,
    pure, Except.pure, Except.map, throw, throwThe, MonadExceptOf.throw, Bool.false_eq_true,
    if_false, if_true]
  by_cases h0 : fault 0 <;> simp only [h0, OnConnection.tryCatch_apply, OnConnection.bind_apply, OnConnection.pure_apply,
    OnConnection.throw_apply, beginTransaction, Connection.view, Option.getD_none,
    onConnection_open, commit_open, updateOn, selectOn, rollback, execute, bind, Except.bind,
    pure, Except.pure, Except.map, throw, throwThe, MonadExceptOf.throw, Bool.false_eq_true,
    if_false, if_true]
  cases hrows : selectTransactions db transactionId with
  | nil => simp only [hrows, OnConnection.tryCatch_apply, OnConnection.bind_apply, OnConnection.pure_apply,
    OnConnection.throw_apply, beginTransaction, Connection.view, Option.getD_none,
    onConnection_open, commit_open, updateOn, selectOn, rollback, execute, bind, Except.bind,
    pure, Except.pure, Except.map, throw, throwThe, MonadExceptOf.throw, Bool.false_eq_true,
    if_false, if_true]
  | cons transaction rest =>
    simp only [hrows, OnConnection.tryCatch_apply, OnConnection.bind_apply, OnConnection.pure_apply,
    OnConnection.throw_apply, beginTransaction, Connection.view, Option.getD_none,
    onConnection_open, commit_open, updateOn, selectOn, rollback, execute, bind, Except.bind,
    pure, Except.pure, Except.map, throw, throwThe, MonadExceptOf.throw, Bool.false_eq_true,
    if_false, if_true]
    by_cases hp : transaction.status = .pending <;>
      simp only [hp, ne_eq, not_true_eq_false, not_false_eq_true, OnConnection.tryCatch_apply, OnConnection.bind_apply, OnConnection.pure_apply,
    OnConnection.throw_apply, beginTransaction, Connection.view, Option.getD_none,
    onConnection_open, commit_open, updateOn, selectOn, rollback, execute, bind, Except.bind,
    pure, Except.pure, Except.map, throw, throwThe, MonadExceptOf.throw, Bool.false_eq_true,
    if_false, if_true]
    cases hv : verifySignature E signerAddress (storedTxData transaction) signature with
    | error e => simp only [hv, Except.mapError, OnConnection.tryCatch_apply, OnConnection.bind_apply, OnConnection.pure_apply,
    OnConnection.throw_apply, beginTransaction, Connection.view, Option.getD_none,
    onConnection_open, commit_open, updateOn, selectOn, rollback, execute, bind, Except.bind,
    pure, Except.pure, Except.map, throw, throwThe, MonadExceptOf.throw, Bool.false_eq_true,
    if_false, if_true]
    | ok valid =>
      cases valid with
      | false => simp only [hv, Except.mapError, Bool.not_false, OnConnection.tryCatch_apply, OnConnection.bind_apply, OnConnection.pure_apply,
    OnConnection.throw_apply, beginTransaction, Connection.view, Option.getD_none,
    onConnection_open, commit_open, updateOn, selectOn, rollback, execute, bind, Except.bind,
    pure, Except.pure, Except.map, throw, throwThe, MonadExceptOf.throw, Bool.false_eq_true,
    if_false, if_true]
      | true =>
        simp only [hv, Except.mapError, Bool.not_true, OnConnection.tryCatch_apply, OnConnection.bind_apply, OnConnection.pure_apply,
    OnConnection.throw_apply, beginTransaction, Connection.view, Option.getD_none,
    onConnection_open, commit_open, updateOn, selectOn, rollback, execute, bind, Except.bind,
    pure, Except.pure, Except.map, throw, throwThe, MonadExceptOf.throw, Bool.false_eq_true,
    if_false, if_true]
        by_cases h1 : fault 1 <;> simp only [h1, OnConnection.tryCatch_apply, OnConnection.bind_apply, OnConnection.pure_apply,
    OnConnection.throw_apply, beginTransaction, Connection.view, Option.getD_none,
    onConnection_open, commit_open, updateOn, selectOn, rollback, execute, bind, Except.bind,
    pure, Except.pure, Except.map, throw, throwThe, MonadExceptOf.throw, Bool.false_eq_true,
    if_false, if_true]
        by_cases h2 : fault 2 <;> simp only [h2, OnConnection.tryCatch_apply, OnConnection.bind_apply, OnConnection.pure_apply,
    OnConnection.throw_apply, beginTransaction, Connection.view, Option.getD_none,
    onConnection_open, commit_open, updateOn, selectOn, rollback, execute, bind, Except.bind,
    pure, Except.pure, Except.map, throw, throwThe, MonadExceptOf.throw, Bool.false_eq_true,
    if_false, if_true]
        by_cases hdup : ((selectSignatures db transactionId).filter
            fun r => r.signer_public_key == signerAddress).length > 0 <;>
          simp only [hdup, OnConnection.tryCatch_apply, OnConnection.bind_apply, OnConnection.pure_apply,
    OnConnection.throw_apply, beginTransaction, Connection.view, Option.getD_none,
    onConnection_open, commit_open, updateOn, selectOn, rollback, execute, bind, Except.bind,
    pure, Except.pure, Except.map, throw, throwThe, MonadExceptOf.throw, Bool.false_eq_true,
    if_false, if_true]
        by_cases h3 : fault 3 <;> simp only [h3, OnConnection.tryCatch_apply, OnConnection.bind_apply, OnConnection.pure_apply,
    OnConnection.throw_apply, beginTransaction, Connection.view, Option.getD_none,
    onConnection_open, commit_open, updateOn, selectOn, rollback, execute, bind, Except.bind,
    pure, Except.pure, Except.map, throw, throwThe, MonadExceptOf.throw, Bool.false_eq_true,
    if_false, if_true]
        by_cases h4 : fault 4 <;> simp only [h4, OnConnection.tryCatch_apply, OnConnection.bind_apply, OnConnection.pure_apply,
    OnConnection.throw_apply, beginTransaction, Connection.view, Option.getD_none,
    onConnection_open, commit_open, updateOn, selectOn, rollback, execute, bind, Except.bind,
    pure, Except.pure, Except.map, throw, throwThe, MonadExceptOf.throw, Bool.false_eq_true,
    if_false, if_true]
        cases hw : (selectWallets db transaction.from_wallet).head? with
        | none => simp only [hw, OnConnection.tryCatch_apply, OnConnection.bind_apply, OnConnection.pure_apply,
    OnConnection.throw_apply, beginTransaction, Connection.view, Option.getD_none,
    onConnection_open, commit_open, updateOn, selectOn, rollback, execute, bind, Except.bind,
    pure, Except.pure, Except.map, throw, throwThe, MonadExceptOf.throw, Bool.false_eq_true,
    if_false, if_true]
        | some wallet =>
          simp only [hw, OnConnection.tryCatch_apply, OnConnection.bind_apply, OnConnection.pure_apply,
    OnConnection.throw_apply, beginTransaction, Connection.view, Option.getD_none,
    onConnection_open, commit_open, updateOn, selectOn, rollback, execute, bind, Except.bind,
    pure, Except.pure, Except.map, throw, throwThe, MonadExceptOf.throw, Bool.false_eq_true,
    if_false, if_true]
          by_cases hq : (selectSignatures (insertSignature db transactionId signerAddress
              signature) transactionId).length ≥ wallet.required_signatures <;>
            simp only [hq, OnConnection.tryCatch_apply, OnConnection.bind_apply, OnConnection.pure_apply,
    OnConnection.throw_apply, beginTransaction, Connection.view, Option.getD_none,
    onConnection_open, commit_open, updateOn, selectOn, rollback, execute, bind, Except.bind,
    pure, Except.pure, Except.map, throw, throwThe, MonadExceptOf.throw, Bool.false_eq_true,
    if_false, if_true]
          · by_cases h5 : fault 5 <;> simp only [h5, OnConnection.tryCatch_apply, OnConnection.bind_apply, OnConnection.pure_apply,
    OnConnection.throw_apply, beginTransaction, Connection.view, Option.getD_none,
    onConnection_open, commit_open, updateOn, selectOn, rollback, execute, bind, Except.bind,
    pure, Except.pure, Except.map, throw, throwThe, MonadExceptOf.throw, Bool.false_eq_true,
    if_false, if_true]
            by_cases h6 : fault 6 <;> simp only [h6, OnConnection.tryCatch_apply, OnConnection.bind_apply, OnConnection.pure_apply,
    OnConnection.throw_apply, beginTransaction, Connection.view, Option.getD_none,
    onConnection_open, commit_open, updateOn, selectOn, rollback, execute, bind, Except.bind,
    pure, Except.pure, Except.map, throw, throwThe, MonadExceptOf.throw, Bool.false_eq_true,
    if_false, if_true]
            by_cases h7 : fault 7 <;> simp only [h7, OnConnection.tryCatch_apply, OnConnection.bind_apply, OnConnection.pure_apply,
    OnConnection.throw_apply, beginTransaction, Connection.view, Option.getD_none,
    onConnection_open, commit_open, updateOn, selectOn, rollback, execute, bind, Except.bind,
    pure, Except.pure, Except.map, throw, throwThe, MonadExceptOf.throw, Bool.false_eq_true,
    if_false, if_true]
            by_cases h8 : fault 8 <;> simp only [h8, OnConnection.tryCatch_apply, OnConnection.bind_apply, OnConnection.pure_apply,
    OnConnection.throw_apply, beginTransaction, Connection.view, Option.getD_none,
    onConnection_open, commit_open, updateOn, selectOn, rollback, execute, bind, Except.bind,
    pure, Except.pure, Except.map, throw, throwThe, MonadExceptOf.throw, Bool.false_eq_true,
    if_false, if_true]
          · by_cases h8 : fault 8 <;> simp only [h8, OnConnection.tryCatch_apply, OnConnection.bind_apply, OnConnection.pure_apply,
    OnConnection.throw_apply, beginTransaction, Connection.view, Option.getD_none,
    onConnection_open, commit_open, updateOn, selectOn, rollback, execute, bind, Except.bind,
    pure, Except.pure, Except.map, throw, throwThe, MonadExceptOf.throw, Bool.false_eq_true,
    if_false, if_true]

/-- C18: for each of `createWallet`, `transferFunds` and `approveTransaction`, run on a
connection of the pool with its `try` block (from `beginTransaction` through every
statement to `commit`) and its `catch` (`rollback`, rethrow): whether `beginTransaction`
fails or not and whichever statements fail, if the call fails, by a domain error, by a
failing statement (also one that comes after earlier writes of the same call) or by a
failing `commit`, then the committed database after the call is exactly the database
before it (users, wallets, transactions and signature records as they were) and no
transaction is left open on the connection. -/
theorem failed_call_restores_database {Key : Type} (E : Crypto Key) :
    (∀ (beginFails : Bool) (fault : Faults) (username publicKey : String) (db : Db)
        (e : WalletError),
      (createWalletOn beginFails fault username publicKey ⟨db, none⟩).1 = .error e →
      (createWalletOn beginFails fault username publicKey ⟨db, none⟩).2 = ⟨db, none⟩) ∧
    (∀ (beginFails : Bool) (fault : Faults) (fromAddress toAddress : String)
        (amount : JsNumber) (signature signerAddress : String) (db : Db) (e : WalletError),
      (transferFundsOn beginFails fault fromAddress toAddress amount signature signerAddress
        ⟨db, none⟩).1 = .error e →
      (transferFundsOn beginFails fault fromAddress toAddress amount signature signerAddress
        ⟨db, none⟩).2 = ⟨db, none⟩) ∧
    (∀ (beginFails : Bool) (fault : Faults) (transactionId : Nat)
        (signerAddress signature : String) (db : Db) (e : WalletError),
      (approveTransactionOn E beginFails fault transactionId signerAddress signature
        ⟨db, none⟩).1 = .error e →
      (approveTransactionOn E beginFails fault transactionId signerAddress signature
        ⟨db, none⟩).2 = ⟨db, none⟩) := by
  refine ⟨?_, ?_, ?_⟩
  · intro beginFails fault username publicKey db e h
    cases beginFails with
    | true => rfl
    | false =>
      rw [createWalletOn_eq] at h ⊢
      rw [createWallet_error_unchanged fault username publicKey db e h]
  · intro beginFails fault fromAddress toAddress amount signature signerAddress db e h
    cases beginFails with
    | true => rfl
    | false =>
      rw [transferFundsOn_eq] at h ⊢
      rw [transferFunds_error_unchanged fault fromAddress toAddress amount signature
        signerAddress db e h]
  · intro beginFails fault transactionId signerAddress signature db e h
    cases beginFails with
    | true => rfl
    | false =>
      rw [approveTransactionOn_eq] at h ⊢
      rw [approveTransaction_error_unchanged E fault transactionId signerAddress signature db
        e h]

set_option maxRecDepth 100000 in
/-- C18 on worked examples: `createWallet` whose wallet insert fails after the user
insert; a single-signature `transferFunds` whose credit fails after the transaction row,
the signature record and the debit; `approveTransaction` whose status update fails after
the signature record, the debit and the credit, and one whose `commit` fails; an approval
refused as a duplicate; and a call whose `beginTransaction` fails.  Each leaves the
committed database as it was and no transaction open, though the `try` block alone leaves
an open transaction whose view has the earlier writes, and the same calls without a
failing statement commit a changed database. -/
theorem failed_call_restores_database_witness :
    createWalletOn false (fun k => k == 1) "Dana" "04dd" ⟨demoDb, none⟩ =
        (.error (.database "ER_STATEMENT_FAILED"), ⟨demoDb, none⟩) ∧
      (createWalletTryOn false (fun k => k == 1) "Dana" "04dd" ⟨demoDb, none⟩).2 =
        ⟨demoDb, some { demoDb with users := demoDb.users ++ [⟨demoDb.nextUserId, "Dana"⟩]
                                    nextUserId := demoDb.nextUserId + 1 }⟩ ∧
      (createWalletOn false noFault "Dana" "04dd" ⟨demoDb, none⟩).2 ≠ ⟨demoDb, none⟩ ∧
      transferFundsOn false (fun k => k == 5) "04aa" "04bb" (.finite 2500) signatureA "04aa"
          ⟨demoDb, none⟩ = (.error (.database "ER_STATEMENT_FAILED"), ⟨demoDb, none⟩) ∧
      (transferFundsTryOn false (fun k => k == 5) "04aa" "04bb" (.finite 2500) signatureA
          "04aa" ⟨demoDb, none⟩).2 =
        ⟨demoDb, some (updateBalance (insertSignature (insertTransaction demoDb "04aa" "04bb"
          2500 signatureA .completed).2 demoDb.nextTransactionId "04aa" signatureA) "04aa"
          (-2500))⟩ ∧
      (transferFundsOn false noFault "04aa" "04bb" (.finite 2500) signatureA "04aa"
          ⟨demoDb, none⟩).2 ≠ ⟨demoDb, none⟩ ∧
      approveTransactionOn demoCrypto false (fun k => k == 7) 1 "04dd" signatureD
          ⟨pendingDb, none⟩ = (.error (.database "ER_STATEMENT_FAILED"), ⟨pendingDb, none⟩) ∧
      (approveTransactionTryOn demoCrypto false (fun k => k == 7) 1 "04dd" signatureD
          ⟨pendingDb, none⟩).2.committed = pendingDb ∧
      (approveTransactionTryOn demoCrypto false (fun k => k == 7) 1 "04dd" signatureD
          ⟨pendingDb, none⟩).2.working ≠ some pendingDb ∧
      approveTransactionOn demoCrypto false (fun k => k == 8) 1 "04dd" signatureD
          ⟨pendingDb, none⟩ = (.error (.database "ER_STATEMENT_FAILED"), ⟨pendingDb, none⟩) ∧
      (approveTransactionOn demoCrypto false noFault 1 "04dd" signatureD
          ⟨pendingDb, none⟩).2 ≠ ⟨pendingDb, none⟩ ∧
      approveTransactionOn demoCrypto false noFault 1 "04cc" signatureC ⟨pendingDb, none⟩ =
        (.error .duplicateSigner, ⟨pendingDb, none⟩) ∧
      approveTransactionOn demoCrypto true noFault 1 "04dd" signatureD ⟨pendingDb, none⟩ =
        (.error (.database "ER_STATEMENT_FAILED"), ⟨pendingDb, none⟩) :=
  have h := failed_call_restores_database demoCrypto
  have h1 : (createWalletOn false (fun k => k == 1) "Dana" "04dd" ⟨demoDb, none⟩).1 =
      .error (.database "ER_STATEMENT_FAILED") := by decide
  have h2 : (transferFundsOn false (fun k => k == 5) "04aa" "04bb" (.finite 2500) signatureA
      "04aa" ⟨demoDb, none⟩).1 = .error (.database "ER_STATEMENT_FAILED") := by decide
  have h3 : (approveTransactionOn demoCrypto false (fun k => k == 7) 1 "04dd" signatureD
      ⟨pendingDb, none⟩).1 = .error (.database "ER_STATEMENT_FAILED") := by decide
  have h4 : (approveTransactionOn demoCrypto false (fun k => k == 8) 1 "04dd" signatureD
      ⟨pendingDb, none⟩).1 = .error (.database "ER_STATEMENT_FAILED") := by decide
  have h5 : (approveTransactionOn demoCrypto false noFault 1 "04cc" signatureC
      ⟨pendingDb, none⟩).1 = .error .duplicateSigner := by decide
  have h6 : (approveTransactionOn demoCrypto true noFault 1 "04dd" signatureD
      ⟨pendingDb, none⟩).1 = .error (.database "ER_STATEMENT_FAILED") := by decide
  ⟨Prod.ext h1 (h.1 _ _ _ _ _ _ h1), by decide, by decide,
    Prod.ext h2 (h.2.1 _ _ _ _ _ _ _ _ _ h2), by decide, by decide,
    Prod.ext h3 (h.2.2 _ _ _ _ _ _ _ h3), by decide, by decide,
    Prod.ext h4 (h.2.2 _ _ _ _ _ _ _ h4), by decide,
    Prod.ext h5 (h.2.2 _ _ _ _ _ _ _ h5), Prod.ext h6 (h.2.2 _ _ _ _ _ _ _ h6)⟩

/-! ## What a pending transfer stores -/

/-- C19: when `transferFunds` returns the status `pending`, whichever database calls fail
in other runs: the amount is finite, the returned id is the new row's, the users and the
wallets (with every balance) are as before, the transactions are the old ones and one new
row with the given `from`, `to`, amount and signature and the status `pending`, and the
signature records are the old ones and one new record for the new id and
`signerAddress`. -/
theorem transferFunds_pending_stores (fault : Faults) (fromAddress toAddress : String)
    (amount : JsNumber) (signature signerAddress : String) (db : Db) (result : TransferResult)
    (hok : (transferFunds fault fromAddress toAddress amount signature signerAddress db).1 =
      .ok result)
    (hpending : result.status = .pending) :
    ∃ stored, amount = .finite stored ∧ result.transactionId = db.nextTransactionId ∧
      (transferFunds fault fromAddress toAddress amount signature signerAddress db).2.users =
        db.users ∧
      (transferFunds fault fromAddress toAddress amount signature signerAddress db).2.wallets =
        db.wallets ∧
      (transferFunds fault fromAddress toAddress amount signature signerAddress
          db).2.transactions =
        db.transactions ++ [⟨db.nextTransactionId, fromAddress, toAddress, stored, signature,
          .pending, db.now⟩] ∧
      (transferFunds fault fromAddress toAddress amount signature signerAddress
          db).2.transaction_signatures =
        db.transaction_signatures ++ [⟨db.nextTransactionId, signerAddress, signature⟩] := by
  unfold transferFunds at hok ⊢
  cases hres : transferFundsTry fault fromAddress toAddress amount signature signerAddress
      db with
  | error e => rw [hres] at hok; cases hok
  | ok out =>
    obtain ⟨result', db'⟩ := out
    rw [hres] at hok
    simp only [Except.ok.injEq] at hok
    subst hok
    obtain ⟨wallet, rest, stored, _, _, hamount, _, hresult, hdb⟩ :=
      transferFundsTry_eq_ok fault fromAddress toAddress amount signature signerAddress db
        result' db' hres
    have hst : initialStatus wallet = .pending := by
      rw [hresult] at hpending
      exact hpending
    rw [hst] at hdb
    simp only [reduceCtorEq, if_false] at hdb
    subst hdb
    exact ⟨stored, hamount, by rw [hresult], rfl, rfl, rfl, rfl⟩

/-- C19 on the worked example: wallet C's transfer of 100.00 to B returns `pending` and
adds transaction 1 and its first signature record; the three wallets are untouched. -/
theorem transferFunds_pending_stores_witness :
    (transferFunds noFault "04cc" "04bb" (.finite 10000) signatureC "04cc" demoDb).1 =
        .ok ⟨1, .pending⟩ ∧
      ∃ stored, JsNumber.finite 10000 = .finite stored ∧ (1 : Nat) = demoDb.nextTransactionId ∧
        (transferFunds noFault "04cc" "04bb" (.finite 10000) signatureC "04cc" demoDb).2.users =
          demoDb.users ∧
        (transferFunds noFault "04cc" "04bb" (.finite 10000) signatureC "04cc"
            demoDb).2.wallets = [walletA, walletB, walletC] ∧
        (transferFunds noFault "04cc" "04bb" (.finite 10000) signatureC "04cc"
            demoDb).2.transactions =
          [] ++ [⟨1, "04cc", "04bb", stored, signatureC, .pending, 0⟩] ∧
        (transferFunds noFault "04cc" "04bb" (.finite 10000) signatureC "04cc"
            demoDb).2.transaction_signatures = [] ++ [⟨1, "04cc", signatureC⟩] :=
  ⟨by decide, transferFunds_pending_stores noFault "04cc" "04bb" (.finite 10000) signatureC
    "04cc" demoDb ⟨1, .pending⟩ (by decide) rfl⟩

/-! ## Transfers between wallets that are not there -/

/-- C20: `transferFunds` fails with the sender-wallet-not-found error whenever no wallet
has the public key `fromAddress`, whether or not the receiver exists and whatever the
amount; it fails with the receiver-wallet-not-found error whenever a wallet has the key
`fromAddress` and none has the key `toAddress`, whatever the balance and the amount.  In
both cases the database is exactly as before: no transaction row, no signature record,
no balance change.  (The `SELECT`s that look the wallets up are taken to answer.) -/
theorem transferFunds_wallet_not_found (fault : Faults) (fromAddress toAddress : String)
    (amount : JsNumber) (signature signerAddress : String) (db : Db) :
    (fault 0 = false → (∀ w ∈ db.wallets, w.public_key ≠ fromAddress) →
      transferFunds fault fromAddress toAddress amount signature signerAddress db =
        (.error .senderNotFound, db)) ∧
    (fault 0 = false → fault 1 = false → (∃ w ∈ db.wallets, w.public_key = fromAddress) →
      (∀ w ∈ db.wallets, w.public_key ≠ toAddress) →
      transferFunds fault fromAddress toAddress amount signature signerAddress db =
        (.error .receiverNotFound, db)) := by
  have hnone : ∀ k, (∀ w ∈ db.wallets, w.public_key ≠ k) → selectWallets db k = [] := by
    intro k hk
    unfold selectWallets
    rw [List.filter_eq_nil_iff]
    intro w hw
    simpa using hk w hw
  constructor
  · intro h0 hsender
    simp [transferFunds, transferFundsTry, execute, h0, hnone _ hsender, bind, Except.bind,
      pure, Except.pure, throw, throwThe, MonadExceptOf.throw]
  · intro h0 h1 hsender hreceiver
    obtain ⟨w, hw, hkey⟩ := hsender
    have hmem : w ∈ selectWallets db fromAddress :=
      List.mem_filter.mpr ⟨hw, by simpa using hkey⟩
    cases hrows : selectWallets db fromAddress with
    | nil => rw [hrows] at hmem; cases hmem
    | cons wallet rest =>
      simp [transferFunds, transferFundsTry, execute, h0, h1, hrows, hnone _ hreceiver, bind,
        Except.bind, pure, Except.pure, throw, throwThe, MonadExceptOf.throw]

/-- C20 on worked examples in `demoDb`: from the unknown key `04zz` to the existing wallet
B and to the unknown key `04yy`, with an amount of 1.00 and with `NaN`; and from the
existing wallet A, which has 1000.00, to the unknown key `04yy` with an amount of
5000.00. -/
theorem transferFunds_wallet_not_found_witness :
    transferFunds noFault "04zz" "04bb" (.finite 100) "sig" "04zz" demoDb =
        (.error .senderNotFound, demoDb) ∧
      transferFunds noFault "04zz" "04yy" .nan "sig" "04zz" demoDb =
        (.error .senderNotFound, demoDb) ∧
      transferFunds noFault "04aa" "04yy" (.finite 500000) "sig" "04aa" demoDb =
        (.error .receiverNotFound, demoDb) ∧
      WalletError.senderNotFound.message = "Gönderen cüzdan bulunamadı." ∧
      WalletError.receiverNotFound.message = "Alıcı cüzdan bulunamadı." :=
  ⟨(transferFunds_wallet_not_found noFault "04zz" "04bb" (.finite 100) "sig" "04zz" demoDb).1
      rfl (by decide),
    (transferFunds_wallet_not_found noFault "04zz" "04yy" .nan "sig" "04zz" demoDb).1
      rfl (by decide),
    (transferFunds_wallet_not_found noFault "04aa" "04yy" (.finite 500000) "sig" "04aa"
      demoDb).2 rfl rfl ⟨walletA, by decide, by decide⟩ (by decide),
    by decide, by decide⟩

/-! ## `createWallet` -/

/-- C21: for an owner name that no user has and a public key that no wallet has,
`createWallet` (with a database that fails no statement) adds exactly one user, with the
next id and this name, and exactly one wallet, of that user, with this public key and the
balance 1000.00, changes nothing else, and returns the new user's id, the public key and
the balance 1000.00.  When a user already has the owner name it fails, whichever
statements fail, and the database is as before: neither a user nor a wallet is added;
with the first statement answering, the error is `ER_DUP_ENTRY`. -/
theorem createWallet_adds_user_and_wallet (username publicKey : String) (db : Db) :
    ((∀ u ∈ db.users, u.username ≠ username) → (∀ w ∈ db.wallets, w.public_key ≠ publicKey) →
      (createWallet noFault username publicKey db).1 =
          .ok ⟨db.nextUserId, publicKey, 100000⟩ ∧
        (createWallet noFault username publicKey db).2.users =
          db.users ++ [⟨db.nextUserId, username⟩] ∧
        (createWallet noFault username publicKey db).2.wallets =
          db.wallets ++ [⟨db.nextWalletId, db.nextUserId, publicKey, 100000, false, 1⟩] ∧
        (createWallet noFault username publicKey db).2.transactions = db.transactions ∧
        (createWallet noFault username publicKey db).2.transaction_signatures =
          db.transaction_signatures) ∧
    ((∃ u ∈ db.users, u.username = username) →
      (∀ fault : Faults, ∃ e, createWallet fault username publicKey db = (.error e, db)) ∧
      ∀ fault : Faults, fault 0 = false →
        createWallet fault username publicKey db = (.error (.database "ER_DUP_ENTRY"), db)) := by
  constructor
  · intro huser hkey
    have hu : db.users.any (fun u => u.username == username) = false := by
      rw [List.any_eq_false]
      intro u hu
      simpa using huser u hu
    have hw : db.wallets.any (fun w => w.public_key == publicKey) = false := by
      rw [List.any_eq_false]
      intro w hw
      simpa using hkey w hw
    have heval : createWalletTry noFault username publicKey db =
        .ok (⟨db.nextUserId, publicKey, 100000⟩,
          { db with
            users := db.users ++ [⟨db.nextUserId, username⟩]
            wallets := db.wallets ++
              [⟨db.nextWalletId, db.nextUserId, publicKey, 100000, false, 1⟩]
            nextUserId := db.nextUserId + 1
            nextWalletId := db.nextWalletId + 1 }) := by
      simp [createWalletTry, execute, noFault, insertUser, insertWallet, hu, hw, bind,
        Except.bind, pure, Except.pure]
    have hout : createWallet noFault username publicKey db =
        (.ok ⟨db.nextUserId, publicKey, 100000⟩,
          { db with
            users := db.users ++ [⟨db.nextUserId, username⟩]
            wallets := db.wallets ++
              [⟨db.nextWalletId, db.nextUserId, publicKey, 100000, false, 1⟩]
            nextUserId := db.nextUserId + 1
            nextWalletId := db.nextWalletId + 1 }) := by
      simp only [createWallet, heval]
    rw [hout]
    exact ⟨rfl, rfl, rfl, rfl, rfl⟩
  · intro hexists
    have hu : db.users.any (fun u => u.username == username) = true := by
      rw [List.any_eq_true]
      obtain ⟨u, hu, hname⟩ := hexists
      exact ⟨u, hu, by simpa using hname⟩
    constructor
    · intro fault
      cases hres : createWalletTry fault username publicKey db with
      | error e => exact ⟨e, by simp only [createWallet, hres]⟩
      | ok out =>
        obtain ⟨result, db'⟩ := out
        have := (createWalletTry_eq_ok fault username publicKey db result db' hres).1
        rw [hu] at this
        cases this
    · intro fault hfault
      simp [createWallet, createWalletTry, execute, hfault, insertUser, hu, bind, Except.bind]

/-- C21 on the worked example: `Dana` with the key `04dd` gets user 4 and wallet 4 in
`demoDb`; a second `Ahmet` is refused, also with a new key. -/
theorem createWallet_adds_user_and_wallet_witness :
    (createWallet noFault "Dana" "04dd" demoDb).1 = .ok ⟨4, "04dd", 100000⟩ ∧
      (createWallet noFault "Dana" "04dd" demoDb).2.users =
        [⟨1, "Ahmet"⟩, ⟨2, "Bob"⟩, ⟨3, "Company"⟩, ⟨4, "Dana"⟩] ∧
      (createWallet noFault "Dana" "04dd" demoDb).2.wallets =
        [walletA, walletB, walletC, ⟨4, 4, "04dd", 100000, false, 1⟩] ∧
      createWallet noFault "Ahmet" "04dd" demoDb =
        (.error (.database "ER_DUP_ENTRY"), demoDb) :=
  have h := (createWallet_adds_user_and_wallet "Dana" "04dd" demoDb).1 (by decide) (by decide)
  ⟨h.1, h.2.1, h.2.2.1,
    ((createWallet_adds_user_and_wallet "Ahmet" "04dd" demoDb).2
      ⟨⟨1, "Ahmet"⟩, by decide, rfl⟩).2 noFault rfl⟩

/-! ## `getPendingTransaction` -/

/-- C23: with a database that answers, `getPendingTransaction` returns without an error
and leaves the database as it is.  It returns a transaction exactly when some
transaction has the id and is pending: then the row returned has the id and is pending,
and comes with the signer addresses of all signature records of the id; with ids that
are a primary key the row is the transaction of that id.  For an id that no transaction
has and for a transaction that is completed or rejected it returns `null`. -/
theorem getPendingTransaction_pending_only (transactionId : Nat) (db : Db) :
    (getPendingTransaction noFault transactionId db).2 = db ∧
    (∃ detail, (getPendingTransaction noFault transactionId db).1 = .ok detail) ∧
    ((∃ t ∈ db.transactions, t.id = transactionId ∧ t.status = .pending) ↔
      ∃ detail, (getPendingTransaction noFault transactionId db).1 = .ok (some detail)) ∧
    (∀ detail, (getPendingTransaction noFault transactionId db).1 = .ok (some detail) →
      detail.transaction ∈ db.transactions ∧ detail.transaction.id = transactionId ∧
      detail.transaction.status = .pending ∧
      detail.signatures =
        (selectSignatures db transactionId).map fun r => r.signer_public_key) ∧
    (db.TransactionKeys → ∀ t ∈ db.transactions, t.id = transactionId →
      (t.status = .pending →
        (getPendingTransaction noFault transactionId db).1 =
          .ok (some ⟨t, (selectSignatures db transactionId).map fun r => r.signer_public_key⟩)) ∧
      (t.status = .completed ∨ t.status = .rejected →
        (getPendingTransaction noFault transactionId db).1 = .ok none)) ∧
    ((∀ t ∈ db.transactions, t.id ≠ transactionId) →
      (getPendingTransaction noFault transactionId db).1 = .ok none) := by
  have hmem : ∀ t, t ∈ db.transactions.filter
      (fun t => t.id == transactionId && t.status == .pending) ↔
      t ∈ db.transactions ∧ t.id = transactionId ∧ t.status = .pending := by
    intro t
    simp [List.mem_filter]
  have heval : getPendingTransaction noFault transactionId db =
      (match db.transactions.filter
          (fun t => t.id == transactionId && t.status == .pending) with
        | [] => .ok none
        | transaction :: _ => .ok (some ⟨transaction,
            (selectSignatures db transactionId).map fun r => r.signer_public_key⟩), db) := by
    unfold getPendingTransaction
    cases db.transactions.filter (fun t => t.id == transactionId && t.status == .pending) <;>
      simp [execute, noFault, bind, Except.bind, pure, Except.pure]
  rw [heval]
  cases hrows : db.transactions.filter
      (fun t => t.id == transactionId && t.status == .pending) with
  | nil =>
    have hnone : ∀ t ∈ db.transactions, t.id = transactionId → t.status ≠ .pending := by
      intro t ht hid hst
      have := (hmem t).mpr ⟨ht, hid, hst⟩
      rw [hrows] at this
      cases this
    refine ⟨rfl, ⟨none, rfl⟩, ⟨?_, ?_⟩, ?_, ?_, ?_⟩
    · rintro ⟨t, ht, hid, hst⟩
      exact absurd hst (hnone t ht hid)
    · rintro ⟨detail, hd⟩
      cases hd
    · intro detail hd
      cases hd
    · intro _ t ht hid
      exact ⟨fun hst => absurd hst (hnone t ht hid), fun _ => rfl⟩
    · intro _
      rfl
  | cons transaction rest =>
    have hfirst := (hmem transaction).mp (by rw [hrows]; simp)
    refine ⟨rfl, ⟨_, rfl⟩, ⟨?_, ?_⟩, ?_, ?_, ?_⟩
    · intro _
      exact ⟨_, rfl⟩
    · intro _
      exact ⟨transaction, hfirst⟩
    · intro detail hd
      simp only [Except.ok.injEq, Option.some.injEq] at hd
      subst hd
      exact ⟨hfirst.1, hfirst.2.1, hfirst.2.2, rfl⟩
    · intro hkeys t ht hid
      have heq : t = transaction :=
        List.inj_on_of_nodup_map hkeys.1 ht hfirst.1 (by rw [hid, hfirst.2.1])
      subst heq
      refine ⟨fun _ => rfl, ?_⟩
      intro hst
      rcases hst with h | h <;> rw [hfirst.2.2] at h <;> cases h
    · intro hnone
      exact absurd hfirst.2.1 (hnone transaction hfirst.1)

/-- C23 on the worked example `historyDb`: transaction 3 is pending and comes with its
two signers; transaction 1 is completed and transaction 9 does not exist, both give
`null`. -/
theorem getPendingTransaction_pending_only_witness :
    (getPendingTransaction noFault 3 historyDb).1 =
        .ok (some ⟨⟨3, "04cc", "04aa", 700, "s3", .pending, 30⟩, ["04cc", "04dd"]⟩) ∧
      (getPendingTransaction noFault 1 historyDb).1 = .ok none ∧
      (getPendingTransaction noFault 9 historyDb).1 = .ok none :=
  have h3 := (getPendingTransaction_pending_only 3 historyDb).2.2.2.2.1 (by decide)
    ⟨3, "04cc", "04aa", 700, "s3", .pending, 30⟩ (by decide) rfl
  have h1 := (getPendingTransaction_pending_only 1 historyDb).2.2.2.2.1 (by decide)
    ⟨1, "04aa", "04bb", 2500, "s1", .completed, 10⟩ (by decide) rfl
  ⟨(h3.1 rfl).trans (by decide), h1.2 (Or.inl rfl),
    (getPendingTransaction_pending_only 9 historyDb).2.2.2.2.2 (by decide)⟩

/-! ## No call rejects a transaction -/

/-- A step writes no status `rejected`. -/
theorem step_not_rejected {db db' : Db} (h : Step db db')
    (hnone : ∀ t ∈ db.transactions, t.status ≠ .rejected) :
    ∀ t ∈ db'.transactions, t.status ≠ .rejected := by
  cases h with
  | created username publicKey => exact hnone
  | initiated fromAddress toAddress a signature signerAddress wallet rest hrow hstatus =>
    intro t ht
    simp only [insertSignature, insertTransaction, List.mem_append, List.mem_singleton] at ht
    rcases ht with ht | ht
    · exact hnone t ht
    · rw [ht]
      simp
  | transferred fromAddress toAddress a signature signerAddress wallet rest hrow hstatus hbal =>
    intro t ht
    simp only [insertSignature, insertTransaction, updateBalance, List.mem_append,
      List.mem_singleton] at ht
    rcases ht with ht | ht
    · exact hnone t ht
    · rw [ht]
      simp
  | signed transactionId signerAddress signature transaction rest hrow hpending hnew =>
    exact hnone
  | settled transactionId signerAddress signature transaction rest wallet hrow hpending hnew
      hwallet hquorum =>
    intro t ht
    simp only [completeTransaction, updateBalance, insertSignature, List.mem_map] at ht
    obtain ⟨t0, ht0, rfl⟩ := ht
    split_ifs
    · simp
    · exact hnone t0 ht0

/-- The status computed at initiation is `pending` or `completed`. -/
theorem initialStatus_cases (wallet : Wallet) :
    initialStatus wallet = .pending ∨ initialStatus wallet = .completed := by
  unfold initialStatus
  split_ifs
  · exact Or.inl rfl
  · exact Or.inr rfl

/-- C26: from a database with no rejected transaction, after every sequence of
`createWallet`, `transferFunds` and `approveTransaction` calls, successful or failed, no
transaction is rejected; and the status a call of `transferFunds` or of
`approveTransaction` returns is `pending` or `completed`. -/
theorem never_rejected {Key : Type} (E : Crypto Key) (db : Db)
    (hnone : ∀ t ∈ db.transactions, t.status ≠ .rejected) :
    (∀ calls : List Call, ∀ t ∈ (runCalls E calls db).transactions, t.status ≠ .rejected) ∧
    (∀ (fault : Faults) (fromAddress toAddress : String) (amount : JsNumber)
        (signature signerAddress : String) (result : TransferResult),
      (transferFunds fault fromAddress toAddress amount signature signerAddress db).1 =
        .ok result → result.status = .pending ∨ result.status = .completed) ∧
    (∀ (fault : Faults) (transactionId : Nat) (signerAddress signature : String)
        (result : ApproveResult),
      (approveTransaction E fault transactionId signerAddress signature db).1 = .ok result →
      result.status = .pending ∨ result.status = .completed) := by
  refine ⟨?_, ?_, ?_⟩
  · intro calls
    exact runCalls_induction E (fun d => ∀ t ∈ d.transactions, t.status ≠ .rejected)
      (fun d d' hd hstep => step_not_rejected hstep hd) calls db hnone
  · intro fault fromAddress toAddress amount signature signerAddress result h
    unfold transferFunds at h
    cases hres : transferFundsTry fault fromAddress toAddress amount signature signerAddress
        db with
    | error e => rw [hres] at h; cases h
    | ok out =>
      obtain ⟨result', db'⟩ := out
      rw [hres] at h
      simp only [Except.ok.injEq] at h
      subst h
      obtain ⟨wallet, _, _, _, _, _, _, hresult, _⟩ :=
        transferFundsTry_eq_ok fault fromAddress toAddress amount signature signerAddress db
          result' db' hres
      rw [hresult]
      exact initialStatus_cases wallet
  · intro fault transactionId signerAddress signature result h
    unfold approveTransaction at h
    cases hres : approveTransactionTry E fault transactionId signerAddress signature db with
    | error e => rw [hres] at h; cases h
    | ok out =>
      obtain ⟨result', db'⟩ := out
      rw [hres] at h
      simp only [Except.ok.injEq] at h
      subst h
      obtain ⟨_, _, _, _, _, _, _, _, hcase⟩ :=
        approveTransactionTry_eq_ok E fault transactionId signerAddress signature db
          result' db' hres
      rcases hcase with ⟨_, hresult, _⟩ | ⟨_, hresult, _⟩
      · exact Or.inr (by rw [hresult])
      · exact Or.inl (by rw [hresult])

set_option maxRecDepth 100000 in
/-- C26 on the worked session: after `demoCalls` on `demoDb` the statuses are those of two
completed transactions. -/
theorem never_rejected_witness :
    (∀ t ∈ (runCalls demoCrypto demoCalls demoDb).transactions, t.status ≠ .rejected) ∧
      (runCalls demoCrypto demoCalls demoDb).transactions.map (fun t => t.status) =
        [.completed, .completed] :=
  ⟨(never_rejected demoCrypto demoDb (by decide)).1 demoCalls, by decide⟩

/-! ## The sum of all balances -/

/-- A balance update keeps the public keys of the wallet rows. -/
theorem updateBalance_keys (db : Db) (k : String) (d : Int) :
    ((updateBalance db k d).wallets.map fun w => w.public_key) =
      db.wallets.map fun w => w.public_key := by
  simp only [updateBalance, List.map_map]
  apply List.map_congr_left
  intro w _
  simp only [Function.comp_apply]
  split_ifs <;> rfl

/-- A balance update for a key that no wallet has changes no balance. -/
theorem updateBalance_total_absent (db : Db) (k : String) (d : Int)
    (habsent : k ∉ db.wallets.map fun w => w.public_key) :
    totalBalance (updateBalance db k d) = totalBalance db := by
  unfold totalBalance updateBalance
  congr 1
  rw [List.map_map]
  apply List.map_congr_left
  intro w hw
  have hne : w.public_key ≠ k := fun h => habsent (List.mem_map.mpr ⟨w, hw, h⟩)
  simp [hne]

/-- With unique public keys, a balance update for a key that a wallet has changes the sum
of all balances by the amount of the update. -/
theorem updateBalance_total (db : Db) (k : String) (d : Int) (hkeys : db.WalletKeys)
    (hpresent : k ∈ db.wallets.map fun w => w.public_key) :
    totalBalance (updateBalance db k d) = totalBalance db + d := by
  unfold Db.WalletKeys at hkeys
  unfold totalBalance updateBalance
  simp only
  revert hkeys hpresent
  generalize db.wallets = l
  intro hkeys hpresent
  induction l with
  | nil => cases hpresent
  | cons x xs ih =>
    rw [List.map_cons, List.nodup_cons] at hkeys
    by_cases hx : x.public_key = k
    · have habsent : ∀ w ∈ xs, w.public_key ≠ k := by
        intro w hw h
        exact hkeys.1 (List.mem_map.mpr ⟨w, hw, h.trans hx.symm⟩)
      have htail : (xs.map fun w =>
          if w.public_key == k then { w with balance := w.balance + d } else w) = xs := by
        conv_rhs => rw [← List.map_id xs]
        apply List.map_congr_left
        intro w hw
        simp [habsent w hw]
      simp only [List.map_cons, List.sum_cons, htail, hx, beq_self_eq_true, if_true]
      omega
    · have hmem : k ∈ xs.map fun w => w.public_key := by
        rcases List.mem_map.mp hpresent with ⟨w, hw, hwk⟩
        rcases List.mem_cons.mp hw with rfl | hw
        · exact absurd hwk hx
        · exact List.mem_map.mpr ⟨w, hw, hwk⟩
      have := ih hkeys.2 hmem
      simp only [List.map_cons, List.sum_cons, beq_iff_eq, hx, if_false]
      simp only [beq_iff_eq] at this
      omega

/-- With unique public keys, a debit from a wallet that exists and a credit of the same
amount to a wallet that exists leave the sum of all balances as it was. -/
theorem settle_total (db : Db) (f t : String) (a : Int) (hkeys : db.WalletKeys)
    (hf : f ∈ db.wallets.map fun w => w.public_key)
    (ht : t ∈ db.wallets.map fun w => w.public_key) :
    totalBalance (updateBalance (updateBalance db f (-a)) t a) = totalBalance db := by
  have hkeys' : (updateBalance db f (-a)).WalletKeys := by
    unfold Db.WalletKeys
    rw [updateBalance_keys]
    exact hkeys
  rw [updateBalance_total _ t a hkeys' (by rw [updateBalance_keys]; exact ht),
    updateBalance_total db f (-a) hkeys hf]
  omega

/-- The keys of the wallet rows that a lookup returns are in the table. -/
theorem selectWallets_key_mem {db : Db} {publicKey : String}
    (h : selectWallets db publicKey ≠ []) : publicKey ∈ db.wallets.map fun w => w.public_key := by
  cases hrows : selectWallets db publicKey with
  | nil => exact absurd hrows h
  | cons w rest =>
    have hmem : w ∈ selectWallets db publicKey := by rw [hrows]; simp
    have := List.mem_filter.mp hmem
    exact List.mem_map.mpr ⟨w, this.1, by simpa using this.2⟩

/-- A step keeps the public keys unique, keeps a wallet for every receiver, and, unless
it adds a user, keeps the sum of all balances. -/
theorem step_total {db db' : Db} (h : Step db db') (hkeys : db.WalletKeys)
    (hreceivers : db.ReceiversExist) :
    db'.WalletKeys ∧ db'.ReceiversExist ∧
      (db'.users = db.users → totalBalance db' = totalBalance db) := by
  have hrec : ∀ d : Db, (d.wallets.map fun w => w.public_key) =
      (db.wallets.map fun w => w.public_key) →
      ∀ t : Transaction, (t ∈ db.transactions ∨
        t.to_wallet ∈ db.wallets.map fun w => w.public_key) →
      ∃ w ∈ d.wallets, w.public_key = t.to_wallet := by
    intro d hd t ht
    have hmem : t.to_wallet ∈ d.wallets.map fun w => w.public_key := by
      rw [hd]
      rcases ht with ht | ht
      · obtain ⟨w, hw, hwk⟩ := hreceivers t ht
        exact List.mem_map.mpr ⟨w, hw, hwk⟩
      · exact ht
    obtain ⟨w, hw, hwk⟩ := List.mem_map.mp hmem
    exact ⟨w, hw, hwk⟩
  cases h with
  | created username publicKey huser hkey =>
    refine ⟨?_, ?_, ?_⟩
    · unfold Db.WalletKeys at hkeys ⊢
      simp only [List.map_append, List.map_cons, List.map_nil]
      rw [List.nodup_append]
      refine ⟨hkeys, by simp, ?_⟩
      intro k hk hk'
      simp only [List.mem_singleton] at hk'
      subst hk'
      obtain ⟨w, hw, hwk⟩ := List.mem_map.mp hk
      rw [List.any_eq_false] at hkey
      exact hkey w hw (by simpa using hwk)
    · intro t ht
      obtain ⟨w, hw, hwk⟩ := hreceivers t ht
      exact ⟨w, List.mem_append_left _ hw, hwk⟩
    · intro husers
      simp at husers
  | initiated fromAddress toAddress a signature signerAddress wallet rest hrow hstatus
      hreceiver =>
    refine ⟨hkeys, ?_, fun _ => rfl⟩
    intro t ht
    simp only [insertSignature, insertTransaction, List.mem_append, List.mem_singleton] at ht
    rcases ht with ht | ht
    · exact hreceivers t ht
    · exact hrec db rfl t (Or.inr (by rw [ht]; exact selectWallets_key_mem hreceiver))
  | transferred fromAddress toAddress a signature signerAddress wallet rest hrow hstatus hbal
      hreceiver =>
    have hkeyseq : ((updateBalance (updateBalance (insertSignature
        (insertTransaction db fromAddress toAddress a signature .completed).2
        db.nextTransactionId signerAddress signature) fromAddress (-a)) toAddress
        a).wallets.map fun w => w.public_key) = db.wallets.map fun w => w.public_key := by
      rw [updateBalance_keys, updateBalance_keys]
      rfl
    refine ⟨?_, ?_, fun _ => ?_⟩
    · unfold Db.WalletKeys
      rw [hkeyseq]
      exact hkeys
    · intro t ht
      simp only [insertSignature, insertTransaction, updateBalance, List.mem_append,
        List.mem_singleton] at ht
      rcases ht with ht | ht
      · exact hrec _ hkeyseq t (Or.inl ht)
      · exact hrec _ hkeyseq t (Or.inr (by rw [ht]; exact selectWallets_key_mem hreceiver))
    · exact settle_total (insertSignature
        (insertTransaction db fromAddress toAddress a signature .completed).2
        db.nextTransactionId signerAddress signature) fromAddress toAddress a hkeys
        (@selectWallets_key_mem db fromAddress (by rw [hrow]; simp))
        (@selectWallets_key_mem db toAddress hreceiver)
  | signed transactionId signerAddress signature transaction rest hrow hpending hnew =>
    exact ⟨hkeys, hreceivers, fun _ => rfl⟩
  | settled transactionId signerAddress signature transaction rest wallet hrow hpending hnew
      hwallet hquorum =>
    obtain ⟨hmem, hid⟩ := selectTransactions_head hrow
    have hkeyseq : ((completeTransaction (updateBalance (updateBalance
        (insertSignature db transactionId signerAddress signature)
        transaction.from_wallet (-transaction.amount))
        transaction.to_wallet transaction.amount) transactionId).wallets.map
          fun w => w.public_key) = db.wallets.map fun w => w.public_key := by
      have : (completeTransaction (updateBalance (updateBalance
          (insertSignature db transactionId signerAddress signature)
          transaction.from_wallet (-transaction.amount))
          transaction.to_wallet transaction.amount) transactionId).wallets =
          (updateBalance (updateBalance
          (insertSignature db transactionId signerAddress signature)
          transaction.from_wallet (-transaction.amount))
          transaction.to_wallet transaction.amount).wallets := rfl
      rw [this, updateBalance_keys, updateBalance_keys]
      rfl
    refine ⟨?_, ?_, fun _ => ?_⟩
    · unfold Db.WalletKeys
      rw [hkeyseq]
      exact hkeys
    · intro t ht
      simp only [completeTransaction, updateBalance, insertSignature, List.mem_map] at ht
      obtain ⟨t0, ht0, rfl⟩ := ht
      obtain ⟨w, hw, hwk⟩ := hrec _ hkeyseq t0 (Or.inl ht0)
      refine ⟨w, hw, ?_⟩
      rw [hwk]
      split_ifs <;> rfl
    · have hfrom : transaction.from_wallet ∈ db.wallets.map fun w => w.public_key := by
        obtain ⟨rest', hrows'⟩ := head?_eq_some hwallet
        exact @selectWallets_key_mem db transaction.from_wallet (by rw [hrows']; simp)
      have hto : transaction.to_wallet ∈ db.wallets.map fun w => w.public_key := by
        obtain ⟨w, hw, hwk⟩ := hreceivers transaction hmem
        exact List.mem_map.mpr ⟨w, hw, hwk⟩
      exact settle_total (insertSignature db transactionId signerAddress signature)
        transaction.from_wallet transaction.to_wallet transaction.amount hkeys hfrom hto

/-- A call of `transferFunds` or `approveTransaction` leaves the table `users` alone. -/
theorem Call.run_users {Key : Type} (E : Crypto Key) (call : Call) (db : Db)
    (h : call.movesFunds = true) : (call.run E db).users = db.users := by
  cases call with
  | createWallet fault username publicKey => cases h
  | transferFunds fault fromAddress toAddress amount signature signerAddress =>
    simp only [Call.run, MultiSigWallet.transferFunds]
    cases hres : transferFundsTry fault fromAddress toAddress amount signature signerAddress
        db with
    | error e => rfl
    | ok out =>
      obtain ⟨result, db'⟩ := out
      obtain ⟨wallet, rest, stored, _, _, _, _, _, rfl⟩ :=
        transferFundsTry_eq_ok fault fromAddress toAddress amount signature signerAddress db
          result db' hres
      dsimp only
      split_ifs <;> rfl
  | approveTransaction fault transactionId signerAddress signature =>
    simp only [Call.run, MultiSigWallet.approveTransaction]
    cases hres : approveTransactionTry E fault transactionId signerAddress signature db with
    | error e => rfl
    | ok out =>
      obtain ⟨result, db'⟩ := out
      obtain ⟨_, _, _, _, _, _, _, _, hcase⟩ :=
        approveTransactionTry_eq_ok E fault transactionId signerAddress signature db
          result db' hres
      rcases hcase with ⟨_, _, rfl⟩ | ⟨_, _, rfl⟩ <;> rfl

/-- A call of `transferFunds` or `approveTransaction` keeps the sum of all balances, the
unique public keys and the wallets of the receivers. -/
theorem Call.run_total {Key : Type} (E : Crypto Key) (call : Call) (db : Db)
    (h : call.movesFunds = true) (hkeys : db.WalletKeys) (hreceivers : db.ReceiversExist) :
    (call.run E db).WalletKeys ∧ (call.run E db).ReceiversExist ∧
      totalBalance (call.run E db) = totalBalance db := by
  rcases Call.run_step E call db with heq | hstep
  · rw [heq]
    exact ⟨hkeys, hreceivers, rfl⟩
  · obtain ⟨h1, h2, h3⟩ := step_total hstep hkeys hreceivers
    exact ⟨h1, h2, h3 (Call.run_users E call db h)⟩

/-- C27: in a database whose wallets have unique public keys and whose transactions all
name a receiver that has a wallet, every call of `transferFunds` and every call of
`approveTransaction`, successful or failed and whichever database calls fail, leaves the
sum of all wallet balances as it was; so does every sequence of such calls. -/
theorem total_balance_kept {Key : Type} (E : Crypto Key) (db : Db) (hkeys : db.WalletKeys)
    (hreceivers : db.ReceiversExist) :
    (∀ (fault : Faults) (fromAddress toAddress : String) (amount : JsNumber)
        (signature signerAddress : String),
      totalBalance (transferFunds fault fromAddress toAddress amount signature signerAddress
        db).2 = totalBalance db) ∧
    (∀ (fault : Faults) (transactionId : Nat) (signerAddress signature : String),
      totalBalance (approveTransaction E fault transactionId signerAddress signature db).2 =
        totalBalance db) ∧
    ∀ calls : List Call, (∀ call ∈ calls, call.movesFunds = true) →
      totalBalance (runCalls E calls db) = totalBalance db := by
  refine ⟨?_, ?_, ?_⟩
  · intro fault fromAddress toAddress amount signature signerAddress
    exact (Call.run_total E
      (.transferFunds fault fromAddress toAddress amount signature signerAddress) db rfl hkeys
      hreceivers).2.2
  · intro fault transactionId signerAddress signature
    exact (Call.run_total E (.approveTransaction fault transactionId signerAddress signature)
      db rfl hkeys hreceivers).2.2
  · intro calls
    revert hkeys hreceivers
    induction calls generalizing db with
    | nil => intro _ _ _; rfl
    | cons call calls ih =>
      intro hkeys hreceivers hall
      have hrun : runCalls E (call :: calls) db = runCalls E calls (call.run E db) := rfl
      obtain ⟨h1, h2, h3⟩ := Call.run_total E call db (hall call (by simp)) hkeys hreceivers
      rw [hrun, ih (call.run E db) h1 h2 (fun c hc => hall c (by simp [hc])), h3]

set_option maxRecDepth 100000 in
/-- C27 on worked examples: in `demoDb` the three balances sum to 2050.00; they still do
after the single-signature transfer, after the pending transfer and its approval, after a
refused call, and after the four calls of `overdraftCalls`, which leave wallet C below
zero. -/
theorem total_balance_kept_witness :
    totalBalance demoDb = 205000 ∧
      totalBalance (transferFunds noFault "04aa" "04bb" (.finite 2500) signatureA "04aa"
        demoDb).2 = totalBalance demoDb ∧
      totalBalance (approveTransaction demoCrypto noFault 1 "04dd" signatureD pendingDb).2 =
        totalBalance pendingDb ∧
      totalBalance (runCalls demoCrypto overdraftCalls demoDb) = totalBalance demoDb ∧
      (runCalls demoCrypto overdraftCalls demoDb).wallets.map (fun w => w.balance) =
        [100000, 165000, -60000] :=
  ⟨by decide, (total_balance_kept demoCrypto demoDb (by decide) (by decide)).1 _ _ _ _ _ _,
    (total_balance_kept demoCrypto pendingDb (by decide) (by decide)).2.1 _ _ _ _,
    (total_balance_kept demoCrypto demoDb (by decide) (by decide)).2.2 overdraftCalls
      (by decide), by decide⟩

/-! ## Who may sign a transfer -/

set_option maxRecDepth 1000000 in
/-- C28 at a failing input: `strangerRequest` passes the checks of `transferRules`; its
sender is the single-signature wallet A; its signature does not verify under A's public
key, it verifies under the key named in `signerAddress`, which is no wallet's key.  The
controller answers 200 with the status `completed`, and wallet A has 25.00 less and
wallet B 25.00 more. -/
theorem transfer_accepts_stranger_signature :
    transferRules strangerRequest = true ∧
      findByPublicKey longDb strangerRequest.fromAddress =
        some ⟨1, 1, longPublic 'a', 100000, false, 1⟩ ∧
      (∀ w ∈ longDb.wallets, w.public_key ≠ longPublic 'd') ∧
      verifySignature encodingCrypto (longPublic 'a') (requestTxData strangerRequest)
        strangerRequest.signature = .ok false ∧
      verifySignature encodingCrypto (longPublic 'd') (requestTxData strangerRequest)
        strangerRequest.signature = .ok true ∧
      (transfer encodingCrypto noFault strangerRequest longDb).1 =
        ⟨200, .ok ⟨1, .completed⟩⟩ ∧
      findByPublicKey (transfer encodingCrypto noFault strangerRequest longDb).2
        (longPublic 'a') = some ⟨1, 1, longPublic 'a', 97500, false, 1⟩ ∧
      findByPublicKey (transfer encodingCrypto noFault strangerRequest longDb).2
        (longPublic 'b') = some ⟨2, 2, longPublic 'b', 7500, false, 1⟩ := by
  refine ⟨by decide, by decide, by decide, by decide, by decide, by decide, by decide,
    by decide⟩

/-! ## One key, two spellings -/

set_option maxRecDepth 1000000 in
/-- C29 at a failing input: in `longPendingDb` transaction 1 (out of wallet C, two
signatures required) has the one signature record of C's key in its uncompressed
spelling.  The compressed spelling of the same key passes `HEX_KEY_REGEX` and denotes the
same key, and C's own signature verifies under it; the approval under that spelling is
not refused as a duplicate: it adds a second record and completes the transaction, which
then has two signer addresses and one signing key.  The same happens with the
uncompressed spelling in capital letters. -/
theorem approveTransaction_same_key_twice :
    HEX_KEY_REGEX (longPublic 'c') = true ∧ HEX_KEY_REGEX (compressedPublic 'c') = true ∧
      HEX_KEY_REGEX (longPublic 'C') = true ∧
      encodingCrypto.keyFromPublic (compressedPublic 'c') =
        encodingCrypto.keyFromPublic (longPublic 'c') ∧
      encodingCrypto.keyFromPublic (longPublic 'C') =
        encodingCrypto.keyFromPublic (longPublic 'c') ∧
      findByPublicKey longPendingDb (longPublic 'c') =
        some ⟨3, 3, longPublic 'c', 100000, true, 2⟩ ∧
      selectSignatures longPendingDb 1 = [⟨1, longPublic 'c', longSignatureC⟩] ∧
      (approveTransaction encodingCrypto noFault 1 (compressedPublic 'c') longSignatureC
        longPendingDb).1 = .ok ⟨.completed, "Yeterli imzaya ulaşıldı. Transfer gerçekleşti."⟩ ∧
      signers (approveTransaction encodingCrypto noFault 1 (compressedPublic 'c')
        longSignatureC longPendingDb).2 1 = [longPublic 'c', compressedPublic 'c'] ∧
      ((signers (approveTransaction encodingCrypto noFault 1 (compressedPublic 'c')
        longSignatureC longPendingDb).2 1).map encodingCrypto.keyFromPublic).dedup.length = 1 ∧
      findByPublicKey (approveTransaction encodingCrypto noFault 1 (compressedPublic 'c')
        longSignatureC longPendingDb).2 (longPublic 'c') =
          some ⟨3, 3, longPublic 'c', 90000, true, 2⟩ ∧
      (approveTransaction encodingCrypto noFault 1 (longPublic 'C') longSignatureC
        longPendingDb).1 = .ok ⟨.completed, "Yeterli imzaya ulaşıldı. Transfer gerçekleşti."⟩ := by
  refine ⟨by decide, by decide, by decide, by decide, by decide, by decide, by decide,
    by decide, by decide, by decide, by decide, by decide⟩

/-! ## The initial status under the wallet invariant -/

/-- C8: from a database whose wallets keep the wallet invariant (a wallet that is not
multi-signature requires one signature), after every sequence of `createWallet`,
`transferFunds` and `approveTransaction` calls, for every successful `transferFunds`
call, whichever database calls fail in other runs: the status returned is `pending` if
the sender wallet requires at least 2 signatures and `completed` otherwise, and the new
transaction row is stored with that status. -/
theorem transferFunds_status_by_required_signatures {Key : Type} (E : Crypto Key) (db : Db)
    (hinv : db.WalletInvariant) (calls : List Call) (fault : Faults)
    (fromAddress toAddress : String) (amount : JsNumber) (signature signerAddress : String)
    (wallet : Wallet) (result : TransferResult)
    (hsender : findByPublicKey (runCalls E calls db) fromAddress = some wallet)
    (hok : (transferFunds fault fromAddress toAddress amount signature signerAddress
      (runCalls E calls db)).1 = .ok result) :
    (2 ≤ wallet.required_signatures → result.status = .pending) ∧
    (¬ 2 ≤ wallet.required_signatures → result.status = .completed) ∧
    ∃ stored, amount = .finite stored ∧
      (⟨result.transactionId, fromAddress, toAddress, stored, signature, result.status,
        (runCalls E calls db).now⟩ : Transaction) ∈
        (transferFunds fault fromAddress toAddress amount signature signerAddress
          (runCalls E calls db)).2.transactions := by
  have hinv' : (runCalls E calls db).WalletInvariant :=
    runCalls_induction E (fun d => d.WalletInvariant)
      (fun d d' hd hstep => step_walletInvariant hstep hd) calls db hinv
  obtain ⟨rest, hrow⟩ := head?_eq_some hsender
  have hmem : wallet ∈ (runCalls E calls db).wallets := by
    have : wallet ∈ selectWallets (runCalls E calls db) fromAddress := by rw [hrow]; simp
    exact (List.mem_filter.mp this).1
  have hflag := hinv' wallet hmem
  unfold transferFunds at hok ⊢
  cases hres : transferFundsTry fault fromAddress toAddress amount signature signerAddress
      (runCalls E calls db) with
  | error e => rw [hres] at hok; cases hok
  | ok out =>
    obtain ⟨r, db'⟩ := out
    rw [hres] at hok
    simp only [Except.ok.injEq] at hok
    subst hok
    obtain ⟨hstatus, stored, hamount, hstored⟩ :=
      transferFundsTry_status fault fromAddress toAddress amount signature signerAddress
        (runCalls E calls db) wallet rest hrow r db' hres
    refine ⟨?_, ?_, stored, hamount, by rw [hstatus]; exact hstored⟩
    · intro h2
      rw [hstatus]
      unfold initialStatus
      cases hm : wallet.is_multisig with
      | false =>
        have := hflag hm
        omega
      | true =>
        have : wallet.required_signatures > 1 := by omega
        simp [this]
    · intro h2
      rw [hstatus]
      unfold initialStatus
      have : ¬ wallet.required_signatures > 1 := by omega
      simp [this]

set_option maxRecDepth 100000 in
/-- C8 on the worked example, after a wallet has been created and a transfer made: wallet
C requires two signatures, its transfer is `pending` and stored as pending; wallet A
requires one and its transfer is `completed`. -/
theorem transferFunds_status_by_required_signatures_witness :
    demoDb.WalletInvariant ∧
      (transferFunds noFault "04cc" "04bb" (.finite 10000) signatureC "04cc"
        (runCalls demoCrypto (demoCalls.take 2) demoDb)).1 = .ok ⟨2, .pending⟩ ∧
      (transferFunds noFault "04aa" "04bb" (.finite 2500) signatureA "04aa"
        (runCalls demoCrypto (demoCalls.take 2) demoDb)).1 = .ok ⟨2, .completed⟩ ∧
      ((2 ≤ walletC.required_signatures → (⟨2, .pending⟩ : TransferResult).status = .pending) ∧
        (¬ 2 ≤ walletC.required_signatures →
          (⟨2, .pending⟩ : TransferResult).status = .completed) ∧
        ∃ stored, JsNumber.finite 10000 = .finite stored ∧
          (⟨2, "04cc", "04bb", stored, signatureC, .pending,
            (runCalls demoCrypto (demoCalls.take 2) demoDb).now⟩ : Transaction) ∈
            (transferFunds noFault "04cc" "04bb" (.finite 10000) signatureC "04cc"
              (runCalls demoCrypto (demoCalls.take 2) demoDb)).2.transactions) :=
  have hC : (transferFunds noFault "04cc" "04bb" (.finite 10000) signatureC "04cc"
      (runCalls demoCrypto (demoCalls.take 2) demoDb)).1 = .ok ⟨2, .pending⟩ := by decide
  have hA : (transferFunds noFault "04aa" "04bb" (.finite 2500) signatureA "04aa"
      (runCalls demoCrypto (demoCalls.take 2) demoDb)).1 = .ok ⟨2, .completed⟩ := by decide
  ⟨by decide, hC, hA,
    transferFunds_status_by_required_signatures demoCrypto demoDb (by decide)
      (demoCalls.take 2) noFault "04cc" "04bb" (.finite 10000) signatureC "04cc" walletC
      ⟨2, .pending⟩ (by decide) hC⟩

/-! ## `getTransactionHistory` -/

theorem newerFirst_isTotal : IsTotal Transaction newerFirst :=
  ⟨fun a b => Nat.le_total b.created_at a.created_at⟩

theorem newerFirst_isTrans : IsTrans Transaction newerFirst :=
  ⟨fun _ _ _ hab hbc => Nat.le_trans hbc hab⟩

/-- The transactions involving a wallet, in the order of the query: the same rows, newest
first. -/
theorem selectInvolving_sorted_perm (db : Db) (publicKey : String) :
    (selectInvolving db publicKey).Perm (db.transactions.filter (involves publicKey)) ∧
      (selectInvolving db publicKey).Sorted newerFirst := by
  haveI := newerFirst_isTotal
  haveI := newerFirst_isTrans
  exact ⟨List.perm_insertionSort _ _, List.sorted_insertionSort _ _⟩

/-- A `LIMIT ?` parameter is taken or refused with the one error. -/
theorem limitParam_cases (x : JsNumber) :
    (∃ n, limitParam x = .ok n) ∨ limitParam x = .error (.database "ER_WRONG_ARGUMENTS") := by
  cases x with
  | finite h =>
    by_cases hneg : h < 0
    · exact Or.inr (by simp [limitParam, hneg])
    · exact Or.inl ⟨(h / 100).toNat, by simp [limitParam, hneg]⟩
  | nan => exact Or.inr rfl
  | posInf => exact Or.inr rfl
  | negInf => exact Or.inr rfl

/-- A whole number from 0 below `1e21` is the `LIMIT ?` parameter it is. -/
theorem limitParam_whole (n : Nat) (hn : n < 10 ^ 21) :
    limitParam (parseIntNumber (.finite (100 * (n : Int)))) = .ok n := by
  have habs : (100 * (n : Int)).natAbs < 10 ^ 23 := by omega
  have hdiv : Int.tdiv (100 * (n : Int)) 100 = n := by
    rw [Int.mul_tdiv_cancel_left]
    decide
  have hnonneg : ¬ ((n : Int) * 100 < 0) := by omega
  have hparse : parseIntNumber (.finite (100 * (n : Int))) = .finite ((n : Int) * 100) := by
    show (if (100 * (n : Int)).natAbs < 10 ^ 23 then
        JsNumber.finite (Int.tdiv (100 * (n : Int)) 100 * 100)
      else JsNumber.finite (Int.sign (100 * (n : Int)) *
        (exponentLeadingDigit ((100 * (n : Int)).natAbs / 100) : Nat) * 100)) = _
    rw [if_pos habs, hdiv]
  rw [hparse]
  simp [limitParam, hnonneg]

set_option maxRecDepth 100000 in
/-- C22 as stated fails for a negative `limit`: wallet A exists in `historyDb`, and with
the limit -5 `getTransactionHistory` returns no page, it fails with the error of the
refused query; the history controller makes this limit of the query value `-5` and
answers 500.  The same happens with the offset `Infinity`, which the controller makes of
an offset of 400 digits. -/
theorem getTransactionHistory_negative_limit :
    (∃ w ∈ historyDb.wallets, w.public_key = "04aa") ∧
      getTransactionHistory noFault "04aa" (.finite (-500)) (.finite 0) historyDb =
        (.error (.database "ER_WRONG_ARGUMENTS"), historyDb) ∧
      historyLimit (some "-5") = .finite (-500) ∧ historyOffset none = .finite 0 ∧
      (getHistory noFault "04aa" (some "-5") none historyDb).1 =
        ⟨500, .error "ER_WRONG_ARGUMENTS"⟩ ∧
      getTransactionHistory noFault "04aa" (.finite 2000) .posInf historyDb =
        (.error (.database "ER_WRONG_ARGUMENTS"), historyDb) := by
  refine ⟨⟨walletA, by decide, rfl⟩, by decide, by decide, by decide, by decide, by decide⟩

/-- C22 (amended): `getTransactionHistory` (with a database that answers) fails with the
wallet-not-found error when no wallet has the public key, whatever `limit` and `offset`
are.  When a wallet has it and `parseInt` makes numbers from 0 of `limit` and `offset`
(so for every whole `limit` and `offset` from 0 below `1e21`), it returns `total`, the
number of all transactions whose `from_wallet` or `to_wallet` is the public key, the same
for every such `limit` and `offset`, and the page: the list of exactly those
transactions, ordered newest first, without its first `offset` rows and cut after `limit`
rows, so at most `limit` rows, newest first, each a transaction involving the wallet with
`signature_count` the number of its signature records.  When `parseInt` makes a negative
number or `NaN` of `limit` or of `offset`, the query is refused and the call fails with
the database error.  The database is as before in every case. -/
theorem getTransactionHistory_page (publicKey : String) (db : Db) :
    ((∀ w ∈ db.wallets, w.public_key ≠ publicKey) → ∀ limit offset : JsNumber,
      getTransactionHistory noFault publicKey limit offset db =
        (.error .walletNotFound, db)) ∧
    ((∃ w ∈ db.wallets, w.public_key = publicKey) →
      (∀ (limit offset : JsNumber) (count skip : Nat),
        limitParam (parseIntNumber limit) = .ok count →
        limitParam (parseIntNumber offset) = .ok skip →
        getTransactionHistory noFault publicKey limit offset db =
          (.ok ⟨(((selectInvolving db publicKey).drop skip).take count).map (historyRow db),
            (db.transactions.filter (involves publicKey)).length, limit, offset⟩, db) ∧
        ((((selectInvolving db publicKey).drop skip).take count).map (historyRow db)).length ≤
          count ∧
        ((((selectInvolving db publicKey).drop skip).take count).map (historyRow db)).Sorted
          (fun a b => b.created_at ≤ a.created_at) ∧
        ∀ r ∈ (((selectInvolving db publicKey).drop skip).take count).map (historyRow db),
          ∃ t ∈ db.transactions, (t.from_wallet = publicKey ∨ t.to_wallet = publicKey) ∧
            r = ⟨t.id, t.from_wallet, t.to_wallet, t.amount, t.status, t.created_at,
              (selectSignatures db t.id).length⟩) ∧
      (∀ limit offset : JsNumber,
        limitParam (parseIntNumber limit) = .error (.database "ER_WRONG_ARGUMENTS") ∨
          limitParam (parseIntNumber offset) = .error (.database "ER_WRONG_ARGUMENTS") →
        getTransactionHistory noFault publicKey limit offset db =
          (.error (.database "ER_WRONG_ARGUMENTS"), db))) ∧
    ((selectInvolving db publicKey).Perm (db.transactions.filter (involves publicKey)) ∧
      (selectInvolving db publicKey).Sorted newerFirst) ∧
    (∀ n : Nat, n < 10 ^ 21 →
      limitParam (parseIntNumber (.finite (100 * (n : Int)))) = .ok n) ∧
    ∀ limit offset : JsNumber,
      (getTransactionHistory noFault publicKey limit offset db).2 = db := by
  obtain ⟨hperm, hsorted⟩ := selectInvolving_sorted_perm db publicKey
  refine ⟨?_, ?_, ⟨hperm, hsorted⟩, limitParam_whole, fun _ _ => rfl⟩
  · intro hnone limit offset
    have hrows : selectWallets db publicKey = [] := by
      unfold selectWallets
      rw [List.filter_eq_nil_iff]
      intro w hw
      simpa using hnone w hw
    simp [getTransactionHistory, findByPublicKey, hrows, execute, noFault, bind, Except.bind,
      pure, Except.pure, throw, throwThe, MonadExceptOf.throw]
  · rintro ⟨w, hw, hkey⟩
    have hmem : w ∈ selectWallets db publicKey :=
      List.mem_filter.mpr ⟨hw, by simpa using hkey⟩
    obtain ⟨wallet, rest, hrows⟩ : ∃ wallet rest, selectWallets db publicKey = wallet :: rest := by
      cases hrows : selectWallets db publicKey with
      | nil => rw [hrows] at hmem; cases hmem
      | cons wallet rest => exact ⟨wallet, rest, rfl⟩
    constructor
    · intro limit offset count skip hcount hskip
      refine ⟨?_, ?_, ?_, ?_⟩
      · simp [getTransactionHistory, findByPublicKey, hrows, execute, noFault, hcount, hskip,
          bind, Except.bind, pure, Except.pure]
      · rw [List.length_map, List.length_take]
        exact Nat.min_le_left _ _
      · rw [List.Sorted, List.pairwise_map]
        exact (hsorted.sublist ((List.take_sublist _ _).trans (List.drop_sublist _ _)))
      · intro r hr
        obtain ⟨t, ht, rfl⟩ := List.mem_map.mp hr
        have ht' : t ∈ selectInvolving db publicKey :=
          List.mem_of_mem_drop (List.mem_of_mem_take ht)
        have hfilter := List.mem_filter.mp (hperm.subset ht')
        refine ⟨t, hfilter.1, ?_, rfl⟩
        simpa [involves] using hfilter.2
    · intro limit offset hbad
      rcases limitParam_cases (parseIntNumber limit) with ⟨count, hcount⟩ | hcount
      · rcases hbad with hbad | hbad
        · rw [hcount] at hbad
          cases hbad
        · simp [getTransactionHistory, findByPublicKey, hrows, execute, noFault, hcount, hbad,
            bind, Except.bind, pure, Except.pure]
      · simp [getTransactionHistory, findByPublicKey, hrows, execute, noFault, hcount,
          bind, Except.bind, pure, Except.pure]

/-- C22 on the worked example `historyDb`: wallet A is in transactions 1, 3 and 4; the
page of two rows after skipping one is transaction 3 (two signatures) and transaction 1,
and the total is 3, as it is for the page of one hundred rows; an unknown wallet gives
the error. -/
theorem getTransactionHistory_page_witness :
    getTransactionHistory noFault "04aa" (.finite 200) (.finite 100) historyDb =
        (.ok ⟨[⟨3, "04cc", "04aa", 700, .pending, 30, 2⟩,
          ⟨1, "04aa", "04bb", 2500, .completed, 10, 1⟩], 3, .finite 200, .finite 100⟩,
          historyDb) ∧
      ((getTransactionHistory noFault "04aa" (.finite 10000) (.finite 0) historyDb).1.map
        fun history => (history.transactions.map (fun r => r.id), history.total)) =
          .ok ([4, 3, 1], 3) ∧
      getTransactionHistory noFault "04zz" (.finite 200) (.finite 100) historyDb =
        (.error .walletNotFound, historyDb) :=
  have h := getTransactionHistory_page "04aa" historyDb
  ⟨((h.2.1 ⟨walletA, by decide, rfl⟩).1 (.finite 200) (.finite 100) 2 1 (by decide)
      (by decide)).1.trans (by decide), by decide,
    (getTransactionHistory_page "04zz" historyDb).1 (by decide) (.finite 200)
      (.finite 100)⟩
/-! ## The page of the history controller -/

/-- The number `a || b` is not `NaN` when `b` is not. -/
theorem JsNumber.orElse_ne_nan (a b : JsNumber) (hb : b ≠ .nan) : a.orElse b ≠ .nan := by
  unfold JsNumber.orElse
  cases a with
  | nan => exact hb
  | finite h =>
    dsimp only
    split_ifs
    · exact hb
    · simp
  | posInf => simp
  | negInf => simp

/-- `Math.min(x, 100)` is `-Infinity` or a number that is at most 100. -/
theorem JsNumber.min_bound (x : JsNumber) (hx : x ≠ .nan) :
    x.min (.finite 10000) = .negInf ∨ ∃ h, x.min (.finite 10000) = .finite h ∧ h ≤ 10000 := by
  cases x with
  | nan => exact absurd rfl hx
  | finite h =>
    right
    by_cases hlt : h < 10000
    · exact ⟨h, by simp [JsNumber.min, JsNumber.lt, hlt], by omega⟩
    · exact ⟨10000, by simp [JsNumber.min, JsNumber.lt, hlt], by omega⟩
  | posInf => exact Or.inr ⟨10000, by simp [JsNumber.min, JsNumber.lt], by omega⟩
  | negInf => exact Or.inl (by simp [JsNumber.min, JsNumber.lt])

/-- `Math.max(x, 0)` is `Infinity` or a number that is at least 0. -/
theorem JsNumber.max_bound (x : JsNumber) (hx : x ≠ .nan) :
    x.max (.finite 0) = .posInf ∨ ∃ h, x.max (.finite 0) = .finite h ∧ 0 ≤ h := by
  cases x with
  | nan => exact absurd rfl hx
  | finite h =>
    right
    by_cases hlt : h < 0
    · exact ⟨0, by simp [JsNumber.max, JsNumber.lt, hlt], by omega⟩
    · exact ⟨h, by simp [JsNumber.max, JsNumber.lt, hlt], by omega⟩
  | posInf => exact Or.inl (by simp [JsNumber.max, JsNumber.lt])
  | negInf => exact Or.inr ⟨0, by simp [JsNumber.max, JsNumber.lt], by omega⟩

/-- C25: for every `limit` and `offset` of the query, present or absent, the `limit` of the
history controller is at most 100 (a number up to 100.00, or `-Infinity`), and 20 when the
value is absent or `parseInt` makes `NaN` of it; its `offset` is at least 0 (a number from
0, or `Infinity`), and 0 when the value is absent or `parseInt` makes `NaN` of it.  The
controller passes exactly these two values: whatever function stands for
`WalletModel.getTransactionHistory`, the answer of the controller is made of what that
function returns for the public key, this `limit` and this `offset`; so it is for
`getTransactionHistory` itself. -/
theorem getHistory_limit_offset (limit offset : QueryValue) :
    (historyLimit limit = .negInf ∨ ∃ h, historyLimit limit = .finite h ∧ h ≤ 10000) ∧
    ((limit = none ∨ ∃ text, limit = some text ∧ parseInt text = .nan) →
      historyLimit limit = .finite 2000) ∧
    (historyOffset offset = .posInf ∨ ∃ h, historyOffset offset = .finite h ∧ 0 ≤ h) ∧
    ((offset = none ∨ ∃ text, offset = some text ∧ parseInt text = .nan) →
      historyOffset offset = .finite 0) ∧
    (∀ (model : String → JsNumber → JsNumber → Db → Except WalletError HistoryResult × Db)
        (publicKey : String) (db : Db),
      getHistoryWith model publicKey limit offset db =
        (match (model publicKey (historyLimit limit) (historyOffset offset) db).1 with
          | .ok history => ⟨200, .ok history⟩
          | .error e =>
            ⟨if includes e.message "bulunamadı" then 404 else 500, .error e.message⟩,
          (model publicKey (historyLimit limit) (historyOffset offset) db).2)) ∧
    ∀ (fault : Faults) (publicKey : String) (db : Db),
      getHistory fault publicKey limit offset db =
        (match (getTransactionHistory fault publicKey (historyLimit limit)
            (historyOffset offset) db).1 with
          | .ok history => ⟨200, .ok history⟩
          | .error e =>
            ⟨if includes e.message "bulunamadı" then 404 else 500, .error e.message⟩,
          (getTransactionHistory fault publicKey (historyLimit limit)
            (historyOffset offset) db).2) := by
  have hwith : ∀ (model : String → JsNumber → JsNumber → Db →
      Except WalletError HistoryResult × Db) (publicKey : String) (db : Db),
      getHistoryWith model publicKey limit offset db =
        (match (model publicKey (historyLimit limit) (historyOffset offset) db).1 with
          | .ok history => ⟨200, .ok history⟩
          | .error e =>
            ⟨if includes e.message "bulunamadı" then 404 else 500, .error e.message⟩,
          (model publicKey (historyLimit limit) (historyOffset offset) db).2) := by
    intro model publicKey db
    unfold getHistoryWith
    cases hres : model publicKey (historyLimit limit) (historyOffset offset) db with
    | mk out db' =>
      cases out with
      | ok history => rfl
      | error e => rfl
  refine ⟨JsNumber.min_bound _ (JsNumber.orElse_ne_nan _ _ (by simp)), ?_,
    JsNumber.max_bound _ (JsNumber.orElse_ne_nan _ _ (by simp)), ?_, hwith,
    fun fault publicKey db => hwith (getTransactionHistory fault) publicKey db⟩
  · rintro (rfl | ⟨text, rfl, hnan⟩)
    · decide
    · simp [historyLimit, queryInt, hnan, JsNumber.orElse, JsNumber.min, JsNumber.lt]
  · rintro (rfl | ⟨text, rfl, hnan⟩)
    · decide
    · simp [historyOffset, queryInt, hnan, JsNumber.orElse, JsNumber.max, JsNumber.lt]

set_option maxRecDepth 1000000 in
set_option exponentiation.threshold 2000 in
/-- C25 on query values: `500` is cut to 100; `abc`, an absent value and `0` give the
limit 20; `0x10` is read as 16; a negative limit is passed on as it is; `-3` gives the
offset 0 and `7px` the offset 7; `9007199254740993` is the double `9007199254740992`; a
text of 400 digits is `Infinity`, which gives the limit 100 and the offset `Infinity`.
With the limit `-5` the controller answers 500, with an unknown wallet 404. -/
theorem getHistory_limit_offset_witness :
    historyLimit (some "500") = .finite 10000 ∧ historyLimit (some "abc") = .finite 2000 ∧
      historyLimit none = .finite 2000 ∧ historyLimit (some "0") = .finite 2000 ∧
      historyLimit (some " 0x10") = .finite 1600 ∧ historyLimit (some "-5") = .finite (-500) ∧
      historyOffset (some "-3") = .finite 0 ∧ historyOffset (some "7px") = .finite 700 ∧
      historyOffset (some "") = .finite 0 ∧
      historyOffset (some "9007199254740993") = .finite 900719925474099200 ∧
      historyLimit (some (String.mk (List.replicate 400 '9'))) = .finite 10000 ∧
      historyOffset (some (String.mk (List.replicate 400 '9'))) = .posInf ∧
      (getHistory noFault "04aa" (some "-5") none historyDb).1 =
        ⟨500, .error "ER_WRONG_ARGUMENTS"⟩ ∧
      (getHistory noFault "04zz" none none historyDb).1 = ⟨404, .error "Cüzdan bulunamadı."⟩ :=
  ⟨by decide, (getHistory_limit_offset (some "abc") none).2.1 (Or.inr ⟨"abc", rfl, by decide⟩),
    (getHistory_limit_offset none none).2.1 (Or.inl rfl), by decide, by decide, by decide,
    by decide, by decide,
    (getHistory_limit_offset none (some "")).2.2.2.1 (Or.inr ⟨"", rfl, by decide⟩),
    by decide, by decide, by decide,
    ((getHistory_limit_offset (some "-5") none).2.2.2.2.2 noFault "04aa" historyDb ▸
      (by decide)),
    by decide⟩

end MultiSigWallet
